import Mathlib

/-!
# Connect Four move selection: a shallow embedding of `GameBoard.hpp` and `ConnectFourGame.hpp`

Conventions of the embedding.

* A C++ `int` is an `Int`.  Arithmetic whose operands are bounded by the board (loop
  counters, coordinates of a cell) is taken in `Int`.  Where the operands are not bounded,
  the result is reduced to 32 bits two's complement by `wrap32`: the product and the sum of
  `getBoardIndex`, whose arguments no caller contract bounds from below, and the
  arithmetic on heuristic scores, where the sentinel `INT_MAX` takes part.
* `/` and `%` on `int` truncate towards zero: `Int.tdiv` and `Int.tmod`.
* A call that throws, aborts or cannot return is a value `Except.error f` with `f : Fault`;
  a call that returns is `Except.ok v`.  `assert` is taken as active (a debug build).
* `std::vector<GameSlot>` is a `List GameSlot`; `vector::at` is `GameBoard.vectorAt`.
* `tbb::parallel_for` over a `blocked_range` is run column by column in ascending order.
  Each column writes its own cell of the result vector only, so the schedule can change
  which fault is reported when several columns fail, never whether the call fails.
* The source writes `getNumberOfColumns - 1` and `getNumberOfRows - 1` in a few places
  (the call parentheses are missing); they are read as the calls they stand for. The loop
  headers of the two diagonal scorers declare `int startRow = ..., int startColumn = ...`;
  they are read as the two loop variables they stand for.
* `GameSlot.hpp` is not among the sources; the slot is modelled from the specification.
-/

namespace ConnectFour

/-- Ways in which a call fails to return a value. -/
inductive Fault where
  /-- The std::logic_error thrown by getBoardIndex and by the two diagonal neighbour lookups. -/
  | geometry
  /-- The std::logic_error "Force drop is not allowed for this game board". -/
  | policy
  /-- The std::out_of_range thrown by std::vector::at. -/
  | outOfRange
  /-- A std::vector constructed with a negative number of elements. -/
  | lengthError
  /-- A failed assert. -/
  | assertion
  /-- Integer division or remainder by zero. -/
  | divideByZero
  /-- A read of a local variable that was never assigned. -/
  | indeterminate
  /-- A loop or a recursion that does not reach its exit. -/
  | nonTermination
  deriving DecidableEq, Repr

/-- The constant INT_MAX of climits for a 32-bit int. -/
def INT_MAX : Int := 2147483647

/-- Reduction of an integer to the 32-bit two's complement range. -/
def wrap32 (x : Int) : Int := (x + 2147483648) % 4294967296 - 2147483648

/-- Modelled from the spec: `GameSlot.hpp` is not among the sources. The spec gives a slot
three states: Empty, owned by player A (the user) or owned by player B (the computer). -/
inductive GameSlot where
  | empty
  | userCoin
  | computerCoin
  deriving DecidableEq, Repr

/-- Modelled from the spec: GameSlot::isEmpty, true on an Empty slot. -/
def GameSlot.isEmpty : GameSlot → Bool
  | GameSlot.empty => true
  | _ => false

/-- Modelled from the spec: GameSlot::hasUserCoin, true on a slot owned by the user. -/
def GameSlot.hasUserCoin : GameSlot → Bool
  | GameSlot.userCoin => true
  | _ => false

/-- Modelled from the spec: GameSlot::hasComputerCoin, true on a slot owned by the computer. -/
def GameSlot.hasComputerCoin : GameSlot → Bool
  | GameSlot.computerCoin => true
  | _ => false

/-- Modelled from the spec: GameSlot::putCoin. An Empty slot becomes owned by the user when
the flag is set and by the computer otherwise; an owned slot keeps its owner (slots only go
from Empty to Owned). -/
def GameSlot.putCoin (s : GameSlot) (isUserCoin : Bool) : GameSlot :=
  match s with
  | GameSlot.empty => if isUserCoin then GameSlot.userCoin else GameSlot.computerCoin
  | owned => owned

/-! ## `model::GameBoard` -/

/-- The members of model::GameBoard. -/
structure GameBoard where
  gameBoard : List GameSlot
  numberOfRows : Int
  numberOfColumns : Int
  forceDropAllowed : Bool
  deriving DecidableEq, Repr

namespace GameBoard

def DEFAULT_NUMBER_OF_ROWS : Int := 6

def DEFAULT_NUMBER_OF_COLUMNS : Int := 7

/-- The default constructor `GameBoard()`. -/
def default : GameBoard :=
  { gameBoard := List.replicate (DEFAULT_NUMBER_OF_ROWS * DEFAULT_NUMBER_OF_COLUMNS).toNat GameSlot.empty
    numberOfRows := DEFAULT_NUMBER_OF_ROWS
    numberOfColumns := DEFAULT_NUMBER_OF_COLUMNS
    forceDropAllowed := false }

/-- The constructor `GameBoard(int numberOfRows, int numberOfColumns)`. A negative element
count cannot be allocated. -/
def ofDimensions (numberOfRows numberOfColumns : Int) : Except Fault GameBoard :=
  if numberOfRows * numberOfColumns < 0 then Except.error Fault.lengthError
  else Except.ok
    { gameBoard := List.replicate (numberOfRows * numberOfColumns).toNat GameSlot.empty
      numberOfRows := numberOfRows
      numberOfColumns := numberOfColumns
      forceDropAllowed := false }

/-- The constructor `GameBoard(std::vector<GameSlot> gameBoard)`. It assigns the slots and
the flag only; the two dimension members stay uninitialised and are taken here as the
arbitrary values `rows` and `columns`. -/
def ofSlots (gameBoard : List GameSlot) (rows columns : Int) : GameBoard :=
  { gameBoard := gameBoard
    numberOfRows := rows
    numberOfColumns := columns
    forceDropAllowed := true }

/-- The implicit copy constructor `GameBoard(const GameBoard&)`: a member-wise copy, the
flag forceDropAllowed included. -/
def copy (other : GameBoard) : GameBoard :=
  { gameBoard := other.gameBoard
    numberOfRows := other.numberOfRows
    numberOfColumns := other.numberOfColumns
    forceDropAllowed := other.forceDropAllowed }

def getNumberOfRows (b : GameBoard) : Int := b.numberOfRows

def getNumberOfColumns (b : GameBoard) : Int := b.numberOfColumns

/-- The bounds-checked access `gameBoard.at(boardIndex)` of std::vector. -/
def vectorAt (b : GameBoard) (boardIndex : Int) : Except Fault GameSlot :=
  if 0 ≤ boardIndex ∧ boardIndex < b.gameBoard.length then
    Except.ok (b.gameBoard.getD boardIndex.toNat GameSlot.empty)
  else Except.error Fault.outOfRange

def isValidColumn (b : GameBoard) (columnNumber : Int) : Bool :=
  if columnNumber ≥ 0 ∧ columnNumber < b.numberOfColumns then true else false

def getRowNumber (b : GameBoard) (boardIndex : Int) : Except Fault Int :=
  if b.numberOfColumns = 0 then Except.error Fault.divideByZero
  else Except.ok (Int.tdiv boardIndex b.numberOfColumns)

def getColumnNumber (b : GameBoard) (boardIndex : Int) : Except Fault Int :=
  if b.numberOfColumns = 0 then Except.error Fault.divideByZero
  else Except.ok (Int.tmod boardIndex b.numberOfColumns)

/-- The index `rowNumber * numberOfColumns + columnNumber` is computed in `int`: the product
and the sum are reduced to 32 bits. -/
def getBoardIndex (b : GameBoard) (rowNumber columnNumber : Int) : Except Fault Int :=
  if rowNumber ≤ b.numberOfRows - 1 ∧ columnNumber ≤ b.numberOfColumns - 1 then
    Except.ok (wrap32 (wrap32 (rowNumber * b.numberOfColumns) + columnNumber))
  else Except.error Fault.geometry

def getDiagonalCellToRightGoingUp (b : GameBoard) (boardIndex : Int) : Except Fault Int := do
  let rowNumber ← b.getRowNumber boardIndex
  let columnNumber ← b.getColumnNumber boardIndex
  if rowNumber ≠ 0 ∧ columnNumber ≠ b.numberOfColumns - 1 then
    b.getBoardIndex (rowNumber - 1) (columnNumber + 1)
  else Except.error Fault.geometry

def getDiagonalCellToRightGoingDown (b : GameBoard) (boardIndex : Int) : Except Fault Int := do
  let rowNumber ← b.getRowNumber boardIndex
  let columnNumber ← b.getColumnNumber boardIndex
  if rowNumber ≠ b.numberOfRows - 1 ∧ columnNumber ≠ b.numberOfColumns - 1 then
    b.getBoardIndex (rowNumber + 1) (columnNumber + 1)
  else Except.error Fault.geometry

def isEmptyAt (b : GameBoard) (boardIndex : Int) : Except Fault Bool := do
  let slot ← b.vectorAt boardIndex
  if slot.isEmpty then Except.ok true else Except.ok false

/-- The accessor getGameSlot returns the slot by value: a copy of the stored slot. -/
def getGameSlot (b : GameBoard) (boardIndex : Int) : Except Fault GameSlot :=
  b.vectorAt boardIndex

/-- The loop `for (slotCounter = bottom; slotCounter >= top; slotCounter -= numberOfColumns)`
shared by forceDropCoin and getAvailableSlot, up to the first Empty slot: `some` of its
index when one is found, `none` when the loop runs out. The first argument bounds the
number of iterations; with a step other than 0 the visited indices are distinct and every
index outside the vector throws, so `gameBoard.length + 1` iterations are always enough,
and with step 0 on an owned slot the loop of the source never ends. -/
def firstEmptyFromBottom (b : GameBoard) (topRowInColumn : Int) :
    Nat → Int → Except Fault (Option Int)
  | 0, _ => Except.error Fault.nonTermination
  | fuel + 1, slotCounter =>
    if slotCounter ≥ topRowInColumn then do
      let empty ← b.isEmptyAt slotCounter
      if empty then Except.ok (some slotCounter)
      else firstEmptyFromBottom b topRowInColumn fuel (slotCounter - b.numberOfColumns)
    else Except.ok none

/-- The same loop as firstEmptyFromBottom, with a record of its accesses: the indices it hands
to isEmptyAt, in the order of the calls, next to the result of the loop. -/
def firstEmptyFromBottomTraced (b : GameBoard) (topRowInColumn : Int) :
    Nat → Int → List Int × Except Fault (Option Int)
  | 0, _ => ([], Except.error Fault.nonTermination)
  | fuel + 1, slotCounter =>
    if slotCounter ≥ topRowInColumn then
      match b.isEmptyAt slotCounter with
      | Except.error fault => ([slotCounter], Except.error fault)
      | Except.ok true => ([slotCounter], Except.ok (some slotCounter))
      | Except.ok false =>
        (slotCounter ::
            (firstEmptyFromBottomTraced b topRowInColumn fuel (slotCounter - b.numberOfColumns)).1,
          (firstEmptyFromBottomTraced b topRowInColumn fuel (slotCounter - b.numberOfColumns)).2)
    else ([], Except.ok none)

def forceDropCoin (b : GameBoard) (columnNumber : Int) (isUserCoin : Bool) :
    Except Fault GameBoard :=
  if b.forceDropAllowed then do
    let bottomRowInColumn := columnNumber + b.numberOfColumns * (b.numberOfRows - 1)
    let topRowInColumn := columnNumber
    let found ← firstEmptyFromBottom b topRowInColumn (b.gameBoard.length + 1) bottomRowInColumn
    match found with
    | some slotCounter =>
      Except.ok
        { gameBoard := b.gameBoard.set slotCounter.toNat
            ((b.gameBoard.getD slotCounter.toNat GameSlot.empty).putCoin isUserCoin)
          numberOfRows := b.numberOfRows
          numberOfColumns := b.numberOfColumns
          forceDropAllowed := b.forceDropAllowed }
    | none => Except.ok b
  else Except.error Fault.policy

end GameBoard

/-- The integers lo, lo + 1, ..., hi in ascending order: the values a loop
`for (int i = lo; i <= hi; ++i)` gives its variable when the body runs to its end. -/
def intRange (lo hi : Int) : List Int :=
  (List.range (hi - lo + 1).toNat).map (fun (k : Nat) => lo + (k : Int))

/-- The values a loop `for (i = range.begin(); i != range.end(); ++i)` takes over the range
`tbb::blocked_range<int>(begin, end)`: begin, ..., end - 1. -/
def blockedRange (rangeBegin rangeEnd : Int) : List Int :=
  intRange rangeBegin (rangeEnd - 1)

/-! ## `controller::ConnectFourGame` -/

/-- The members of controller::ConnectFourGame. -/
structure ConnectFourGame where
  gameDifficultyLevel : Int
  firstPlayerIsUser : Bool
  gameBoard : GameBoard
  deriving DecidableEq, Repr

namespace ConnectFourGame

def DEFAULT_FIRST_PLAYER_IS_USER : Bool := true

def DEFAULT_DIFFICULTY_LEVEL : Int := 2

def HEURISTIC_SCORE_FOR_ONE_IN_ROW : Int := 1

def HEURISTIC_SCORE_FOR_TWO_IN_ROW : Int := 3

def HEURISTIC_SCORE_FOR_THREE_IN_ROW : Int := 9

def HEURISTIC_SCORE_FOR_FOUR_IN_ROW : Int := INT_MAX

def COLUMN_OR_ROW_DIFFERENCE_FOR_FOUR_IN_A_ROW : Int := 3

/-- The default constructor `ConnectFourGame()`. -/
def default : ConnectFourGame :=
  { gameDifficultyLevel := DEFAULT_DIFFICULTY_LEVEL
    firstPlayerIsUser := DEFAULT_FIRST_PLAYER_IS_USER
    gameBoard := GameBoard.default }

/-- The constructor `ConnectFourGame(int numberOfRows, int numberOfColumns)`. -/
def ofDimensions (numberOfRows numberOfColumns : Int) : Except Fault ConnectFourGame := do
  let board ← GameBoard.ofDimensions numberOfRows numberOfColumns
  Except.ok
    { gameDifficultyLevel := DEFAULT_DIFFICULTY_LEVEL
      firstPlayerIsUser := DEFAULT_FIRST_PLAYER_IS_USER
      gameBoard := board }

def setWhoPlaysFirst (g : ConnectFourGame) (firstPlayerIsUser : Bool) : ConnectFourGame :=
  { gameDifficultyLevel := g.gameDifficultyLevel
    firstPlayerIsUser := firstPlayerIsUser
    gameBoard := g.gameBoard }

def setgameDifficultyLevel (g : ConnectFourGame) (gameDifficultyLevel : Int) : ConnectFourGame :=
  { gameDifficultyLevel := gameDifficultyLevel
    firstPlayerIsUser := g.firstPlayerIsUser
    gameBoard := g.gameBoard }

/-- The check isValidPlay reads the board of the engine (`this->gameBoard`). -/
def isValidPlay (g : ConnectFourGame) (dropInColumn : Int) : Except Fault Bool :=
  if g.gameBoard.isValidColumn dropInColumn then do
    let empty ← g.gameBoard.isEmptyAt dropInColumn
    if empty then Except.ok true else Except.ok false
  else Except.ok false

/-- The scan getAvailableSlot reads the board of the engine (`this->gameBoard`), whatever
board its caller is scoring. -/
def getAvailableSlot (g : ConnectFourGame) (columnNumber : Int) : Except Fault Int := do
  let valid ← g.isValidPlay columnNumber
  if valid then
    let bottomRowInColumn :=
      columnNumber + g.gameBoard.getNumberOfColumns * (g.gameBoard.getNumberOfRows - 1)
    let topRowInColumn := columnNumber
    let found ← g.gameBoard.firstEmptyFromBottom topRowInColumn
      (g.gameBoard.gameBoard.length + 1) bottomRowInColumn
    match found with
    | some slotCounter => Except.ok slotCounter
    | none => Except.error Fault.assertion
  else Except.error Fault.assertion

/-- The indices the loop of getAvailableSlot hands to isEmptyAt, in the order of the calls;
none when the assertion at the head of the function fails. -/
def getAvailableSlotInspected (g : ConnectFourGame) (columnNumber : Int) : List Int :=
  match g.isValidPlay columnNumber with
  | Except.ok true =>
    (g.gameBoard.firstEmptyFromBottomTraced columnNumber (g.gameBoard.gameBoard.length + 1)
      (columnNumber + g.gameBoard.getNumberOfColumns * (g.gameBoard.getNumberOfRows - 1))).1
  | _ => []

/-- The locals of isEmptyOrRequiredType that live across the iterations of its loop;
nextIndex is `none` as long as nothing was assigned to it. -/
structure WindowScan where
  coinCount : Int
  nextIndex : Option Int
  firstTime : Bool
  deriving DecidableEq, Repr

/-- The first half of the body of the loop of isEmptyOrRequiredType: the four-way choice
that assigns nextIndex. When none of the four conditions holds nothing is assigned. -/
def nextWindowIndex (fromIndex fromRow fromColumn toRow toColumn : Int)
    (gameBoard : GameBoard) (st : WindowScan) (column : Int) : Except Fault WindowScan :=
  if fromRow = toRow then do
    let nextRow := fromRow
    let nextColumn := fromColumn + column
    let nextIndex ← gameBoard.getBoardIndex nextRow nextColumn
    Except.ok { coinCount := st.coinCount, nextIndex := some nextIndex, firstTime := st.firstTime }
  else if fromColumn = toColumn then do
    let nextRow := fromRow + column
    let nextColumn := fromColumn
    let nextIndex ← gameBoard.getBoardIndex nextRow nextColumn
    Except.ok { coinCount := st.coinCount, nextIndex := some nextIndex, firstTime := st.firstTime }
  else if fromRow > toRow ∧ fromColumn < toColumn then
    if st.firstTime then
      Except.ok { coinCount := st.coinCount, nextIndex := some fromIndex, firstTime := false }
    else
      match st.nextIndex with
      | some previous => do
        let nextIndex ← gameBoard.getDiagonalCellToRightGoingUp previous
        Except.ok { coinCount := st.coinCount, nextIndex := some nextIndex, firstTime := st.firstTime }
      | none => Except.error Fault.indeterminate
  else if fromRow < toRow ∧ fromColumn < toColumn then
    if st.firstTime then
      Except.ok { coinCount := st.coinCount, nextIndex := some fromIndex, firstTime := false }
    else
      match st.nextIndex with
      | some previous => do
        let nextIndex ← gameBoard.getDiagonalCellToRightGoingDown previous
        Except.ok { coinCount := st.coinCount, nextIndex := some nextIndex, firstTime := st.firstTime }
      | none => Except.error Fault.indeterminate
  else Except.ok st

/-- The second half of the body of the loop of isEmptyOrRequiredType: the test of the slot
at nextIndex. The result is `none` for `return false` and the new coinCount otherwise. -/
def countSlot (userCoinPlayed : Bool) (coinCount : Int) (slot : GameSlot) : Option Int :=
  if slot.hasComputerCoin then
    if userCoinPlayed then none else some (coinCount + 1)
  else if slot.hasUserCoin then
    if userCoinPlayed then some (coinCount + 1) else none
  else some coinCount

/-- One iteration of the loop of isEmptyOrRequiredType; `none` stands for `return false`. -/
def isEmptyOrRequiredTypeStep (fromIndex fromRow fromColumn toRow toColumn : Int)
    (userCoinPlayed : Bool) (gameBoard : GameBoard) (st : WindowScan) (column : Int) :
    Except Fault (Option WindowScan) := do
  let st ← nextWindowIndex fromIndex fromRow fromColumn toRow toColumn gameBoard st column
  match st.nextIndex with
  | none => Except.error Fault.indeterminate
  | some nextIndex =>
    let slot ← gameBoard.getGameSlot nextIndex
    match countSlot userCoinPlayed st.coinCount slot with
    | none => Except.ok none
    | some coinCount =>
      Except.ok (some { coinCount := coinCount, nextIndex := st.nextIndex, firstTime := st.firstTime })

/-- The loop of isEmptyOrRequiredType over the values of its variable `column`. -/
def isEmptyOrRequiredTypeLoop (fromIndex fromRow fromColumn toRow toColumn : Int)
    (userCoinPlayed : Bool) (gameBoard : GameBoard) :
    List Int → WindowScan → Except Fault (Option WindowScan)
  | [], st => Except.ok (some st)
  | column :: rest, st => do
    let next ← isEmptyOrRequiredTypeStep fromIndex fromRow fromColumn toRow toColumn
      userCoinPlayed gameBoard st column
    match next with
    | none => Except.ok none
    | some st =>
      isEmptyOrRequiredTypeLoop fromIndex fromRow fromColumn toRow toColumn
        userCoinPlayed gameBoard rest st

/-- The score the tail of isEmptyOrRequiredType assigns for a number of coins. -/
def scoreForCoinCount (coinCount : Int) : Int :=
  if coinCount = 1 then HEURISTIC_SCORE_FOR_ONE_IN_ROW
  else if coinCount = 2 then HEURISTIC_SCORE_FOR_TWO_IN_ROW
  else if coinCount = 3 then HEURISTIC_SCORE_FOR_THREE_IN_ROW
  else if coinCount = 4 then HEURISTIC_SCORE_FOR_FOUR_IN_ROW
  else 0

/-- The result is `none` where the source returns false and leaves the reference parameter
hueristicScore as it was, and `some score` where it returns true after assigning the score. -/
def isEmptyOrRequiredType (fromIndex toIndex : Int) (userCoinPlayed : Bool)
    (gameBoard : GameBoard) : Except Fault (Option Int) := do
  let fromRow ← gameBoard.getRowNumber fromIndex
  let fromColumn ← gameBoard.getColumnNumber fromIndex
  let toRow ← gameBoard.getRowNumber toIndex
  let toColumn ← gameBoard.getColumnNumber toIndex
  let scanned ← isEmptyOrRequiredTypeLoop fromIndex fromRow fromColumn toRow toColumn
    userCoinPlayed gameBoard (intRange 0 COLUMN_OR_ROW_DIFFERENCE_FOR_FOUR_IN_A_ROW)
    { coinCount := 0, nextIndex := none, firstTime := true }
  match scanned with
  | none => Except.ok none
  | some st => Except.ok (some (scoreForCoinCount st.coinCount))

/-- The statement `if (isEmptyOrRequiredType(...)) totalHueristicScore += hueristicScore;`. -/
def addWindowScore (totalHueristicScore : Int) (window : Option Int) : Int :=
  match window with
  | some hueristicScore => wrap32 (totalHueristicScore + hueristicScore)
  | none => totalHueristicScore

/-- The loop of getHorizontalHueristicScore over the values of startColumn. The row of
the dropped coin is looked up again in every iteration, through getAvailableSlot. -/
def getHorizontalHueristicScoreLoop (g : ConnectFourGame) (columnPlayed : Int)
    (gameBoard : GameBoard) (isUserCoin : Bool) : List Int → Int → Except Fault Int
  | [], totalHueristicScore => Except.ok totalHueristicScore
  | startColumn :: rest, totalHueristicScore =>
    if startColumn + COLUMN_OR_ROW_DIFFERENCE_FOR_FOUR_IN_A_ROW
        > gameBoard.getNumberOfColumns - 1 then
      Except.ok totalHueristicScore
    else do
      let endColumn := startColumn + COLUMN_OR_ROW_DIFFERENCE_FOR_FOUR_IN_A_ROW
      let availableSlot ← g.getAvailableSlot columnPlayed
      let rowContainingDroppedCoin ← gameBoard.getRowNumber availableSlot
      let fromIndex ← gameBoard.getBoardIndex rowContainingDroppedCoin startColumn
      let toIndex ← gameBoard.getBoardIndex rowContainingDroppedCoin endColumn
      let window ← isEmptyOrRequiredType fromIndex toIndex isUserCoin gameBoard
      getHorizontalHueristicScoreLoop g columnPlayed gameBoard isUserCoin rest
        (addWindowScore totalHueristicScore window)

def getHorizontalHueristicScore (g : ConnectFourGame) (columnPlayed : Int)
    (gameBoard : GameBoard) (isUserCoin : Bool) : Except Fault Int :=
  let slidingWindowStartPosition :=
    if columnPlayed ≥ COLUMN_OR_ROW_DIFFERENCE_FOR_FOUR_IN_A_ROW then
      columnPlayed - COLUMN_OR_ROW_DIFFERENCE_FOR_FOUR_IN_A_ROW
    else 0
  getHorizontalHueristicScoreLoop g columnPlayed gameBoard isUserCoin
    (intRange slidingWindowStartPosition columnPlayed) 0

/-- The loop of getVerticalHueristicScore over the values of startRow. -/
def getVerticalHueristicScoreLoop (columnPlayed : Int) (gameBoard : GameBoard)
    (isUserCoin : Bool) : List Int → Int → Except Fault Int
  | [], totalHueristicScore => Except.ok totalHueristicScore
  | startRow :: rest, totalHueristicScore =>
    if startRow + COLUMN_OR_ROW_DIFFERENCE_FOR_FOUR_IN_A_ROW
        > gameBoard.getNumberOfRows - 1 then
      Except.ok totalHueristicScore
    else do
      let endRow := startRow + COLUMN_OR_ROW_DIFFERENCE_FOR_FOUR_IN_A_ROW
      let fromIndex ← gameBoard.getBoardIndex startRow columnPlayed
      let toIndex ← gameBoard.getBoardIndex endRow columnPlayed
      let window ← isEmptyOrRequiredType fromIndex toIndex isUserCoin gameBoard
      getVerticalHueristicScoreLoop columnPlayed gameBoard isUserCoin rest
        (addWindowScore totalHueristicScore window)

def getVerticalHueristicScore (g : ConnectFourGame) (columnPlayed : Int)
    (gameBoard : GameBoard) (isUserCoin : Bool) : Except Fault Int := do
  let availableSlot ← g.getAvailableSlot columnPlayed
  let coinDroppedInRow ← gameBoard.getRowNumber availableSlot
  let slidingWindowStartPosition :=
    if coinDroppedInRow ≥ COLUMN_OR_ROW_DIFFERENCE_FOR_FOUR_IN_A_ROW then
      coinDroppedInRow - COLUMN_OR_ROW_DIFFERENCE_FOR_FOUR_IN_A_ROW
    else 0
  getVerticalHueristicScoreLoop columnPlayed gameBoard isUserCoin
    (intRange slidingWindowStartPosition coinDroppedInRow) 0

/-- The loop of getPositiveSlopeHueristicScore: startColumn runs over the list, startRow
goes down by one per iteration. Both indices handed to isEmptyOrRequiredType are taken in
column startColumn, as the source writes them (endColumn is computed and not used). -/
def getPositiveSlopeHueristicScoreLoop (gameBoard : GameBoard) (isUserCoin : Bool) :
    List Int → Int → Int → Except Fault Int
  | [], _, totalHueristicScore => Except.ok totalHueristicScore
  | startColumn :: rest, startRow, totalHueristicScore =>
    if startColumn + COLUMN_OR_ROW_DIFFERENCE_FOR_FOUR_IN_A_ROW
          > gameBoard.getNumberOfColumns - 1 ∨
        startRow < COLUMN_OR_ROW_DIFFERENCE_FOR_FOUR_IN_A_ROW then
      Except.ok totalHueristicScore
    else do
      let endRow := startRow - COLUMN_OR_ROW_DIFFERENCE_FOR_FOUR_IN_A_ROW
      let fromIndex ← gameBoard.getBoardIndex startRow startColumn
      let toIndex ← gameBoard.getBoardIndex endRow startColumn
      let window ← isEmptyOrRequiredType fromIndex toIndex isUserCoin gameBoard
      getPositiveSlopeHueristicScoreLoop gameBoard isUserCoin rest (startRow - 1)
        (addWindowScore totalHueristicScore window)

def getPositiveSlopeHueristicScore (g : ConnectFourGame) (columnPlayed : Int)
    (gameBoard : GameBoard) (isUserCoin : Bool) : Except Fault Int := do
  let availableSlot ← g.getAvailableSlot columnPlayed
  let coinDroppedInRow ← gameBoard.getRowNumber availableSlot
  let start : Int × Int :=
    if gameBoard.getNumberOfRows - 1 - coinDroppedInRow
          ≥ COLUMN_OR_ROW_DIFFERENCE_FOR_FOUR_IN_A_ROW ∧
        columnPlayed ≥ COLUMN_OR_ROW_DIFFERENCE_FOR_FOUR_IN_A_ROW then
      (coinDroppedInRow + COLUMN_OR_ROW_DIFFERENCE_FOR_FOUR_IN_A_ROW,
        columnPlayed - COLUMN_OR_ROW_DIFFERENCE_FOR_FOUR_IN_A_ROW)
    else
      let rowDistanceFromBottom := gameBoard.getNumberOfRows - 1 - coinDroppedInRow
      let columnDistanceFromLeft := columnPlayed
      (coinDroppedInRow + min rowDistanceFromBottom columnDistanceFromLeft,
        columnPlayed - min rowDistanceFromBottom columnDistanceFromLeft)
  let slidingWindowStartRowPosition := start.1
  let slidingWindowStartColumnPosition := start.2
  getPositiveSlopeHueristicScoreLoop gameBoard isUserCoin
    (intRange slidingWindowStartColumnPosition columnPlayed) slidingWindowStartRowPosition 0

/-- The loop of getNegativeSlopeHueristicScore: startColumn runs over the list, startRow
goes up by one per iteration. The board is the one of the engine (see the function). -/
def getNegativeSlopeHueristicScoreLoop (gameBoard : GameBoard) (isUserCoin : Bool) :
    List Int → Int → Int → Except Fault Int
  | [], _, totalHueristicScore => Except.ok totalHueristicScore
  | startColumn :: rest, startRow, totalHueristicScore =>
    if startColumn + COLUMN_OR_ROW_DIFFERENCE_FOR_FOUR_IN_A_ROW
          > gameBoard.getNumberOfColumns - 1 ∨
        startRow + COLUMN_OR_ROW_DIFFERENCE_FOR_FOUR_IN_A_ROW
          < gameBoard.getNumberOfRows - 1 then
      Except.ok totalHueristicScore
    else do
      let endRow := startRow + COLUMN_OR_ROW_DIFFERENCE_FOR_FOUR_IN_A_ROW
      let fromIndex ← gameBoard.getBoardIndex startRow startColumn
      let toIndex ← gameBoard.getBoardIndex endRow startColumn
      let window ← isEmptyOrRequiredType fromIndex toIndex isUserCoin gameBoard
      getNegativeSlopeHueristicScoreLoop gameBoard isUserCoin rest (startRow + 1)
        (addWindowScore totalHueristicScore window)

/-- The second parameter of getNegativeSlopeHueristicScore has no name in the source
(`model::GameBoard,`), so every `gameBoard` of its body is the member `this->gameBoard`:
the board handed in is copied and never read. -/
def getNegativeSlopeHueristicScore (g : ConnectFourGame) (columnPlayed : Int)
    (_unnamed : GameBoard) (isUserCoin : Bool) : Except Fault Int := do
  let availableSlot ← g.getAvailableSlot columnPlayed
  let coinDroppedInRow ← g.gameBoard.getRowNumber availableSlot
  let start : Int × Int :=
    if coinDroppedInRow ≥ COLUMN_OR_ROW_DIFFERENCE_FOR_FOUR_IN_A_ROW ∧
        columnPlayed ≥ COLUMN_OR_ROW_DIFFERENCE_FOR_FOUR_IN_A_ROW then
      (coinDroppedInRow - COLUMN_OR_ROW_DIFFERENCE_FOR_FOUR_IN_A_ROW,
        columnPlayed - COLUMN_OR_ROW_DIFFERENCE_FOR_FOUR_IN_A_ROW)
    else
      let rowDistanceFromTop := coinDroppedInRow
      let columnDistanceFromLeft := columnPlayed
      (coinDroppedInRow - min rowDistanceFromTop columnDistanceFromLeft,
        columnPlayed - min rowDistanceFromTop columnDistanceFromLeft)
  let slidingWindowStartRowPosition := start.1
  let slidingWindowStartColumnPosition := start.2
  getNegativeSlopeHueristicScoreLoop g.gameBoard isUserCoin
    (intRange slidingWindowStartColumnPosition columnPlayed) slidingWindowStartRowPosition 0

def wasWinningPlay (g : ConnectFourGame) (columnPlayed : Int) (isUserCoin : Bool) :
    Except Fault Bool := do
  let horizontalHueristicScore ← g.getHorizontalHueristicScore columnPlayed g.gameBoard isUserCoin
  let verticalHueristicScore ← g.getVerticalHueristicScore columnPlayed g.gameBoard isUserCoin
  let positiveSlopeHueristicScore ←
    g.getPositiveSlopeHueristicScore columnPlayed g.gameBoard isUserCoin
  let negativeSlopeHueristicScore ←
    g.getNegativeSlopeHueristicScore columnPlayed g.gameBoard isUserCoin
  if horizontalHueristicScore = INT_MAX ∨ verticalHueristicScore = INT_MAX ∨
      positiveSlopeHueristicScore = INT_MAX ∨ negativeSlopeHueristicScore = INT_MAX then
    Except.ok true
  else Except.ok false

/-- The columns for which counterUserMove and bestHeuristicScoreForOpponentMove issue an
evaluation: both hand `tbb::blocked_range<int>(0, this->gameBoard.getNumberOfColumns() + 1)`
to parallel_for. -/
def evaluatedColumns (g : ConnectFourGame) : List Int :=
  blockedRange 0 (g.gameBoard.getNumberOfColumns + 1)

/-- The body of the lambda handed to tbb::parallel_for, run over the columns of the
blocked range: `moveScores.at(columnCounter) = evaluate(columnCounter)`. The value is
computed before the cell is looked up; in the other order a column fails exactly when it
fails here. -/
def fillMoveScores (evaluate : Int → Except Fault Int) :
    List Int → List Int → Except Fault (List Int)
  | [], moveScores => Except.ok moveScores
  | columnCounter :: rest, moveScores => do
    let score ← evaluate columnCounter
    if 0 ≤ columnCounter ∧ columnCounter < moveScores.length then
      fillMoveScores evaluate rest (moveScores.set columnCounter.toNat score)
    else Except.error Fault.outOfRange

/-- The selection loop that follows the parallel_for in counterUserMove and in
bestHeuristicScoreForOpponentMove; the state is the pair (bestMove, bestScore). -/
def selectBestMove (moveScores : List Int) : List Int → Int × Int → Except Fault (Int × Int)
  | [], best => Except.ok best
  | moveCounter :: rest, best =>
    if 0 ≤ moveCounter ∧ moveCounter < moveScores.length then
      let score := moveScores.getD moveCounter.toNat 0
      if score > best.2 then selectBestMove moveScores rest (moveCounter, score)
      else selectBestMove moveScores rest best
    else Except.error Fault.outOfRange

/-- The construction `std::vector<int> moveScores(n)`: n zeros. -/
def newMoveScores (n : Int) : Except Fault (List Int) :=
  if n < 0 then Except.error Fault.lengthError
  else Except.ok (List.replicate n.toNat 0)

/-- The body of bestHeuristicScoreForOpponentMove, with the per-column evaluation as a
parameter. The vector has one cell per column of the board handed in, the blocked range
is `[0, this->gameBoard.getNumberOfColumns() + 1)`, and the value returned is bestMove. -/
def bestHeuristicScoreForOpponentMoveWith (g : ConnectFourGame)
    (evaluate : Int → Int → Bool → GameBoard → Except Fault Int)
    (depth : Int) (isUserCoin : Bool) (gameBoard : GameBoard) : Except Fault Int := do
  let moveScores ← newMoveScores gameBoard.getNumberOfColumns
  let moveScores ← fillMoveScores (fun columnCounter => evaluate depth columnCounter isUserCoin gameBoard)
    g.evaluatedColumns moveScores
  let best ← selectBestMove moveScores (intRange 0 (gameBoard.getNumberOfColumns - 1))
    (0, wrap32 (-1 * INT_MAX))
  Except.ok best.1

/-- The recursion of getMoveHueristicScore. The first argument bounds the depth of the
recursion: the source goes from depth to depth - 1 and stops at 0 only, so from a negative
depth it never stops by itself. -/
def getMoveHueristicScoreFuel (g : ConnectFourGame) :
    Nat → Int → Int → Bool → GameBoard → Except Fault Int
  | fuel, depth, columnPlayed, isUserCoin, gameBoard =>
    if depth = 0 then Except.ok 0
    else do
      let horizontalHueristicScore ← g.getHorizontalHueristicScore columnPlayed gameBoard isUserCoin
      let verticalHueristicScore ← g.getVerticalHueristicScore columnPlayed gameBoard isUserCoin
      let positiveSlopeHueristicScore ←
        g.getPositiveSlopeHueristicScore columnPlayed gameBoard isUserCoin
      let negativeSlopeHueristicScore ←
        g.getNegativeSlopeHueristicScore columnPlayed gameBoard isUserCoin
      if horizontalHueristicScore = INT_MAX ∨ verticalHueristicScore = INT_MAX ∨
          positiveSlopeHueristicScore = INT_MAX ∨ negativeSlopeHueristicScore = INT_MAX then
        Except.ok INT_MAX
      else
        let heuristicScoreForCurrentMove :=
          wrap32 (wrap32 (wrap32 (horizontalHueristicScore + verticalHueristicScore)
            + positiveSlopeHueristicScore) + negativeSlopeHueristicScore)
        let whatIfGameBoard ←
          (GameBoard.copy gameBoard).forceDropCoin columnPlayed (if isUserCoin then false else true)
        match fuel with
        | 0 => Except.error Fault.nonTermination
        | fuel + 1 => do
          let opponent ← bestHeuristicScoreForOpponentMoveWith g (getMoveHueristicScoreFuel g fuel)
            (depth - 1) (if isUserCoin then false else true) whatIfGameBoard
          Except.ok (wrap32 (heuristicScoreForCurrentMove - opponent))

def getMoveHueristicScore (g : ConnectFourGame) (depth columnPlayed : Int) (isUserCoin : Bool)
    (gameBoard : GameBoard) : Except Fault Int :=
  getMoveHueristicScoreFuel g depth.natAbs depth columnPlayed isUserCoin gameBoard

def bestHeuristicScoreForOpponentMove (g : ConnectFourGame) (depth : Int) (isUserCoin : Bool)
    (gameBoard : GameBoard) : Except Fault Int :=
  bestHeuristicScoreForOpponentMoveWith g (getMoveHueristicScoreFuel g depth.natAbs)
    depth isUserCoin gameBoard

def counterUserMove (g : ConnectFourGame) : Except Fault Int := do
  let moveScores ← newMoveScores g.gameBoard.getNumberOfColumns
  let depth := g.gameDifficultyLevel
  let moveScores ← fillMoveScores
    (fun columnCounter => g.getMoveHueristicScore depth columnCounter true g.gameBoard)
    g.evaluatedColumns moveScores
  let best ← selectBestMove moveScores (intRange 0 (g.gameBoard.getNumberOfColumns - 1))
    (0, wrap32 (-1 * INT_MAX))
  Except.ok best.1

/-- The member `endTheGame(bool userWon)`: its body is a comment only. -/
def endTheGame (g : ConnectFourGame) (_userWon : Bool) : ConnectFourGame := g

/-- The statement `this->gameBoard.getGameSlot(boardIndex).putCoin(isUserCoin);` of
dropCoin; the result is the engine after the statement. The accessor getGameSlot returns
its slot by value, so putCoin changes that temporary copy and the slot vector of the board
is not written (forceDropCoin, which does write, goes through `gameBoard.at(...)`). -/
def putCoinInGameSlot (g : ConnectFourGame) (boardIndex : Int) (isUserCoin : Bool) :
    Except Fault ConnectFourGame := do
  let temporary ← g.gameBoard.getGameSlot boardIndex
  let _changedCopy := temporary.putCoin isUserCoin
  Except.ok g

/-- The index the reply of dropCoin hands to getGameSlot for the column columnToPlay:
`int rowToPlay = getAvailableSlot(columnToPlay);` followed by
`this->gameBoard.getBoardIndex(rowToPlay, columnToPlay)`. The value getAvailableSlot
returns is a flat index; getBoardIndex receives it as its row. -/
def computerReplyIndex (g : ConnectFourGame) (columnToPlay : Int) : Except Fault Int := do
  let rowToPlay ← g.getAvailableSlot columnToPlay
  g.gameBoard.getBoardIndex rowToPlay columnToPlay

/-- The body of the private `dropCoin(int dropInColumn, bool isUserCoin)`, a void member,
with the call `counterUserMove()` as a parameter: the result is the engine after the call,
also when the call throws, and the outcome of the call (returned or fault). When a statement
throws the engine is as it was at that statement. -/
def dropCoinWith (counter : ConnectFourGame → Except Fault Int) (g : ConnectFourGame)
    (dropInColumn : Int) (isUserCoin : Bool) : ConnectFourGame × Except Fault Unit :=
  match g.isValidPlay dropInColumn with
  | Except.error fault => (g, Except.error fault)
  | Except.ok false => (g, Except.ok ())
  | Except.ok true =>
    match g.getAvailableSlot dropInColumn with
    | Except.error fault => (g, Except.error fault)
    | Except.ok availableSlot =>
      match g.putCoinInGameSlot availableSlot isUserCoin with
      | Except.error fault => (g, Except.error fault)
      | Except.ok g =>
        match g.wasWinningPlay dropInColumn true with
        | Except.error fault => (g, Except.error fault)
        | Except.ok true => (g.endTheGame true, Except.ok ())
        | Except.ok false =>
          match counter g with
          | Except.error fault => (g, Except.error fault)
          | Except.ok columnToPlay =>
            match g.computerReplyIndex columnToPlay with
            | Except.error fault => (g, Except.error fault)
            | Except.ok boardIndex =>
              match g.putCoinInGameSlot boardIndex false with
              | Except.error fault => (g, Except.error fault)
              | Except.ok g => (g, Except.ok ())

/-- The private `dropCoin(int dropInColumn, bool isUserCoin)`. -/
def dropCoin (g : ConnectFourGame) (dropInColumn : Int) (isUserCoin : Bool) :
    ConnectFourGame × Except Fault Unit :=
  dropCoinWith counterUserMove g dropInColumn isUserCoin

/-- The public `dropCoin(int dropInColumn)`. -/
def dropUserCoin (g : ConnectFourGame) (dropInColumn : Int) :
    ConnectFourGame × Except Fault Unit :=
  g.dropCoin dropInColumn true

end ConnectFourGame

/-! ## Notions of the specification, used to state the properties

These definitions follow the words of the specification, not the source; the theorems
compare them with the functions above. -/

/-- The slot at (row, column) in the row-major grid of the data model: the slot of flat
index `row * columnCount + column`. -/
def GameBoard.slotAt (b : GameBoard) (rowNumber columnNumber : Int) : GameSlot :=
  b.gameBoard.getD (rowNumber * b.numberOfColumns + columnNumber).toNat GameSlot.empty

/-- The flat index of the cell (row, column): `row * columnCount + column`. -/
def GameBoard.flatIndex (b : GameBoard) (cell : Int × Int) : Int :=
  cell.1 * b.numberOfColumns + cell.2

/-- A cell (row, column) lies inside the grid. -/
def GameBoard.inGrid (b : GameBoard) (cell : Int × Int) : Prop :=
  0 ≤ cell.1 ∧ cell.1 < b.numberOfRows ∧ 0 ≤ cell.2 ∧ cell.2 < b.numberOfColumns

/-- The slot sequence has one slot per cell of the grid, as after the two constructors
that take dimensions. -/
def GameBoard.fullSize (b : GameBoard) : Prop :=
  (b.gameBoard.length : Int) = b.numberOfRows * b.numberOfColumns

/-- The four direction families of the specification. -/
inductive Direction where
  | horizontal
  | vertical
  | diagonalUpRight
  | diagonalDownRight
  deriving DecidableEq, Repr

/-- The four cells of the length-4 window of a direction, from its first cell (row, column)
to its last: to the right, downwards, up and to the right, down and to the right. -/
def specWindowCells : Direction → Int → Int → List (Int × Int)
  | Direction.horizontal, r, c => [(r, c), (r, c + 1), (r, c + 2), (r, c + 3)]
  | Direction.vertical, r, c => [(r, c), (r + 1, c), (r + 2, c), (r + 3, c)]
  | Direction.diagonalUpRight, r, c => [(r, c), (r - 1, c + 1), (r - 2, c + 2), (r - 3, c + 3)]
  | Direction.diagonalDownRight, r, c => [(r, c), (r + 1, c + 1), (r + 2, c + 2), (r + 3, c + 3)]

/-- The last cell of the window of a direction whose first cell is (row, column). -/
def specWindowLast : Direction → Int → Int → Int × Int
  | Direction.horizontal, r, c => (r, c + 3)
  | Direction.vertical, r, c => (r + 3, c)
  | Direction.diagonalUpRight, r, c => (r - 3, c + 3)
  | Direction.diagonalDownRight, r, c => (r + 3, c + 3)

/-- A slot is owned by the given side (the user when the flag is set). -/
def specOwnedBy (isUserCoin : Bool) (slot : GameSlot) : Bool :=
  match slot with
  | GameSlot.empty => false
  | GameSlot.userCoin => isUserCoin
  | GameSlot.computerCoin => !isUserCoin

/-- The fixed table of the specification: 0 owned gives 0, 1 gives 1, 2 gives 3, 3 gives 9
and 4 gives the winning sentinel. -/
def specScoreTable : List Int := [0, 1, 3, 9, INT_MAX]

/-- The outcome of a window by the specification, from the slots of its cells: `none`
(the window is discarded) when a cell is owned by the opponent of the scoring side,
otherwise the table at the number of cells the scoring side owns. -/
def specSlotsResult (isUserCoin : Bool) (slots : List GameSlot) : Option Int :=
  if slots.any (specOwnedBy (!isUserCoin)) then none
  else some (specScoreTable.getD (slots.countP (specOwnedBy isUserCoin)) 0)

/-- The score of a window by the specification, from the slots of its cells: 0 when a cell
is owned by the opponent of the scoring side, otherwise the table at the number of cells
the scoring side owns. -/
def specSlotsScore (isUserCoin : Bool) (slots : List GameSlot) : Int :=
  if slots.any (specOwnedBy (!isUserCoin)) then 0
  else specScoreTable.getD (slots.countP (specOwnedBy isUserCoin)) 0

/-- The slots of a list of cells on a board. -/
def specWindowSlots (b : GameBoard) (cells : List (Int × Int)) : List GameSlot :=
  cells.map (fun cell => b.slotAt cell.1 cell.2)

/-- The outcome of a window by the specification, from its cells on a board. -/
def specWindowResult (b : GameBoard) (isUserCoin : Bool) (cells : List (Int × Int)) :
    Option Int :=
  specSlotsResult isUserCoin (specWindowSlots b cells)

/-- The score of a window by the specification, from its cells on a board. -/
def specWindowScore (b : GameBoard) (isUserCoin : Bool) (cells : List (Int × Int)) : Int :=
  specSlotsScore isUserCoin (specWindowSlots b cells)

/-- The row of the lowest Empty slot of a column, if the column has one: the rows are
looked at from the bottom row upwards. -/
def specLowestEmptyRow (b : GameBoard) (column : Int) : Option Int :=
  (intRange 0 (b.numberOfRows - 1)).reverse.find? (fun r => (b.slotAt r column).isEmpty)

/-- The row step of a direction family, from one cell of a window to the next. -/
def Direction.rowStep : Direction → Int
  | Direction.horizontal => 0
  | Direction.vertical => 1
  | Direction.diagonalUpRight => -1
  | Direction.diagonalDownRight => 1

/-- The column step of a direction family, from one cell of a window to the next. -/
def Direction.columnStep : Direction → Int
  | Direction.horizontal => 1
  | Direction.vertical => 0
  | Direction.diagonalUpRight => 1
  | Direction.diagonalDownRight => 1

/-- A drop of the given side into the column completes four of its slots in an unbroken
line: the column has an Empty slot, and some length-4 window inside the grid holds the cell
of the drop and has its three other cells owned by that side. -/
def specCompletesFour (b : GameBoard) (column : Int) (isUserCoin : Bool) : Bool :=
  match specLowestEmptyRow b column with
  | none => false
  | some r =>
    [Direction.horizontal, Direction.vertical, Direction.diagonalUpRight,
      Direction.diagonalDownRight].any fun d =>
      (intRange 0 3).any fun k =>
        (specWindowCells d (r - k * d.rowStep) (column - k * d.columnStep)).all fun cell =>
          decide (0 ≤ cell.1 ∧ cell.1 < b.numberOfRows ∧
            0 ≤ cell.2 ∧ cell.2 < b.numberOfColumns) &&
          (decide (cell = (r, column)) || specOwnedBy isUserCoin (b.slotAt cell.1 cell.2))

/-- The first cells of the four length-4 windows of a direction that hold the cell
(row, column), whether inside the grid or not. -/
def specWindowStartsThrough (d : Direction) (r c : Int) : List (Int × Int) :=
  (intRange 0 3).map (fun k => (r - k * d.rowStep, c - k * d.columnStep))

/-- The total of a direction family by the specification for the played cell (row, column):
the sum of the window scores over every length-4 window of the direction that holds the
cell and lies inside the grid. -/
def specDirectionTotal (b : GameBoard) (isUserCoin : Bool) (d : Direction) (r c : Int) : Int :=
  (((specWindowStartsThrough d r c).filter (fun start =>
      (specWindowCells d start.1 start.2).all (fun cell =>
        decide (0 ≤ cell.1 ∧ cell.1 < b.numberOfRows ∧
          0 ≤ cell.2 ∧ cell.2 < b.numberOfColumns)))).map
    (fun start => specWindowScore b isUserCoin (specWindowCells d start.1 start.2))).sum

/-- The gravity invariant of the data model: in every column no Empty slot lies below an
Owned one (rows count from the top, so below means a larger row). -/
def specGravity (b : GameBoard) : Prop :=
  ∀ c r r' : Int, 0 ≤ c → c < b.numberOfColumns → 0 ≤ r → r < r' → r' < b.numberOfRows →
    b.slotAt r c ≠ GameSlot.empty → b.slotAt r' c ≠ GameSlot.empty

/-- A column is full: none of its slots is Empty. -/
def specColumnFull (b : GameBoard) (columnNumber : Int) : Prop :=
  ∀ r : Int, 0 ≤ r → r < b.numberOfRows → b.slotAt r columnNumber ≠ GameSlot.empty

/-- The coin of an owner: the slot state putCoin gives an Empty slot. -/
def specCoinOf (isUserCoin : Bool) : GameSlot :=
  if isUserCoin then GameSlot.userCoin else GameSlot.computerCoin

/-- The boards reachable from an empty board by drops: an empty board has one Empty slot
per cell; a drop is a forceDropCoin that returns, into a column of the board, or a dropCoin
of an engine that holds the board. -/
inductive ReachableByDrops : GameBoard → Prop where
  | emptyBoard (b : GameBoard) : b.fullSize → (∀ slot ∈ b.gameBoard, slot = GameSlot.empty) →
      ReachableByDrops b
  | forceDrop (b after : GameBoard) (columnNumber : Int) (isUserCoin : Bool) :
      ReachableByDrops b → 0 ≤ columnNumber → columnNumber < b.numberOfColumns →
      b.forceDropCoin columnNumber isUserCoin = Except.ok after → ReachableByDrops after
  | drop (g : ConnectFourGame) (dropInColumn : Int) (isUserCoin : Bool) :
      ReachableByDrops g.gameBoard →
      ReachableByDrops (g.dropCoin dropInColumn isUserCoin).1.gameBoard

/-- The count the loop of isEmptyOrRequiredType keeps over a list of slots, from a starting
count: countSlot slot after slot, `none` as soon as one slot gives `none`. -/
def countSlots (userCoinPlayed : Bool) : List GameSlot → Int → Option Int
  | [], coinCount => some coinCount
  | slot :: rest, coinCount =>
    match ConnectFourGame.countSlot userCoinPlayed coinCount slot with
    | none => none
    | some coinCount => countSlots userCoinPlayed rest coinCount

/-! ## Positions used as concrete inputs -/

/-- Five empty rows of a 6 x 7 grid followed by the given bottom row. -/
def bottomRowBoard (bottomRow : List GameSlot) : GameBoard :=
  { gameBoard := List.replicate 35 GameSlot.empty ++ bottomRow
    numberOfRows := 6
    numberOfColumns := 7
    forceDropAllowed := false }

/-- An engine with the default difficulty level 2 around a given board. -/
def engineOn (board : GameBoard) : ConnectFourGame :=
  { gameDifficultyLevel := ConnectFourGame.DEFAULT_DIFFICULTY_LEVEL
    firstPlayerIsUser := ConnectFourGame.DEFAULT_FIRST_PLAYER_IS_USER
    gameBoard := board }

/-- The 6 x 7 board whose only coins are user coins in row 5 at columns 0, 1 and 2. -/
def threeInBottomRow : GameBoard :=
  bottomRowBoard [GameSlot.userCoin, GameSlot.userCoin, GameSlot.userCoin, GameSlot.empty,
    GameSlot.empty, GameSlot.empty, GameSlot.empty]

/-- The board threeInBottomRow after a fourth user coin in column 3. -/
def fourInBottomRow : GameBoard :=
  bottomRowBoard [GameSlot.userCoin, GameSlot.userCoin, GameSlot.userCoin, GameSlot.userCoin,
    GameSlot.empty, GameSlot.empty, GameSlot.empty]

/-- Four empty rows of a 6 x 7 grid followed by the given rows 4 and 5. -/
def bottomTwoRowsBoard (row4 row5 : List GameSlot) : GameBoard :=
  { gameBoard := List.replicate 28 GameSlot.empty ++ row4 ++ row5
    numberOfRows := 6
    numberOfColumns := 7
    forceDropAllowed := false }

/-- User coins in row 5 at columns 0, 1, 2 and in row 4 at column 0, computer coins in row
5 at columns 4, 5, 6; the computer is to move. Column 3 is the only column where a drop
completes four in a line, for either side. -/
def singleWinningColumn : GameBoard :=
  bottomTwoRowsBoard
    [GameSlot.userCoin, GameSlot.empty, GameSlot.empty, GameSlot.empty,
      GameSlot.empty, GameSlot.empty, GameSlot.empty]
    [GameSlot.userCoin, GameSlot.userCoin, GameSlot.userCoin, GameSlot.empty,
      GameSlot.computerCoin, GameSlot.computerCoin, GameSlot.computerCoin]

/-- The 6 x 7 board after one drop of the user in column 3. -/
def oneCoinInColumnThree : GameBoard :=
  bottomRowBoard [GameSlot.empty, GameSlot.empty, GameSlot.empty, GameSlot.userCoin,
    GameSlot.empty, GameSlot.empty, GameSlot.empty]

/-- User coins in row 5 at columns 3, 4 and 5. -/
def threeOnTheRight : GameBoard :=
  bottomRowBoard [GameSlot.empty, GameSlot.empty, GameSlot.empty, GameSlot.userCoin,
    GameSlot.userCoin, GameSlot.userCoin, GameSlot.empty]

/-- The board threeOnTheRight with one more user coin in column 6. -/
def fourOnTheRight : GameBoard :=
  bottomRowBoard [GameSlot.empty, GameSlot.empty, GameSlot.empty, GameSlot.userCoin,
    GameSlot.userCoin, GameSlot.userCoin, GameSlot.userCoin]

/-- A 6 x 7 board whose column 0 is full (user and computer coins in turn) and whose
other columns are empty. -/
def firstColumnFull : GameBoard :=
  { gameBoard :=
      [GameSlot.computerCoin, GameSlot.empty, GameSlot.empty, GameSlot.empty, GameSlot.empty,
        GameSlot.empty, GameSlot.empty,
       GameSlot.userCoin, GameSlot.empty, GameSlot.empty, GameSlot.empty, GameSlot.empty,
        GameSlot.empty, GameSlot.empty,
       GameSlot.computerCoin, GameSlot.empty, GameSlot.empty, GameSlot.empty, GameSlot.empty,
        GameSlot.empty, GameSlot.empty,
       GameSlot.userCoin, GameSlot.empty, GameSlot.empty, GameSlot.empty, GameSlot.empty,
        GameSlot.empty, GameSlot.empty,
       GameSlot.computerCoin, GameSlot.empty, GameSlot.empty, GameSlot.empty, GameSlot.empty,
        GameSlot.empty, GameSlot.empty,
       GameSlot.userCoin, GameSlot.empty, GameSlot.empty, GameSlot.empty, GameSlot.empty,
        GameSlot.empty, GameSlot.empty]
    numberOfRows := 6
    numberOfColumns := 7
    forceDropAllowed := false }

/-- The empty 6 x 7 board that allows forced drops: the constructor taking a slot vector,
with the values 6 and 7 in its two dimension members. -/
def emptyWithPermission : GameBoard :=
  GameBoard.ofSlots (List.replicate 42 GameSlot.empty) 6 7

/-- The empty board of one row and one column that allows forced drops. -/
def oneCellWithPermission : GameBoard :=
  GameBoard.ofSlots [GameSlot.empty] 1 1

/-- A 6 x 7 board that allows forced drops, with a user coin at row 5 and a computer coin
at row 4 of column 2. -/
def twoInColumnTwo : GameBoard :=
  { gameBoard := List.replicate 28 GameSlot.empty ++
      [GameSlot.empty, GameSlot.empty, GameSlot.computerCoin, GameSlot.empty,
        GameSlot.empty, GameSlot.empty, GameSlot.empty] ++
      [GameSlot.empty, GameSlot.empty, GameSlot.userCoin, GameSlot.empty,
        GameSlot.empty, GameSlot.empty, GameSlot.empty]
    numberOfRows := 6
    numberOfColumns := 7
    forceDropAllowed := true }

/-- A 6 x 7 board whose column 1 holds coins in rows 1 to 5 (user and computer coins in
turn, a user coin at the bottom) and whose other slots are Empty: the one Empty slot of
column 1 is its top slot, flat index 1. -/
def secondColumnNearlyFull : GameBoard :=
  { gameBoard :=
      [GameSlot.empty, GameSlot.empty, GameSlot.empty, GameSlot.empty, GameSlot.empty,
        GameSlot.empty, GameSlot.empty,
       GameSlot.empty, GameSlot.userCoin, GameSlot.empty, GameSlot.empty, GameSlot.empty,
        GameSlot.empty, GameSlot.empty,
       GameSlot.empty, GameSlot.computerCoin, GameSlot.empty, GameSlot.empty, GameSlot.empty,
        GameSlot.empty, GameSlot.empty,
       GameSlot.empty, GameSlot.userCoin, GameSlot.empty, GameSlot.empty, GameSlot.empty,
        GameSlot.empty, GameSlot.empty,
       GameSlot.empty, GameSlot.computerCoin, GameSlot.empty, GameSlot.empty, GameSlot.empty,
        GameSlot.empty, GameSlot.empty,
       GameSlot.empty, GameSlot.userCoin, GameSlot.empty, GameSlot.empty, GameSlot.empty,
        GameSlot.empty, GameSlot.empty]
    numberOfRows := 6
    numberOfColumns := 7
    forceDropAllowed := false }

/-! # Theorems -/

open ConnectFourGame

/-! ## Sequencing of calls -/

theorem bind_ok_eq {α β : Type} (a : α) (f : α → Except Fault β) :
    (Except.ok a >>= f) = f a := rfl

theorem bind_error_eq {α β : Type} (e : Fault) (f : α → Except Fault β) :
    ((Except.error e : Except Fault α) >>= f) = Except.error e := rfl

/-! ## Flat indices -/

theorem flat_nonneg (r c C : Int) (hr : 0 ≤ r) (hc : 0 ≤ c) (hC : c < C) : 0 ≤ r * C + c := by
  have := Int.mul_nonneg hr (by omega : (0 : Int) ≤ C)
  omega

theorem flat_lt (r c R C : Int) (hr : r < R) (hc : 0 ≤ c) (hC : c < C) :
    r * C + c < R * C := by
  nlinarith

theorem getRowNumber_flat (b : GameBoard) (r c : Int) (hr : 0 ≤ r) (hc : 0 ≤ c)
    (hC : c < b.numberOfColumns) :
    b.getRowNumber (r * b.numberOfColumns + c) = Except.ok r := by
  have hpos : 0 < b.numberOfColumns := by omega
  have hnn := flat_nonneg r c b.numberOfColumns hr hc hC
  unfold GameBoard.getRowNumber
  rw [if_neg (by omega), Int.tdiv_eq_ediv hnn hpos.le, Int.add_comm,
    Int.add_mul_ediv_right _ _ (by omega), Int.ediv_eq_zero_of_lt hc hC]
  simp

theorem getColumnNumber_flat (b : GameBoard) (r c : Int) (hr : 0 ≤ r) (hc : 0 ≤ c)
    (hC : c < b.numberOfColumns) :
    b.getColumnNumber (r * b.numberOfColumns + c) = Except.ok c := by
  have hpos : 0 < b.numberOfColumns := by omega
  have hnn := flat_nonneg r c b.numberOfColumns hr hc hC
  unfold GameBoard.getColumnNumber
  rw [if_neg (by omega), Int.tmod_eq_emod hnn hpos.le, Int.add_comm,
    Int.add_mul_emod_self, Int.emod_eq_of_lt hc hC]

theorem wrap32_inRange (x : Int) (h0 : 0 ≤ x) (h1 : x < 2147483648) : wrap32 x = x := by
  unfold wrap32
  omega

theorem wrap32_of_int (x : Int) (h0 : -2147483648 ≤ x) (h1 : x ≤ INT_MAX) : wrap32 x = x := by
  unfold INT_MAX at h1
  unfold wrap32
  omega

theorem wrap32_add_left (x y : Int) : wrap32 (wrap32 x + y) = wrap32 (x + y) := by
  unfold wrap32
  omega

/-- The value getBoardIndex returns when its test passes: the 32-bit value of the index. -/
theorem getBoardIndex_wrap (b : GameBoard) (r c : Int) :
    b.getBoardIndex r c =
      if r ≥ b.numberOfRows ∨ c ≥ b.numberOfColumns then Except.error Fault.geometry
      else Except.ok (wrap32 (r * b.numberOfColumns + c)) := by
  unfold GameBoard.getBoardIndex
  by_cases h : r ≤ b.numberOfRows - 1 ∧ c ≤ b.numberOfColumns - 1
  · rw [if_pos h, if_neg (by omega), wrap32_add_left]
  · rw [if_neg h, if_pos (by omega)]

/-- On a board whose number of cells is an int, the index of a cell inside the grid is
computed without overflow. -/
theorem getBoardIndex_inRange (b : GameBoard) (r c : Int)
    (hfit : b.numberOfRows * b.numberOfColumns ≤ INT_MAX)
    (hr0 : 0 ≤ r) (hr : r < b.numberOfRows) (hc0 : 0 ≤ c) (hc : c < b.numberOfColumns) :
    b.getBoardIndex r c = Except.ok (r * b.numberOfColumns + c) := by
  have hnn := flat_nonneg r c b.numberOfColumns hr0 hc0 hc
  have hlt := flat_lt r c b.numberOfRows b.numberOfColumns hr hc0 hc
  rw [getBoardIndex_wrap, if_neg (by omega), wrap32_of_int _ (by omega) (by omega)]

theorem vectorAt_flat (b : GameBoard) (hsize : b.fullSize) (r c : Int)
    (hgrid : b.inGrid (r, c)) :
    b.vectorAt (r * b.numberOfColumns + c) = Except.ok (b.slotAt r c) := by
  obtain ⟨h1, h2, h3, h4⟩ := hgrid
  simp only at h1 h2 h3 h4
  have hnn := flat_nonneg r c b.numberOfColumns h1 h3 h4
  have hlt := flat_lt r c b.numberOfRows b.numberOfColumns h2 h3 h4
  unfold GameBoard.fullSize at hsize
  unfold GameBoard.vectorAt GameBoard.slotAt
  rw [if_pos ⟨hnn, by omega⟩]

theorem getGameSlot_flat (b : GameBoard) (hsize : b.fullSize) (r c : Int)
    (hgrid : b.inGrid (r, c)) :
    b.getGameSlot (r * b.numberOfColumns + c) = Except.ok (b.slotAt r c) :=
  vectorAt_flat b hsize r c hgrid

theorem getDiagonalCellToRightGoingUp_flat (b : GameBoard) (r c : Int)
    (hfit : b.numberOfRows * b.numberOfColumns ≤ INT_MAX)
    (hr : 1 ≤ r) (hrR : r ≤ b.numberOfRows) (hc : 0 ≤ c) (hC : c + 1 < b.numberOfColumns) :
    b.getDiagonalCellToRightGoingUp (r * b.numberOfColumns + c)
      = Except.ok ((r - 1) * b.numberOfColumns + (c + 1)) := by
  unfold GameBoard.getDiagonalCellToRightGoingUp
  rw [getRowNumber_flat b r c (by omega) hc (by omega),
    getColumnNumber_flat b r c (by omega) hc (by omega)]
  simp only [bind, Except.bind]
  rw [if_pos ⟨by omega, by omega⟩,
    getBoardIndex_inRange b _ _ hfit (by omega) (by omega) (by omega) (by omega)]

theorem getDiagonalCellToRightGoingDown_flat (b : GameBoard) (r c : Int)
    (hfit : b.numberOfRows * b.numberOfColumns ≤ INT_MAX)
    (hr : 0 ≤ r) (hrR : r + 1 < b.numberOfRows) (hc : 0 ≤ c) (hC : c + 1 < b.numberOfColumns) :
    b.getDiagonalCellToRightGoingDown (r * b.numberOfColumns + c)
      = Except.ok ((r + 1) * b.numberOfColumns + (c + 1)) := by
  unfold GameBoard.getDiagonalCellToRightGoingDown
  rw [getRowNumber_flat b r c hr hc (by omega),
    getColumnNumber_flat b r c hr hc (by omega)]
  simp only [bind, Except.bind]
  rw [if_pos ⟨by omega, by omega⟩,
    getBoardIndex_inRange b _ _ hfit (by omega) (by omega) (by omega) (by omega)]

theorem intRange_window : intRange 0 COLUMN_OR_ROW_DIFFERENCE_FOR_FOUR_IN_A_ROW = [0, 1, 2, 3] := by
  decide

theorem mem_intRange (lo hi x : Int) : x ∈ intRange lo hi ↔ lo ≤ x ∧ x ≤ hi := by
  unfold intRange
  simp only [List.mem_map, List.mem_range]
  constructor
  · rintro ⟨k, hk, rfl⟩
    omega
  · rintro ⟨h1, h2⟩
    exact ⟨(x - lo).toNat, by omega, by omega⟩

theorem fillMoveScores_ok_bounds (evaluate : Int → Except Fault Int) :
    ∀ (cols : List Int) (ms ms' : List Int),
      fillMoveScores evaluate cols ms = Except.ok ms' →
      ∀ c ∈ cols, 0 ≤ c ∧ c < ms.length := by
  intro cols
  induction cols with
  | nil => intro ms ms' _ c hc; simp at hc
  | cons col rest ih =>
    intro ms ms' h c hc
    unfold fillMoveScores at h
    cases hev : evaluate col with
    | error e => simp [hev, bind, Except.bind] at h
    | ok score =>
      simp only [hev, bind, Except.bind] at h
      by_cases hin : 0 ≤ col ∧ col < ms.length
      · rw [if_pos hin] at h
        rcases List.mem_cons.mp hc with rfl | hc'
        · exact hin
        · have := ih _ _ h c hc'
          simpa using this
      · rw [if_neg hin] at h
        simp at h

theorem counterUserMove_ne_ok (g : ConnectFourGame) (c : Int) :
    g.counterUserMove ≠ Except.ok c := by
  intro h
  unfold counterUserMove newMoveScores at h
  by_cases hneg : g.gameBoard.getNumberOfColumns < 0
  · simp [hneg, bind, Except.bind] at h
  · simp only [hneg, if_false, bind, Except.bind] at h
    cases hfill : fillMoveScores
        (fun columnCounter => g.getMoveHueristicScore g.gameDifficultyLevel columnCounter true g.gameBoard)
        g.evaluatedColumns (List.replicate g.gameBoard.getNumberOfColumns.toNat 0) with
    | error e => simp [hfill] at h
    | ok ms =>
      have hb := fillMoveScores_ok_bounds _ _ _ _ hfill g.gameBoard.getNumberOfColumns
        (by
          unfold evaluatedColumns blockedRange
          rw [mem_intRange]
          omega)
      simp at hb
      omega

theorem countSlots_result (p : Bool) (s0 s1 s2 s3 : GameSlot) :
    (countSlots p [s0, s1, s2, s3] 0).map scoreForCoinCount
      = specSlotsResult p [s0, s1, s2, s3] := by
  cases p <;> cases s0 <;> cases s1 <;> cases s2 <;> cases s3 <;> decide

theorem isEmptyOrRequiredType_horizontal (b : GameBoard) (p : Bool) (r c : Int)
    (hsize : b.fullSize) (hfit : b.numberOfRows * b.numberOfColumns ≤ INT_MAX)
    (hr0 : 0 ≤ r) (hrR : r < b.numberOfRows) (hc0 : 0 ≤ c)
    (hcC : c + 3 < b.numberOfColumns) :
    isEmptyOrRequiredType (r * b.numberOfColumns + c) (r * b.numberOfColumns + (c + 3)) p b
      = Except.ok ((countSlots p
          [b.slotAt r c, b.slotAt r (c + 1), b.slotAt r (c + 2), b.slotAt r (c + 3)] 0).map
          scoreForCoinCount) := by
  have g0 := getGameSlot_flat b hsize r c ⟨hr0, hrR, hc0, by show c < _; omega⟩
  have g1 := getGameSlot_flat b hsize r (c + 1) ⟨hr0, hrR, by show 0 ≤ c + 1; omega, by show c + 1 < _; omega⟩
  have g2 := getGameSlot_flat b hsize r (c + 2) ⟨hr0, hrR, by show 0 ≤ c + 2; omega, by show c + 2 < _; omega⟩
  have g3 := getGameSlot_flat b hsize r (c + 3) ⟨hr0, hrR, by show 0 ≤ c + 3; omega, by show c + 3 < _; omega⟩
  have i0 := getBoardIndex_inRange b r c hfit hr0 hrR (by omega) (by omega)
  have i1 := getBoardIndex_inRange b r (c + 1) hfit hr0 hrR (by omega) (by omega)
  have i2 := getBoardIndex_inRange b r (c + 2) hfit hr0 hrR (by omega) (by omega)
  have i3 := getBoardIndex_inRange b r (c + 3) hfit hr0 hrR (by omega) (by omega)
  unfold isEmptyOrRequiredType
  rw [getRowNumber_flat b r c hr0 hc0 (by omega), getColumnNumber_flat b r c hr0 hc0 (by omega),
    getRowNumber_flat b r (c + 3) hr0 (by omega) (by omega),
    getColumnNumber_flat b r (c + 3) hr0 (by omega) (by omega), intRange_window]
  simp only [bind_ok_eq, isEmptyOrRequiredTypeLoop, isEmptyOrRequiredTypeStep, nextWindowIndex,
    if_true, add_zero, i0, i1, i2, i3, g0, g1, g2, g3, countSlots]
  cases h0 : countSlot p 0 (b.slotAt r c) with
  | none => simp [bind, Except.bind]
  | some n0 =>
    simp only [bind_ok_eq]
    cases h1 : countSlot p n0 (b.slotAt r (c + 1)) with
    | none => simp [bind, Except.bind]
    | some n1 =>
      simp only [bind_ok_eq]
      cases h2 : countSlot p n1 (b.slotAt r (c + 2)) with
      | none => simp [bind, Except.bind]
      | some n2 =>
        simp only [bind_ok_eq]
        cases h3 : countSlot p n2 (b.slotAt r (c + 3)) with
        | none => simp [bind, Except.bind]
        | some n3 => simp [bind, Except.bind]

theorem isEmptyOrRequiredType_vertical (b : GameBoard) (p : Bool) (r c : Int)
    (hsize : b.fullSize) (hfit : b.numberOfRows * b.numberOfColumns ≤ INT_MAX)
    (hr0 : 0 ≤ r) (hrR : r + 3 < b.numberOfRows) (hc0 : 0 ≤ c)
    (hcC : c < b.numberOfColumns) :
    isEmptyOrRequiredType (r * b.numberOfColumns + c) ((r + 3) * b.numberOfColumns + c) p b
      = Except.ok ((countSlots p
          [b.slotAt r c, b.slotAt (r + 1) c, b.slotAt (r + 2) c, b.slotAt (r + 3) c] 0).map
          scoreForCoinCount) := by
  have g0 := getGameSlot_flat b hsize r c ⟨hr0, by show r < _; omega, hc0, hcC⟩
  have g1 := getGameSlot_flat b hsize (r + 1) c ⟨by show 0 ≤ r + 1; omega, by show r + 1 < _; omega, hc0, hcC⟩
  have g2 := getGameSlot_flat b hsize (r + 2) c ⟨by show 0 ≤ r + 2; omega, by show r + 2 < _; omega, hc0, hcC⟩
  have g3 := getGameSlot_flat b hsize (r + 3) c ⟨by show 0 ≤ r + 3; omega, by show r + 3 < _; omega, hc0, hcC⟩
  have i0 := getBoardIndex_inRange b r c hfit (by omega) (by omega) hc0 hcC
  have i1 := getBoardIndex_inRange b (r + 1) c hfit (by omega) (by omega) hc0 hcC
  have i2 := getBoardIndex_inRange b (r + 2) c hfit (by omega) (by omega) hc0 hcC
  have i3 := getBoardIndex_inRange b (r + 3) c hfit (by omega) (by omega) hc0 hcC
  have hne : ¬ (r = r + 3) := by omega
  unfold isEmptyOrRequiredType
  rw [getRowNumber_flat b r c hr0 hc0 hcC, getColumnNumber_flat b r c hr0 hc0 hcC,
    getRowNumber_flat b (r + 3) c (by omega) hc0 hcC,
    getColumnNumber_flat b (r + 3) c (by omega) hc0 hcC, intRange_window]
  simp only [bind_ok_eq, isEmptyOrRequiredTypeLoop, isEmptyOrRequiredTypeStep, nextWindowIndex,
    if_true, if_false, hne, add_zero, i0, i1, i2, i3, g0, g1, g2, g3, countSlots]
  cases h0 : countSlot p 0 (b.slotAt r c) with
  | none => simp [bind, Except.bind]
  | some n0 =>
    simp only [bind_ok_eq]
    cases h1 : countSlot p n0 (b.slotAt (r + 1) c) with
    | none => simp [bind, Except.bind]
    | some n1 =>
      simp only [bind_ok_eq]
      cases h2 : countSlot p n1 (b.slotAt (r + 2) c) with
      | none => simp [bind, Except.bind]
      | some n2 =>
        simp only [bind_ok_eq]
        cases h3 : countSlot p n2 (b.slotAt (r + 3) c) with
        | none => simp [bind, Except.bind]
        | some n3 => simp [bind, Except.bind]

theorem isEmptyOrRequiredType_diagonalUpRight (b : GameBoard) (p : Bool) (r c : Int)
    (hsize : b.fullSize) (hfit : b.numberOfRows * b.numberOfColumns ≤ INT_MAX)
    (hr0 : 0 ≤ r - 3) (hrR : r < b.numberOfRows) (hc0 : 0 ≤ c)
    (hcC : c + 3 < b.numberOfColumns) :
    isEmptyOrRequiredType (r * b.numberOfColumns + c) ((r - 3) * b.numberOfColumns + (c + 3)) p b
      = Except.ok ((countSlots p
          [b.slotAt r c, b.slotAt (r - 1) (c + 1), b.slotAt (r - 2) (c + 2),
            b.slotAt (r - 3) (c + 3)] 0).map scoreForCoinCount) := by
  have g0 := getGameSlot_flat b hsize r c ⟨by show 0 ≤ r; omega, hrR, hc0, by show c < _; omega⟩
  have g1 := getGameSlot_flat b hsize (r - 1) (c + 1)
    ⟨by show 0 ≤ r - 1; omega, by show r - 1 < _; omega, by show 0 ≤ c + 1; omega, by show c + 1 < _; omega⟩
  have g2 := getGameSlot_flat b hsize (r - 2) (c + 2)
    ⟨by show 0 ≤ r - 2; omega, by show r - 2 < _; omega, by show 0 ≤ c + 2; omega, by show c + 2 < _; omega⟩
  have g3 := getGameSlot_flat b hsize (r - 3) (c + 3)
    ⟨by show 0 ≤ r - 3; omega, by show r - 3 < _; omega, by show 0 ≤ c + 3; omega, by show c + 3 < _; omega⟩
  have d1 := getDiagonalCellToRightGoingUp_flat b r c hfit (by omega) (by omega) hc0 (by omega)
  have d2 := getDiagonalCellToRightGoingUp_flat b (r - 1) (c + 1) hfit (by omega) (by omega) (by omega) (by omega)
  have d3 := getDiagonalCellToRightGoingUp_flat b (r - 2) (c + 2) hfit (by omega) (by omega) (by omega) (by omega)
  have e2 : r - 1 - 1 = r - 2 := by omega
  have e3 : r - 2 - 1 = r - 3 := by omega
  have f2 : c + 1 + 1 = c + 2 := by omega
  have f3 : c + 2 + 1 = c + 3 := by omega
  rw [e2, f2] at d2
  rw [e3, f3] at d3
  have hne : ¬ (r = r - 3) := by omega
  have hne2 : ¬ (c = c + 3) := by omega
  have hgt : r > r - 3 ∧ c < c + 3 := ⟨by omega, by omega⟩
  unfold isEmptyOrRequiredType
  rw [getRowNumber_flat b r c (by omega) hc0 (by omega),
    getColumnNumber_flat b r c (by omega) hc0 (by omega),
    getRowNumber_flat b (r - 3) (c + 3) hr0 (by omega) (by omega),
    getColumnNumber_flat b (r - 3) (c + 3) hr0 (by omega) (by omega), intRange_window]
  simp only [bind_ok_eq, isEmptyOrRequiredTypeLoop, isEmptyOrRequiredTypeStep, nextWindowIndex,
    if_true, if_false, hne, hne2, hgt, and_self, g0, countSlots]
  cases h0 : countSlot p 0 (b.slotAt r c) with
  | none => simp [bind, Except.bind]
  | some n0 =>
    simp only [bind_ok_eq, d1, g1, Bool.false_eq_true, if_false]
    cases h1 : countSlot p n0 (b.slotAt (r - 1) (c + 1)) with
    | none => simp [bind, Except.bind]
    | some n1 =>
      simp only [bind_ok_eq, d2, g2, Bool.false_eq_true, if_false]
      cases h2 : countSlot p n1 (b.slotAt (r - 2) (c + 2)) with
      | none => simp [bind, Except.bind]
      | some n2 =>
        simp only [bind_ok_eq, d3, g3, Bool.false_eq_true, if_false]
        cases h3 : countSlot p n2 (b.slotAt (r - 3) (c + 3)) with
        | none => simp [bind, Except.bind]
        | some n3 => simp [bind, Except.bind]

theorem isEmptyOrRequiredType_diagonalDownRight (b : GameBoard) (p : Bool) (r c : Int)
    (hsize : b.fullSize) (hfit : b.numberOfRows * b.numberOfColumns ≤ INT_MAX)
    (hr0 : 0 ≤ r) (hrR : r + 3 < b.numberOfRows) (hc0 : 0 ≤ c)
    (hcC : c + 3 < b.numberOfColumns) :
    isEmptyOrRequiredType (r * b.numberOfColumns + c) ((r + 3) * b.numberOfColumns + (c + 3)) p b
      = Except.ok ((countSlots p
          [b.slotAt r c, b.slotAt (r + 1) (c + 1), b.slotAt (r + 2) (c + 2),
            b.slotAt (r + 3) (c + 3)] 0).map scoreForCoinCount) := by
  have g0 := getGameSlot_flat b hsize r c ⟨hr0, by show r < _; omega, hc0, by show c < _; omega⟩
  have g1 := getGameSlot_flat b hsize (r + 1) (c + 1)
    ⟨by show 0 ≤ r + 1; omega, by show r + 1 < _; omega, by show 0 ≤ c + 1; omega, by show c + 1 < _; omega⟩
  have g2 := getGameSlot_flat b hsize (r + 2) (c + 2)
    ⟨by show 0 ≤ r + 2; omega, by show r + 2 < _; omega, by show 0 ≤ c + 2; omega, by show c + 2 < _; omega⟩
  have g3 := getGameSlot_flat b hsize (r + 3) (c + 3)
    ⟨by show 0 ≤ r + 3; omega, by show r + 3 < _; omega, by show 0 ≤ c + 3; omega, by show c + 3 < _; omega⟩
  have d1 := getDiagonalCellToRightGoingDown_flat b r c hfit hr0 (by omega) hc0 (by omega)
  have d2 := getDiagonalCellToRightGoingDown_flat b (r + 1) (c + 1) hfit (by omega) (by omega) (by omega) (by omega)
  have d3 := getDiagonalCellToRightGoingDown_flat b (r + 2) (c + 2) hfit (by omega) (by omega) (by omega) (by omega)
  have e2 : r + 1 + 1 = r + 2 := by omega
  have e3 : r + 2 + 1 = r + 3 := by omega
  have f2 : c + 1 + 1 = c + 2 := by omega
  have f3 : c + 2 + 1 = c + 3 := by omega
  rw [e2, f2] at d2
  rw [e3, f3] at d3
  have hne : ¬ (r = r + 3) := by omega
  have hne2 : ¬ (c = c + 3) := by omega
  have hgt : ¬ (r > r + 3) := by omega
  have hlt : r < r + 3 := by omega
  have hlt2 : c < c + 3 := by omega
  unfold isEmptyOrRequiredType
  rw [getRowNumber_flat b r c hr0 hc0 (by omega),
    getColumnNumber_flat b r c hr0 hc0 (by omega),
    getRowNumber_flat b (r + 3) (c + 3) (by omega) (by omega) (by omega),
    getColumnNumber_flat b (r + 3) (c + 3) (by omega) (by omega) (by omega), intRange_window]
  simp only [bind_ok_eq, isEmptyOrRequiredTypeLoop, isEmptyOrRequiredTypeStep, nextWindowIndex,
    if_true, if_false, hne, hne2, hgt, hlt, hlt2, and_self, false_and, g0, countSlots]
  cases h0 : countSlot p 0 (b.slotAt r c) with
  | none => simp [bind, Except.bind]
  | some n0 =>
    simp only [bind_ok_eq, d1, g1, Bool.false_eq_true, if_false]
    cases h1 : countSlot p n0 (b.slotAt (r + 1) (c + 1)) with
    | none => simp [bind, Except.bind]
    | some n1 =>
      simp only [bind_ok_eq, d2, g2, Bool.false_eq_true, if_false]
      cases h2 : countSlot p n1 (b.slotAt (r + 2) (c + 2)) with
      | none => simp [bind, Except.bind]
      | some n2 =>
        simp only [bind_ok_eq, d3, g3, Bool.false_eq_true, if_false]
        cases h3 : countSlot p n2 (b.slotAt (r + 3) (c + 3)) with
        | none => simp [bind, Except.bind]
        | some n3 => simp [bind, Except.bind]

theorem intRange_nil (lo hi : Int) (h : hi < lo) : intRange lo hi = [] := by
  unfold intRange
  have : (hi - lo + 1).toNat = 0 := by omega
  rw [this]
  rfl

theorem intRange_cons (lo hi : Int) (h : lo ≤ hi) :
    intRange lo hi = lo :: intRange (lo + 1) hi := by
  unfold intRange
  have : (hi - lo + 1).toNat = (hi - (lo + 1) + 1).toNat + 1 := by omega
  rw [this, List.range_succ_eq_map, List.map_cons, List.map_map]
  congr 1
  · simp
  · apply List.map_congr_left
    intro k _
    simp only [Function.comp_apply, Nat.succ_eq_add_one, Nat.cast_add, Nat.cast_one]
    omega

theorem isEmptyAt_flat (b : GameBoard) (hsize : b.fullSize) (r c : Int)
    (hgrid : b.inGrid (r, c)) :
    b.isEmptyAt (r * b.numberOfColumns + c) = Except.ok (b.slotAt r c).isEmpty := by
  unfold GameBoard.isEmptyAt
  rw [vectorAt_flat b hsize r c hgrid]
  cases b.slotAt r c <;> rfl

theorem firstEmptyFromBottom_found (b : GameBoard) (hsize : b.fullSize) (r c : Int)
    (hr0 : 0 ≤ r) (hc0 : 0 ≤ c) (hcC : c < b.numberOfColumns)
    (hempty : b.slotAt r c = GameSlot.empty) :
    ∀ (n fuel : Nat), r + n < b.numberOfRows →
      (∀ r', r < r' → r' ≤ r + n → b.slotAt r' c ≠ GameSlot.empty) →
      n + 1 ≤ fuel →
      b.firstEmptyFromBottom c fuel (c + b.numberOfColumns * (r + n))
        = Except.ok (some (r * b.numberOfColumns + c)) := by
  intro n
  induction n with
  | zero =>
    intro fuel hR _ hfuel
    obtain ⟨fuel, rfl⟩ : ∃ k, fuel = k + 1 := ⟨fuel - 1, by omega⟩
    have hidx : c + b.numberOfColumns * (r + ((0 : Nat) : Int)) = r * b.numberOfColumns + c := by
      push_cast; ring
    have hge : r * b.numberOfColumns + c ≥ c := by
      have := Int.mul_nonneg hr0 (by omega : (0 : Int) ≤ b.numberOfColumns)
      omega
    rw [hidx]
    unfold GameBoard.firstEmptyFromBottom
    rw [if_pos hge, isEmptyAt_flat b hsize r c ⟨hr0, by simpa using hR, hc0, hcC⟩, hempty]
    rfl
  | succ n ih =>
    intro fuel hR hbelow hfuel
    obtain ⟨fuel, rfl⟩ : ∃ k, fuel = k + 1 := ⟨fuel - 1, by omega⟩
    have hidx : c + b.numberOfColumns * (r + ((n + 1 : Nat) : Int))
        = (r + (n + 1 : Nat)) * b.numberOfColumns + c := by ring
    have hge : (r + (n + 1 : Nat)) * b.numberOfColumns + c ≥ c := by
      have := Int.mul_nonneg (by omega : (0 : Int) ≤ r + (n + 1 : Nat))
        (by omega : (0 : Int) ≤ b.numberOfColumns)
      omega
    have hne := hbelow (r + (n + 1 : Nat)) (by omega) (by omega)
    have hprev : (r + (n + 1 : Nat)) * b.numberOfColumns + c - b.numberOfColumns
        = c + b.numberOfColumns * (r + (n : Int)) := by
      push_cast; ring
    rw [hidx]
    unfold GameBoard.firstEmptyFromBottom
    rw [if_pos hge, isEmptyAt_flat b hsize _ c ⟨by show (0:Int) ≤ r + (n + 1 : Nat); omega, hR, hc0, hcC⟩]
    have hfalse : (b.slotAt (r + (n + 1 : Nat)) c).isEmpty = false := by
      cases hs : b.slotAt (r + (n + 1 : Nat)) c
      · exact absurd hs hne
      · rfl
      · rfl
    rw [hfalse]
    simp only [bind_ok_eq, Bool.false_eq_true, if_false]
    rw [hprev]
    exact ih fuel (by omega) (fun r' h1 h2 => hbelow r' h1 (by omega)) (by omega)

theorem isValidPlay_column (g : ConnectFourGame) (c : Int)
    (hvalid : g.isValidPlay c = Except.ok true) :
    0 ≤ c ∧ c < g.gameBoard.numberOfColumns := by
  unfold isValidPlay GameBoard.isValidColumn at hvalid
  by_cases h : c ≥ 0 ∧ c < g.gameBoard.numberOfColumns
  · exact ⟨h.1, h.2⟩
  · simp [h] at hvalid

theorem getAvailableSlot_lowest (g : ConnectFourGame) (c r : Int)
    (hsize : g.gameBoard.fullSize) (hvalid : g.isValidPlay c = Except.ok true)
    (hr0 : 0 ≤ r) (hrR : r < g.gameBoard.numberOfRows)
    (hempty : g.gameBoard.slotAt r c = GameSlot.empty)
    (hbelow : ∀ r', r < r' → r' < g.gameBoard.numberOfRows →
      g.gameBoard.slotAt r' c ≠ GameSlot.empty) :
    g.getAvailableSlot c = Except.ok (r * g.gameBoard.numberOfColumns + c) := by
  obtain ⟨hc0, hcC⟩ := isValidPlay_column g c hvalid
  unfold getAvailableSlot
  rw [hvalid]
  simp only [bind_ok_eq, if_true, GameBoard.getNumberOfColumns, GameBoard.getNumberOfRows]
  have hn : g.gameBoard.numberOfRows - 1 = r + ((g.gameBoard.numberOfRows - 1 - r).toNat : Int) := by
    omega
  have hlen : (g.gameBoard.numberOfRows - 1 - r).toNat + 1 ≤ g.gameBoard.gameBoard.length + 1 := by
    have h1 : (g.gameBoard.gameBoard.length : Int) = g.gameBoard.numberOfRows * g.gameBoard.numberOfColumns := hsize
    have h2 : g.gameBoard.numberOfRows * 1 ≤ g.gameBoard.numberOfRows * g.gameBoard.numberOfColumns :=
      Int.mul_le_mul_of_nonneg_left (by omega) (by omega)
    omega
  rw [hn, firstEmptyFromBottom_found g.gameBoard hsize r c hr0 hc0 hcC hempty _ _ (by omega)
    (fun r' h1 h2 => hbelow r' h1 (by omega)) hlen]
  rfl

theorem addWindowScore_zero_result (p : Bool) (s0 s1 s2 s3 : GameSlot) :
    addWindowScore 0 (specSlotsResult p [s0, s1, s2, s3]) = specSlotsScore p [s0, s1, s2, s3] := by
  cases p <;> cases s0 <;> cases s1 <;> cases s2 <;> cases s3 <;> decide

/-- A window with an Empty cell is discarded or scores 0, 1, 3 or 9. -/
theorem specSlots_with_empty (p : Bool) (s0 s1 s2 s3 : GameSlot)
    (h : s0 = GameSlot.empty ∨ s1 = GameSlot.empty ∨ s2 = GameSlot.empty ∨ s3 = GameSlot.empty) :
    (specSlotsResult p [s0, s1, s2, s3] = none ∧ specSlotsScore p [s0, s1, s2, s3] = 0) ∨
    (specSlotsResult p [s0, s1, s2, s3] = some 0 ∧ specSlotsScore p [s0, s1, s2, s3] = 0) ∨
    (specSlotsResult p [s0, s1, s2, s3] = some 1 ∧ specSlotsScore p [s0, s1, s2, s3] = 1) ∨
    (specSlotsResult p [s0, s1, s2, s3] = some 3 ∧ specSlotsScore p [s0, s1, s2, s3] = 3) ∨
    (specSlotsResult p [s0, s1, s2, s3] = some 9 ∧ specSlotsScore p [s0, s1, s2, s3] = 9) := by
  rcases h with h | h | h | h <;> subst h
  · cases p <;> cases s1 <;> cases s2 <;> cases s3 <;> decide
  · cases p <;> cases s0 <;> cases s2 <;> cases s3 <;> decide
  · cases p <;> cases s0 <;> cases s1 <;> cases s3 <;> decide
  · cases p <;> cases s0 <;> cases s1 <;> cases s2 <;> decide

theorem addWindowScore_with_empty (p : Bool) (s0 s1 s2 s3 : GameSlot) (total : Int)
    (h : s0 = GameSlot.empty ∨ s1 = GameSlot.empty ∨ s2 = GameSlot.empty ∨ s3 = GameSlot.empty)
    (h0 : 0 ≤ total) (h1 : total + 9 < 2147483648) :
    addWindowScore total (specSlotsResult p [s0, s1, s2, s3])
        = total + specSlotsScore p [s0, s1, s2, s3] ∧
      0 ≤ specSlotsScore p [s0, s1, s2, s3] ∧ specSlotsScore p [s0, s1, s2, s3] ≤ 9 := by
  rcases specSlots_with_empty p s0 s1 s2 s3 h with ⟨e1, e2⟩ | ⟨e1, e2⟩ | ⟨e1, e2⟩ | ⟨e1, e2⟩ | ⟨e1, e2⟩ <;>
    rw [e1, e2] <;> refine ⟨?_, by omega, by omega⟩
  · simp [addWindowScore]
  all_goals
    simp only [addWindowScore]
    exact wrap32_inRange _ (by omega) (by omega)

theorem specWindowScore_horizontal (b : GameBoard) (p : Bool) (r s : Int) :
    specWindowScore b p (specWindowCells Direction.horizontal r s)
      = specSlotsScore p [b.slotAt r s, b.slotAt r (s + 1), b.slotAt r (s + 2), b.slotAt r (s + 3)] :=
  rfl

theorem specWindowScore_vertical (b : GameBoard) (p : Bool) (t c : Int) :
    specWindowScore b p (specWindowCells Direction.vertical t c)
      = specSlotsScore p [b.slotAt t c, b.slotAt (t + 1) c, b.slotAt (t + 2) c, b.slotAt (t + 3) c] :=
  rfl

theorem getHorizontalHueristicScoreLoop_sum (g : ConnectFourGame) (c r : Int) (p : Bool)
    (hsize : g.gameBoard.fullSize)
    (hfit : g.gameBoard.numberOfRows * g.gameBoard.numberOfColumns ≤ INT_MAX)
    (havail : g.getAvailableSlot c = Except.ok (r * g.gameBoard.numberOfColumns + c))
    (hr0 : 0 ≤ r) (hrR : r < g.gameBoard.numberOfRows)
    (hc0 : 0 ≤ c) (hcC : c < g.gameBoard.numberOfColumns)
    (hempty : g.gameBoard.slotAt r c = GameSlot.empty) :
    ∀ (n : Nat) (lo total : Int), (c - lo + 1).toNat = n → 0 ≤ lo → c - 3 ≤ lo →
      0 ≤ total → total + 9 * (n : Int) < 2147483648 →
      getHorizontalHueristicScoreLoop g c g.gameBoard p (intRange lo c) total
        = Except.ok (total +
            ((intRange lo (min c (g.gameBoard.numberOfColumns - 4))).map
              (fun s => specWindowScore g.gameBoard p
                (specWindowCells Direction.horizontal r s))).sum) := by
  intro n
  induction n with
  | zero =>
    intro lo total hn _ _ _ _
    rw [intRange_nil lo c (by omega), intRange_nil lo _ (by omega)]
    simp [getHorizontalHueristicScoreLoop]
  | succ n ih =>
    intro lo total hn hlo0 hlo3 ht0 ht1
    have hle : lo ≤ c := by omega
    rw [intRange_cons lo c hle]
    unfold getHorizontalHueristicScoreLoop
    simp only [COLUMN_OR_ROW_DIFFERENCE_FOR_FOUR_IN_A_ROW, GameBoard.getNumberOfColumns]
    by_cases hbreak : lo + 3 > g.gameBoard.numberOfColumns - 1
    · rw [if_pos hbreak, intRange_nil lo _ (by omega)]
      simp
    · rw [if_neg hbreak, havail]
      simp only [bind_ok_eq]
      rw [getRowNumber_flat g.gameBoard r c hr0 hc0 hcC]
      simp only [bind_ok_eq]
      rw [getBoardIndex_inRange g.gameBoard r lo hfit hr0 hrR hlo0 (by omega),
        getBoardIndex_inRange g.gameBoard r (lo + 3) hfit hr0 hrR (by omega) (by omega)]
      simp only [bind_ok_eq]
      rw [isEmptyOrRequiredType_horizontal g.gameBoard p r lo hsize hfit hr0 hrR hlo0 (by omega),
        countSlots_result]
      simp only [bind_ok_eq]
      have hone : g.gameBoard.slotAt r lo = GameSlot.empty ∨
          g.gameBoard.slotAt r (lo + 1) = GameSlot.empty ∨
          g.gameBoard.slotAt r (lo + 2) = GameSlot.empty ∨
          g.gameBoard.slotAt r (lo + 3) = GameSlot.empty := by
        have hcases : c = lo ∨ c = lo + 1 ∨ c = lo + 2 ∨ c = lo + 3 := by omega
        rcases hcases with h | h | h | h
        · left; rw [← h]; exact hempty
        · right; left; rw [← h]; exact hempty
        · right; right; left; rw [← h]; exact hempty
        · right; right; right; rw [← h]; exact hempty
      obtain ⟨hadd, hs0, hs9⟩ := addWindowScore_with_empty p _ _ _ _ total hone ht0 (by omega)
      rw [hadd, ih (lo + 1) _ (by omega) (by omega) (by omega) (by omega) (by push_cast at ht1; omega),
        intRange_cons lo (min c (g.gameBoard.numberOfColumns - 4)) (by omega)]
      simp only [List.map_cons, List.sum_cons, specWindowScore_horizontal]
      congr 1
      omega

theorem getVerticalHueristicScoreLoop_sum (b : GameBoard) (c r : Int) (p : Bool)
    (hsize : b.fullSize) (hfit : b.numberOfRows * b.numberOfColumns ≤ INT_MAX)
    (hc0 : 0 ≤ c) (hcC : c < b.numberOfColumns)
    (hempty : b.slotAt r c = GameSlot.empty) :
    ∀ (n : Nat) (lo total : Int), (r - lo + 1).toNat = n → 0 ≤ lo → r - 3 ≤ lo →
      0 ≤ total → total + 9 * (n : Int) < 2147483648 →
      getVerticalHueristicScoreLoop c b p (intRange lo r) total
        = Except.ok (total +
            ((intRange lo (min r (b.numberOfRows - 4))).map
              (fun t => specWindowScore b p (specWindowCells Direction.vertical t c))).sum) := by
  intro n
  induction n with
  | zero =>
    intro lo total hn _ _ _ _
    rw [intRange_nil lo r (by omega), intRange_nil lo _ (by omega)]
    simp [getVerticalHueristicScoreLoop]
  | succ n ih =>
    intro lo total hn hlo0 hlo3 ht0 ht1
    have hle : lo ≤ r := by omega
    rw [intRange_cons lo r hle]
    unfold getVerticalHueristicScoreLoop
    simp only [COLUMN_OR_ROW_DIFFERENCE_FOR_FOUR_IN_A_ROW, GameBoard.getNumberOfRows]
    by_cases hbreak : lo + 3 > b.numberOfRows - 1
    · rw [if_pos hbreak, intRange_nil lo _ (by omega)]
      simp
    · rw [if_neg hbreak]
      rw [getBoardIndex_inRange b lo c hfit hlo0 (by omega) hc0 hcC,
        getBoardIndex_inRange b (lo + 3) c hfit (by omega) (by omega) hc0 hcC]
      simp only [bind_ok_eq]
      rw [isEmptyOrRequiredType_vertical b p lo c hsize hfit hlo0 (by omega) hc0 hcC,
        countSlots_result]
      simp only [bind_ok_eq]
      have hone : b.slotAt lo c = GameSlot.empty ∨
          b.slotAt (lo + 1) c = GameSlot.empty ∨
          b.slotAt (lo + 2) c = GameSlot.empty ∨
          b.slotAt (lo + 3) c = GameSlot.empty := by
        have hcases : r = lo ∨ r = lo + 1 ∨ r = lo + 2 ∨ r = lo + 3 := by omega
        rcases hcases with h | h | h | h
        · left; rw [← h]; exact hempty
        · right; left; rw [← h]; exact hempty
        · right; right; left; rw [← h]; exact hempty
        · right; right; right; rw [← h]; exact hempty
      obtain ⟨hadd, hs0, hs9⟩ := addWindowScore_with_empty p _ _ _ _ total hone ht0 (by omega)
      rw [hadd, ih (lo + 1) _ (by omega) (by omega) (by omega) (by omega) (by push_cast at ht1; omega),
        intRange_cons lo (min r (b.numberOfRows - 4)) (by omega)]
      simp only [List.map_cons, List.sum_cons, specWindowScore_vertical]
      congr 1
      omega

theorem getHorizontalHueristicScore_sum (g : ConnectFourGame) (c r : Int) (p : Bool)
    (hsize : g.gameBoard.fullSize)
    (hfit : g.gameBoard.numberOfRows * g.gameBoard.numberOfColumns ≤ INT_MAX)
    (hvalid : g.isValidPlay c = Except.ok true)
    (hr0 : 0 ≤ r) (hrR : r < g.gameBoard.numberOfRows)
    (hempty : g.gameBoard.slotAt r c = GameSlot.empty)
    (hbelow : ∀ r', r < r' → r' < g.gameBoard.numberOfRows →
      g.gameBoard.slotAt r' c ≠ GameSlot.empty) :
    g.getHorizontalHueristicScore c g.gameBoard p
      = Except.ok (((intRange (max 0 (c - 3)) (min c (g.gameBoard.numberOfColumns - 4))).map
          (fun s => specWindowScore g.gameBoard p
            (specWindowCells Direction.horizontal r s))).sum) := by
  obtain ⟨hc0, hcC⟩ := isValidPlay_column g c hvalid
  have havail := getAvailableSlot_lowest g c r hsize hvalid hr0 hrR hempty hbelow
  unfold getHorizontalHueristicScore
  simp only [COLUMN_OR_ROW_DIFFERENCE_FOR_FOUR_IN_A_ROW]
  have hstart : (if c ≥ 3 then c - 3 else 0) = max 0 (c - 3) := by
    split <;> omega
  rw [hstart, getHorizontalHueristicScoreLoop_sum g c r p hsize hfit havail hr0 hrR hc0 hcC hempty
    (c - max 0 (c - 3) + 1).toNat (max 0 (c - 3)) 0 rfl (by omega) (by omega) (by omega) (by omega)]
  simp

theorem getVerticalHueristicScore_sum (g : ConnectFourGame) (c r : Int) (p : Bool)
    (hsize : g.gameBoard.fullSize)
    (hfit : g.gameBoard.numberOfRows * g.gameBoard.numberOfColumns ≤ INT_MAX)
    (hvalid : g.isValidPlay c = Except.ok true)
    (hr0 : 0 ≤ r) (hrR : r < g.gameBoard.numberOfRows)
    (hempty : g.gameBoard.slotAt r c = GameSlot.empty)
    (hbelow : ∀ r', r < r' → r' < g.gameBoard.numberOfRows →
      g.gameBoard.slotAt r' c ≠ GameSlot.empty) :
    g.getVerticalHueristicScore c g.gameBoard p
      = Except.ok (((intRange (max 0 (r - 3)) (min r (g.gameBoard.numberOfRows - 4))).map
          (fun t => specWindowScore g.gameBoard p
            (specWindowCells Direction.vertical t c))).sum) := by
  obtain ⟨hc0, hcC⟩ := isValidPlay_column g c hvalid
  have havail := getAvailableSlot_lowest g c r hsize hvalid hr0 hrR hempty hbelow
  unfold getVerticalHueristicScore
  rw [havail]
  simp only [bind_ok_eq]
  rw [getRowNumber_flat g.gameBoard r c hr0 hc0 hcC]
  simp only [bind_ok_eq, COLUMN_OR_ROW_DIFFERENCE_FOR_FOUR_IN_A_ROW]
  have hstart : (if r ≥ 3 then r - 3 else 0) = max 0 (r - 3) := by
    split <;> omega
  rw [hstart, getVerticalHueristicScoreLoop_sum g.gameBoard c r p hsize hfit hc0 hcC hempty
    (r - max 0 (r - 3) + 1).toNat (max 0 (r - 3)) 0 rfl (by omega) (by omega) (by omega) (by omega)]
  simp

theorem horizontal_window_starts (b : GameBoard) (r c s : Int)
    (hr0 : 0 ≤ r) (hrR : r < b.numberOfRows) :
    s ∈ intRange (max 0 (c - 3)) (min c (b.numberOfColumns - 4)) ↔
      (∀ cell ∈ specWindowCells Direction.horizontal r s, b.inGrid cell) ∧
        (r, c) ∈ specWindowCells Direction.horizontal r s := by
  rw [mem_intRange]
  simp only [specWindowCells, List.mem_cons, List.mem_singleton, List.not_mem_nil, or_false,
    forall_eq_or_imp, forall_eq, GameBoard.inGrid, Prod.mk.injEq, true_and]
  constructor
  · intro h
    refine ⟨⟨⟨hr0, hrR, ?_, ?_⟩, ⟨hr0, hrR, ?_, ?_⟩, ⟨hr0, hrR, ?_, ?_⟩, ⟨hr0, hrR, ?_, ?_⟩⟩, ?_⟩ <;>
      omega
  · rintro ⟨⟨⟨-, -, h1, -⟩, -, -, ⟨-, -, -, h2⟩⟩, h3⟩
    omega

theorem vertical_window_starts (b : GameBoard) (r c t : Int)
    (hc0 : 0 ≤ c) (hcC : c < b.numberOfColumns) :
    t ∈ intRange (max 0 (r - 3)) (min r (b.numberOfRows - 4)) ↔
      (∀ cell ∈ specWindowCells Direction.vertical t c, b.inGrid cell) ∧
        (r, c) ∈ specWindowCells Direction.vertical t c := by
  rw [mem_intRange]
  simp only [specWindowCells, List.mem_cons, List.mem_singleton, List.not_mem_nil, or_false,
    forall_eq_or_imp, forall_eq, GameBoard.inGrid, Prod.mk.injEq, and_true]
  constructor
  · intro h
    refine ⟨⟨⟨?_, ?_, hc0, hcC⟩, ⟨?_, ?_, hc0, hcC⟩, ⟨?_, ?_, hc0, hcC⟩, ⟨?_, ?_, hc0, hcC⟩⟩, ?_⟩ <;>
      omega
  · rintro ⟨⟨⟨h1, -, -, -⟩, -, -, ⟨-, h2, -, -⟩⟩, h3⟩
    omega

theorem intRange_nodup (lo hi : Int) : (intRange lo hi).Nodup := by
  unfold intRange
  apply List.Nodup.map
  · intro a b h
    simpa using h
  · exact List.nodup_range _

/-! ## Coordinates of a flat index -/

theorem index_row_col (i R C : Int) (hC : 0 < C) (h0 : 0 ≤ i) (hi : i < R * C) :
    0 ≤ Int.tdiv i C ∧ Int.tdiv i C < R ∧ 0 ≤ Int.tmod i C ∧ Int.tmod i C < C ∧
      Int.tdiv i C * C + Int.tmod i C = i := by
  rw [Int.tdiv_eq_ediv h0 hC.le, Int.tmod_eq_emod h0 hC.le]
  refine ⟨Int.ediv_nonneg h0 hC.le, Int.ediv_lt_of_lt_mul hC hi,
    Int.emod_nonneg i (by omega), Int.emod_lt_of_pos i hC, ?_⟩
  have := Int.ediv_add_emod i C
  rw [Int.mul_comm] at this
  exact this

theorem getDiagonalCellToRightGoingUp_eq (b : GameBoard) (i : Int)
    (hfit : b.numberOfRows * b.numberOfColumns ≤ INT_MAX)
    (hC : 0 < b.numberOfColumns) (h0 : 0 ≤ i) (hi : i < b.numberOfRows * b.numberOfColumns) :
    b.getDiagonalCellToRightGoingUp i =
      if Int.tdiv i b.numberOfColumns = 0 ∨ Int.tmod i b.numberOfColumns = b.numberOfColumns - 1
      then Except.error Fault.geometry
      else Except.ok ((Int.tdiv i b.numberOfColumns - 1) * b.numberOfColumns
        + (Int.tmod i b.numberOfColumns + 1)) := by
  obtain ⟨h1, h2, h3, h4, -⟩ := index_row_col i b.numberOfRows b.numberOfColumns hC h0 hi
  unfold GameBoard.getDiagonalCellToRightGoingUp GameBoard.getRowNumber GameBoard.getColumnNumber
  have hne : ¬ b.numberOfColumns = 0 := by omega
  simp only [hne, if_false, bind_ok_eq]
  by_cases h : Int.tdiv i b.numberOfColumns = 0 ∨
      Int.tmod i b.numberOfColumns = b.numberOfColumns - 1
  · rw [if_pos h, if_neg (by
      intro hh
      rcases h with h | h
      · exact hh.1 h
      · exact hh.2 h)]
  · rw [if_neg h, if_pos ⟨fun hh => h (Or.inl hh), fun hh => h (Or.inr hh)⟩,
      getBoardIndex_inRange b _ _ hfit (by omega) (by omega) (by omega) (by omega)]

theorem getDiagonalCellToRightGoingDown_eq (b : GameBoard) (i : Int)
    (hfit : b.numberOfRows * b.numberOfColumns ≤ INT_MAX)
    (hC : 0 < b.numberOfColumns) (h0 : 0 ≤ i) (hi : i < b.numberOfRows * b.numberOfColumns) :
    b.getDiagonalCellToRightGoingDown i =
      if Int.tdiv i b.numberOfColumns = b.numberOfRows - 1 ∨
          Int.tmod i b.numberOfColumns = b.numberOfColumns - 1
      then Except.error Fault.geometry
      else Except.ok ((Int.tdiv i b.numberOfColumns + 1) * b.numberOfColumns
        + (Int.tmod i b.numberOfColumns + 1)) := by
  obtain ⟨h1, h2, h3, h4, -⟩ := index_row_col i b.numberOfRows b.numberOfColumns hC h0 hi
  unfold GameBoard.getDiagonalCellToRightGoingDown GameBoard.getRowNumber
    GameBoard.getColumnNumber
  have hne : ¬ b.numberOfColumns = 0 := by omega
  simp only [hne, if_false, bind_ok_eq]
  by_cases h : Int.tdiv i b.numberOfColumns = b.numberOfRows - 1 ∨
      Int.tmod i b.numberOfColumns = b.numberOfColumns - 1
  · rw [if_pos h, if_neg (by
      intro hh
      rcases h with h | h
      · exact hh.1 h
      · exact hh.2 h)]
  · rw [if_neg h, if_pos ⟨fun hh => h (Or.inl hh), fun hh => h (Or.inr hh)⟩,
      getBoardIndex_inRange b _ _ hfit (by omega) (by omega) (by omega) (by omega)]

theorem initialBestScore : wrap32 (-1 * INT_MAX) = -INT_MAX := by decide

/-- The selection loop from index k on, started in a state that holds the lowest index of
the maximum of the scores before k. -/
theorem selectBestMove_from (moveScores : List Int) :
    ∀ (m k bestMove : Nat), k + m = moveScores.length → bestMove < moveScores.length →
      (∀ j, j < k → moveScores.getD j 0 ≤ moveScores.getD bestMove 0) →
      (∀ j, j < bestMove → moveScores.getD j 0 < moveScores.getD bestMove 0) →
      ∃ best : Nat, best < moveScores.length ∧
        selectBestMove moveScores (intRange k ((moveScores.length : Int) - 1))
            ((bestMove : Int), moveScores.getD bestMove 0)
          = Except.ok ((best : Int), moveScores.getD best 0) ∧
        (∀ j, j < moveScores.length → moveScores.getD j 0 ≤ moveScores.getD best 0) ∧
        (∀ j, j < best → moveScores.getD j 0 < moveScores.getD best 0) := by
  intro m
  induction m with
  | zero =>
    intro k bestMove hk hb hle hlt
    refine ⟨bestMove, hb, ?_, fun j hj => hle j (by omega), hlt⟩
    rw [intRange_nil _ _ (by omega)]
    rfl
  | succ m ih =>
    intro k bestMove hk hb hle hlt
    rw [intRange_cons _ _ (by omega)]
    unfold selectBestMove
    rw [if_pos ⟨by omega, by omega⟩]
    simp only [Int.toNat_ofNat]
    by_cases hgt : moveScores.getD k 0 > moveScores.getD bestMove 0
    · rw [if_pos hgt]
      have := ih (k + 1) k (by omega) (by omega)
        (fun j hj => by
          rcases Nat.lt_succ_iff_lt_or_eq.mp hj with h | h
          · exact le_of_lt (lt_of_le_of_lt (hle j h) hgt)
          · rw [h])
        (fun j hj => lt_of_le_of_lt (hle j hj) hgt)
      simpa using this
    · rw [if_neg hgt]
      have := ih (k + 1) bestMove (by omega) hb
        (fun j hj => by
          rcases Nat.lt_succ_iff_lt_or_eq.mp hj with h | h
          · exact hle j h
          · rw [h]; omega)
        hlt
      simpa using this

/-! ## The scan of a column and forceDropCoin -/

theorem fullSize_rows_nonneg (b : GameBoard) (hsize : b.fullSize)
    (hC : 0 < b.numberOfColumns) : 0 ≤ b.numberOfRows := by
  unfold GameBoard.fullSize at hsize
  by_contra hneg
  have h1 : b.numberOfRows * b.numberOfColumns < 0 :=
    Int.mul_neg_of_neg_of_pos (by omega) hC
  have h2 : (0 : Int) ≤ (b.gameBoard.length : Int) := Int.ofNat_nonneg _
  omega

theorem fullSize_rows_le_length (b : GameBoard) (hsize : b.fullSize)
    (hC : 0 < b.numberOfColumns) : b.numberOfRows ≤ (b.gameBoard.length : Int) := by
  have hR := fullSize_rows_nonneg b hsize hC
  unfold GameBoard.fullSize at hsize
  have h2 : b.numberOfRows * 1 ≤ b.numberOfRows * b.numberOfColumns :=
    Int.mul_le_mul_of_nonneg_left (by omega) hR
  omega

theorem firstEmptyFromBottom_full (b : GameBoard) (hsize : b.fullSize) (c : Int)
    (hc0 : 0 ≤ c) (hcC : c < b.numberOfColumns)
    (hfull : ∀ r, 0 ≤ r → r < b.numberOfRows → b.slotAt r c ≠ GameSlot.empty) :
    ∀ (n fuel : Nat), (n : Int) ≤ b.numberOfRows → n + 1 ≤ fuel →
      b.firstEmptyFromBottom c fuel (c + b.numberOfColumns * ((n : Int) - 1))
        = Except.ok none := by
  intro n
  induction n with
  | zero =>
    intro fuel _ hfuel
    obtain ⟨fuel, rfl⟩ : ∃ k, fuel = k + 1 := ⟨fuel - 1, by omega⟩
    unfold GameBoard.firstEmptyFromBottom
    rw [if_neg (by
      have : b.numberOfColumns * (((0 : Nat) : Int) - 1) = -b.numberOfColumns := by
        push_cast; ring
      rw [this]; omega)]
  | succ n ih =>
    intro fuel hR hfuel
    obtain ⟨fuel, rfl⟩ : ∃ k, fuel = k + 1 := ⟨fuel - 1, by omega⟩
    have hidx : c + b.numberOfColumns * (((n + 1 : Nat) : Int) - 1)
        = (n : Int) * b.numberOfColumns + c := by
      push_cast; ring
    have hge : (n : Int) * b.numberOfColumns + c ≥ c := by
      have := Int.mul_nonneg (Int.ofNat_nonneg n) (by omega : (0 : Int) ≤ b.numberOfColumns)
      omega
    have hne := hfull (n : Int) (Int.ofNat_nonneg n) (by push_cast at hR; omega)
    have hfalse : (b.slotAt (n : Int) c).isEmpty = false := by
      cases hs : b.slotAt (n : Int) c
      · exact absurd hs hne
      · rfl
      · rfl
    have hprev : (n : Int) * b.numberOfColumns + c - b.numberOfColumns
        = c + b.numberOfColumns * ((n : Int) - 1) := by ring
    rw [hidx]
    unfold GameBoard.firstEmptyFromBottom
    rw [if_pos hge, isEmptyAt_flat b hsize _ c
      ⟨Int.ofNat_nonneg n, by push_cast at hR; show (n : Int) < _; omega, hc0, hcC⟩, hfalse]
    simp only [bind_ok_eq, Bool.false_eq_true, if_false]
    rw [hprev]
    exact ih fuel (by push_cast at hR; omega) (by omega)

/-- A column either has a lowest Empty slot or no Empty slot at all. -/
theorem column_lowest_empty_or_full (b : GameBoard) (c : Int) :
    (∃ r, 0 ≤ r ∧ r < b.numberOfRows ∧ b.slotAt r c = GameSlot.empty ∧
      ∀ r', r < r' → r' < b.numberOfRows → b.slotAt r' c ≠ GameSlot.empty) ∨
    (∀ r, 0 ≤ r → r < b.numberOfRows → b.slotAt r c ≠ GameSlot.empty) := by
  have key : ∀ n : Nat,
      (∃ r, 0 ≤ r ∧ r < b.numberOfRows ∧ b.slotAt r c = GameSlot.empty ∧
        ∀ r', r < r' → r' < b.numberOfRows → b.slotAt r' c ≠ GameSlot.empty) ∨
      (∀ r, 0 ≤ r → b.numberOfRows - n ≤ r → r < b.numberOfRows →
        b.slotAt r c ≠ GameSlot.empty) := by
    intro n
    induction n with
    | zero =>
      right
      intro r _ h1 h2
      have : (((0 : Nat) : Int)) = 0 := rfl
      omega
    | succ n ih =>
      rcases ih with h | h
      · exact Or.inl h
      · by_cases hrow : 0 ≤ b.numberOfRows - (n + 1 : Nat)
        · by_cases hs : b.slotAt (b.numberOfRows - (n + 1 : Nat)) c = GameSlot.empty
          · left
            refine ⟨b.numberOfRows - (n + 1 : Nat), hrow, by push_cast; omega, hs, ?_⟩
            intro r' h1 h2
            exact h r' (by omega) (by push_cast at h1; omega) h2
          · right
            intro r h0 h1 h2
            by_cases heq : r = b.numberOfRows - (n + 1 : Nat)
            · rw [heq]; exact hs
            · exact h r h0 (by push_cast at h1 heq; omega) h2
        · right
          intro r h0 h1 h2
          exact h r h0 (by push_cast at hrow; omega) h2
  rcases key b.numberOfRows.toNat with h | h
  · exact Or.inl h
  · right
    intro r h0 h1
    exact h r h0 (by omega) h1

theorem forceDropCoin_lowest (b : GameBoard) (hsize : b.fullSize) (c r : Int) (p : Bool)
    (hflag : b.forceDropAllowed = true) (hc0 : 0 ≤ c) (hcC : c < b.numberOfColumns)
    (hr0 : 0 ≤ r) (hrR : r < b.numberOfRows) (hempty : b.slotAt r c = GameSlot.empty)
    (hbelow : ∀ r', r < r' → r' < b.numberOfRows → b.slotAt r' c ≠ GameSlot.empty) :
    b.forceDropCoin c p = Except.ok
      { gameBoard := b.gameBoard.set (r * b.numberOfColumns + c).toNat
          (if p then GameSlot.userCoin else GameSlot.computerCoin)
        numberOfRows := b.numberOfRows
        numberOfColumns := b.numberOfColumns
        forceDropAllowed := b.forceDropAllowed } := by
  unfold GameBoard.forceDropCoin
  rw [if_pos hflag]
  have hn : b.numberOfRows - 1 = r + ((b.numberOfRows - 1 - r).toNat : Int) := by omega
  have hlen : (b.numberOfRows - 1 - r).toNat + 1 ≤ b.gameBoard.length + 1 := by
    have := fullSize_rows_le_length b hsize (by omega)
    omega
  simp only []
  rw [hn, firstEmptyFromBottom_found b hsize r c hr0 hc0 hcC hempty _ _ (by omega)
    (fun r' h1 h2 => hbelow r' h1 (by omega)) hlen]
  simp only [bind_ok_eq]
  have hslot : b.gameBoard.getD (r * b.numberOfColumns + c).toNat GameSlot.empty
      = GameSlot.empty := hempty
  rw [hslot]
  cases p <;> rfl

theorem forceDropCoin_full (b : GameBoard) (hsize : b.fullSize) (c : Int) (p : Bool)
    (hflag : b.forceDropAllowed = true) (hc0 : 0 ≤ c) (hcC : c < b.numberOfColumns)
    (hfull : ∀ r, 0 ≤ r → r < b.numberOfRows → b.slotAt r c ≠ GameSlot.empty) :
    b.forceDropCoin c p = Except.ok b := by
  unfold GameBoard.forceDropCoin
  rw [if_pos hflag]
  have hR := fullSize_rows_nonneg b hsize (by omega)
  have hn : b.numberOfRows - 1 = ((b.numberOfRows.toNat : Nat) : Int) - 1 := by omega
  have hlen : b.numberOfRows.toNat + 1 ≤ b.gameBoard.length + 1 := by
    have := fullSize_rows_le_length b hsize (by omega)
    omega
  simp only []
  rw [hn, firstEmptyFromBottom_full b hsize c hc0 hcC hfull _ _ (by omega) hlen]
  rfl

theorem flat_injective (r c r' c' C : Int) (hc0 : 0 ≤ c) (hcC : c < C)
    (hc0' : 0 ≤ c') (hcC' : c' < C) (h : r * C + c = r' * C + c') : r = r' ∧ c = c' := by
  have hr : r = r' := by
    by_contra hne
    rcases Int.lt_or_gt_of_ne hne with hlt | hgt
    · have h1 : (r + 1) * C ≤ r' * C := Int.mul_le_mul_of_nonneg_right (by omega) (by omega)
      have h2 : (r + 1) * C = r * C + C := by ring
      omega
    · have h1 : (r' + 1) * C ≤ r * C := Int.mul_le_mul_of_nonneg_right (by omega) (by omega)
      have h2 : (r' + 1) * C = r' * C + C := by ring
      omega
  subst hr
  exact ⟨rfl, by omega⟩

/-- The slots of a board after one slot of its vector is replaced. -/
theorem slotAt_set (b : GameBoard) (hsize : b.fullSize) (r c : Int) (s : GameSlot)
    (hgrid : b.inGrid (r, c)) (r' c' : Int) (hgrid' : b.inGrid (r', c')) :
    GameBoard.slotAt
        { gameBoard := b.gameBoard.set (r * b.numberOfColumns + c).toNat s
          numberOfRows := b.numberOfRows
          numberOfColumns := b.numberOfColumns
          forceDropAllowed := b.forceDropAllowed } r' c'
      = if r' = r ∧ c' = c then s else b.slotAt r' c' := by
  obtain ⟨h1, h2, h3, h4⟩ := hgrid
  obtain ⟨h1', h2', h3', h4'⟩ := hgrid'
  simp only at h1 h2 h3 h4 h1' h2' h3' h4'
  have hnn := flat_nonneg r c b.numberOfColumns h1 h3 h4
  have hlt := flat_lt r c b.numberOfRows b.numberOfColumns h2 h3 h4
  have hnn' := flat_nonneg r' c' b.numberOfColumns h1' h3' h4'
  unfold GameBoard.fullSize at hsize
  unfold GameBoard.slotAt
  simp only [List.getD_eq_getElem?_getD, List.getElem?_set]
  by_cases heq : r' = r ∧ c' = c
  · obtain ⟨rfl, rfl⟩ := heq
    rw [if_pos rfl, if_pos (by omega), if_pos ⟨rfl, rfl⟩]
    rfl
  · rw [if_neg heq, if_neg]
    intro hidx
    have hflat : r * b.numberOfColumns + c = r' * b.numberOfColumns + c' := by omega
    have := flat_injective r c r' c' b.numberOfColumns h3 h4 h3' h4' hflat
    exact heq ⟨this.1.symm, this.2.symm⟩

theorem firstEmptyFromBottom_fault (b : GameBoard) (top : Int) :
    ∀ (fuel : Nat) (slotCounter : Int) (fault : Fault),
      b.firstEmptyFromBottom top fuel slotCounter = Except.error fault →
      fault = Fault.outOfRange ∨ fault = Fault.nonTermination := by
  intro fuel
  induction fuel with
  | zero =>
    intro slotCounter fault h
    unfold GameBoard.firstEmptyFromBottom at h
    right
    exact (Except.error.inj h).symm
  | succ fuel ih =>
    intro slotCounter fault h
    unfold GameBoard.firstEmptyFromBottom at h
    by_cases hge : slotCounter ≥ top
    · rw [if_pos hge] at h
      unfold GameBoard.isEmptyAt GameBoard.vectorAt at h
      by_cases hin : 0 ≤ slotCounter ∧ slotCounter < b.gameBoard.length
      · rw [if_pos hin] at h
        simp only [bind_ok_eq] at h
        cases hs : (b.gameBoard.getD slotCounter.toNat GameSlot.empty).isEmpty
        · rw [hs] at h
          simp only [Bool.false_eq_true, if_false, bind_ok_eq] at h
          exact ih _ _ h
        · rw [hs] at h
          simp only [if_true, bind_ok_eq] at h
          cases h
      · rw [if_neg hin] at h
        left
        exact (Except.error.inj h).symm
    · rw [if_neg hge] at h
      cases h

theorem forceDropCoin_policy_iff (b : GameBoard) (c : Int) (p : Bool) :
    b.forceDropCoin c p = Except.error Fault.policy ↔ b.forceDropAllowed = false := by
  constructor
  · intro h
    by_contra hflag
    have hflag' : b.forceDropAllowed = true := by
      cases hb : b.forceDropAllowed
      · exact absurd hb hflag
      · rfl
    unfold GameBoard.forceDropCoin at h
    rw [if_pos hflag'] at h
    simp only [] at h
    cases hfound : b.firstEmptyFromBottom c (b.gameBoard.length + 1)
        (c + b.numberOfColumns * (b.numberOfRows - 1)) with
    | error fault =>
      rw [hfound] at h
      have hf := firstEmptyFromBottom_fault b c _ _ _ hfound
      have heq : fault = Fault.policy := Except.error.inj h
      rw [heq] at hf
      rcases hf with hf | hf <;> cases hf
    | ok found =>
      rw [hfound] at h
      cases found <;> cases h
  · intro hflag
    unfold GameBoard.forceDropCoin
    rw [hflag]
    rfl

/-! ## The gravity invariant -/

theorem coin_ne_empty (p : Bool) :
    (if p then GameSlot.userCoin else GameSlot.computerCoin) ≠ GameSlot.empty := by
  cases p <;> decide

theorem slotAt_of_mem_empty (b : GameBoard)
    (hall : ∀ slot ∈ b.gameBoard, slot = GameSlot.empty) (r c : Int) :
    b.slotAt r c = GameSlot.empty := by
  unfold GameBoard.slotAt
  rw [List.getD_eq_getElem?_getD]
  cases h : b.gameBoard[(r * b.numberOfColumns + c).toNat]? with
  | none => rfl
  | some slot =>
    have hmem : slot ∈ b.gameBoard := List.getElem?_mem h
    exact hall slot hmem

theorem specGravity_of_empty (b : GameBoard)
    (hall : ∀ slot ∈ b.gameBoard, slot = GameSlot.empty) : specGravity b := by
  intro c r r' _ _ _ _ _ hne
  exact absurd (slotAt_of_mem_empty b hall r c) hne

/-- The effect of a permitted forced drop into a column of the board: it returns, keeps
size, dimensions and flag, keeps every Owned slot and keeps the gravity invariant. -/
theorem forceDropCoin_keeps_gravity (b : GameBoard) (hsize : b.fullSize) (c : Int) (p : Bool)
    (hflag : b.forceDropAllowed = true) (hc0 : 0 ≤ c) (hcC : c < b.numberOfColumns)
    (hgrav : specGravity b) :
    ∃ after, b.forceDropCoin c p = Except.ok after ∧ after.fullSize ∧
      after.numberOfRows = b.numberOfRows ∧ after.numberOfColumns = b.numberOfColumns ∧
      after.forceDropAllowed = b.forceDropAllowed ∧ specGravity after ∧
      ∀ r' c', b.inGrid (r', c') → b.slotAt r' c' ≠ GameSlot.empty →
        after.slotAt r' c' = b.slotAt r' c' := by
  rcases column_lowest_empty_or_full b c with ⟨r, hr0, hrR, hempty, hbelow⟩ | hfull
  · refine ⟨_, forceDropCoin_lowest b hsize c r p hflag hc0 hcC hr0 hrR hempty hbelow,
      ?_, rfl, rfl, rfl, ?_, ?_⟩
    · unfold GameBoard.fullSize
      simp only [List.length_set]
      exact hsize
    · intro c'' r1 r2 hc1 hc2 hr1 hlt hr2 hne
      change c'' < b.numberOfColumns at hc2
      change r2 < b.numberOfRows at hr2
      have hg1 : b.inGrid (r1, c'') := ⟨hr1, by show r1 < _; omega, hc1, hc2⟩
      have hg2 : b.inGrid (r2, c'') := ⟨by show 0 ≤ r2; omega, hr2, hc1, hc2⟩
      rw [slotAt_set b hsize r c _ ⟨hr0, hrR, hc0, hcC⟩ r1 c'' hg1] at hne
      rw [slotAt_set b hsize r c _ ⟨hr0, hrR, hc0, hcC⟩ r2 c'' hg2]
      by_cases h2 : r2 = r ∧ c'' = c
      · rw [if_pos h2]
        exact coin_ne_empty p
      · rw [if_neg h2]
        by_cases h1 : r1 = r ∧ c'' = c
        · obtain ⟨rfl, rfl⟩ := h1
          exact hbelow r2 hlt hr2
        · rw [if_neg h1] at hne
          exact hgrav c'' r1 r2 hc1 hc2 hr1 hlt hr2 hne
    · intro r' c' hg hne
      rw [slotAt_set b hsize r c _ ⟨hr0, hrR, hc0, hcC⟩ r' c' hg]
      by_cases h : r' = r ∧ c' = c
      · obtain ⟨rfl, rfl⟩ := h
        exact absurd hempty hne
      · rw [if_neg h]
  · exact ⟨b, forceDropCoin_full b hsize c p hflag hc0 hcC hfull, hsize, rfl, rfl, rfl, hgrav,
      fun _ _ _ _ => rfl⟩

/-! ## dropCoin -/

theorem putCoinInGameSlot_engine (g after : ConnectFourGame) (boardIndex : Int) (p : Bool)
    (h : g.putCoinInGameSlot boardIndex p = Except.ok after) : after = g := by
  unfold putCoinInGameSlot at h
  cases hslot : g.gameBoard.getGameSlot boardIndex with
  | error fault => rw [hslot] at h; cases h
  | ok slot =>
    rw [hslot] at h
    exact (Except.ok.inj h).symm

/-- No call of dropCoin changes the engine, whatever counterUserMove gives: its two coins
are put into temporary copies. -/
theorem dropCoinWith_engine (counter : ConnectFourGame → Except Fault Int)
    (g : ConnectFourGame) (c : Int) (p : Bool) :
    (dropCoinWith counter g c p).1 = g := by
  unfold dropCoinWith
  split
  · rfl
  · rfl
  · split
    · rfl
    · split
      · rfl
      · rename_i g1 hput
        have hg1 := putCoinInGameSlot_engine _ _ _ _ hput
        subst hg1
        split
        · rfl
        · rfl
        · split
          · rfl
          · split
            · rfl
            · split
              · rfl
              · rename_i g2 hput2
                exact putCoinInGameSlot_engine _ _ _ _ hput2

theorem dropCoin_engine (g : ConnectFourGame) (c : Int) (p : Bool) :
    (g.dropCoin c p).1 = g :=
  dropCoinWith_engine counterUserMove g c p

theorem isValidPlay_rejected (g : ConnectFourGame) (c : Int)
    (hrej : c < 0 ∨ g.gameBoard.numberOfColumns ≤ c ∨
      g.gameBoard.slotAt 0 c ≠ GameSlot.empty) :
    g.isValidPlay c = Except.ok false := by
  unfold isValidPlay GameBoard.isValidColumn
  by_cases hcol : c ≥ 0 ∧ c < g.gameBoard.numberOfColumns
  · rcases hrej with h | h | hne
    · omega
    · omega
    · rw [if_pos hcol]
      simp only [if_true]
      have hslot : g.gameBoard.slotAt 0 c = g.gameBoard.gameBoard.getD c.toNat GameSlot.empty := by
        unfold GameBoard.slotAt
        rw [Int.zero_mul, Int.zero_add]
      have hin : c.toNat < g.gameBoard.gameBoard.length := by
        by_contra hout
        rw [hslot, List.getD_eq_default _ _ (by omega)] at hne
        exact hne rfl
      unfold GameBoard.isEmptyAt GameBoard.vectorAt
      rw [if_pos ⟨hcol.1, by omega⟩, ← hslot]
      cases hs : g.gameBoard.slotAt 0 c
      · exact absurd hs hne
      · rfl
      · rfl
  · rw [if_neg hcol]
    rfl

theorem dropCoin_rejected (g : ConnectFourGame) (c : Int) (p : Bool)
    (hrej : c < 0 ∨ g.gameBoard.numberOfColumns ≤ c ∨
      g.gameBoard.slotAt 0 c ≠ GameSlot.empty) :
    g.dropCoin c p = (g, Except.ok ()) := by
  unfold dropCoin dropCoinWith
  rw [isValidPlay_rejected g c hrej]

/-! ## Boards reachable by drops -/

theorem reachable_invariant (b : GameBoard) (h : ReachableByDrops b) :
    b.fullSize ∧ specGravity b := by
  induction h with
  | emptyBoard b hsize hall => exact ⟨hsize, specGravity_of_empty b hall⟩
  | forceDrop b after c p _ hc0 hcC hdrop ih =>
    have hflag : b.forceDropAllowed = true := by
      cases hb : b.forceDropAllowed
      · rw [(forceDropCoin_policy_iff b c p).mpr hb] at hdrop
        cases hdrop
      · rfl
    obtain ⟨after', hafter, hsize, -, -, -, hgrav, -⟩ :=
      forceDropCoin_keeps_gravity b ih.1 c p hflag hc0 hcC ih.2
    rw [hafter] at hdrop
    have : after' = after := Except.ok.inj hdrop
    subst this
    exact ⟨hsize, hgrav⟩
  | drop g c p _ ih =>
    rw [dropCoin_engine]
    exact ih

theorem isEmptyAt_top (b : GameBoard) (hsize : b.fullSize) (hrows : 0 < b.numberOfRows)
    (c : Int) (hc0 : 0 ≤ c) (hcC : c < b.numberOfColumns) :
    b.isEmptyAt c = Except.ok (b.slotAt 0 c).isEmpty := by
  have hidx : c = 0 * b.numberOfColumns + c := by ring
  have hempty := isEmptyAt_flat b hsize 0 c ⟨le_refl _, hrows, hc0, hcC⟩
  rw [← hidx] at hempty
  exact hempty

/-! ## The accesses of the scan of getAvailableSlot -/

theorem firstEmptyFromBottomTraced_result (b : GameBoard) (top : Int) :
    ∀ (fuel : Nat) (s : Int),
      (b.firstEmptyFromBottomTraced top fuel s).2 = b.firstEmptyFromBottom top fuel s := by
  intro fuel
  induction fuel with
  | zero => intro s; rfl
  | succ fuel ih =>
    intro s
    unfold GameBoard.firstEmptyFromBottomTraced GameBoard.firstEmptyFromBottom
    by_cases h : s ≥ top
    · rw [if_pos h, if_pos h]
      cases hE : b.isEmptyAt s with
      | error f => rfl
      | ok v =>
        cases v
        · simp only [bind_ok_eq, Bool.false_eq_true, if_false]
          exact ih _
        · rfl
    · rw [if_neg h, if_neg h]

theorem intRange_snoc (lo hi : Int) (h : lo ≤ hi + 1) :
    intRange lo (hi + 1) = intRange lo hi ++ [hi + 1] := by
  unfold intRange
  have : (hi + 1 - lo + 1).toNat = (hi - lo + 1).toNat + 1 := by omega
  rw [this, List.range_succ, List.map_append]
  congr 1
  simp only [List.map_cons, List.map_nil, List.cons.injEq, and_true]
  omega

theorem firstEmptyFromBottomTraced_found (b : GameBoard) (hsize : b.fullSize) (r c : Int)
    (hr0 : 0 ≤ r) (hc0 : 0 ≤ c) (hcC : c < b.numberOfColumns)
    (hempty : b.slotAt r c = GameSlot.empty) :
    ∀ (n fuel : Nat), r + n < b.numberOfRows →
      (∀ r', r < r' → r' ≤ r + n → b.slotAt r' c ≠ GameSlot.empty) →
      n + 1 ≤ fuel →
      (b.firstEmptyFromBottomTraced c fuel (c + b.numberOfColumns * (r + n))).1
        = (intRange r (r + n)).reverse.map (fun r' => r' * b.numberOfColumns + c) := by
  intro n
  induction n with
  | zero =>
    intro fuel hR _ hfuel
    obtain ⟨fuel, rfl⟩ : ∃ k, fuel = k + 1 := ⟨fuel - 1, by omega⟩
    have hidx : c + b.numberOfColumns * (r + ((0 : Nat) : Int)) = r * b.numberOfColumns + c := by
      push_cast; ring
    have hge : r * b.numberOfColumns + c ≥ c := by
      have := Int.mul_nonneg hr0 (by omega : (0 : Int) ≤ b.numberOfColumns)
      omega
    have hrange : intRange r (r + ((0 : Nat) : Int)) = [r] := by
      rw [intRange_cons r _ (by simp), intRange_nil _ _ (by simp)]
    rw [hidx, hrange]
    unfold GameBoard.firstEmptyFromBottomTraced
    rw [if_pos hge, isEmptyAt_flat b hsize r c ⟨hr0, by simpa using hR, hc0, hcC⟩, hempty]
    rfl
  | succ n ih =>
    intro fuel hR hbelow hfuel
    obtain ⟨fuel, rfl⟩ : ∃ k, fuel = k + 1 := ⟨fuel - 1, by omega⟩
    have hidx : c + b.numberOfColumns * (r + ((n + 1 : Nat) : Int))
        = (r + (n + 1 : Nat)) * b.numberOfColumns + c := by ring
    have hge : (r + (n + 1 : Nat)) * b.numberOfColumns + c ≥ c := by
      have := Int.mul_nonneg (by omega : (0 : Int) ≤ r + (n + 1 : Nat))
        (by omega : (0 : Int) ≤ b.numberOfColumns)
      omega
    have hne := hbelow (r + (n + 1 : Nat)) (by omega) (by omega)
    have hprev : (r + (n + 1 : Nat)) * b.numberOfColumns + c - b.numberOfColumns
        = c + b.numberOfColumns * (r + (n : Int)) := by
      push_cast; ring
    have hrange : intRange r (r + ((n + 1 : Nat) : Int))
        = intRange r (r + (n : Int)) ++ [r + ((n + 1 : Nat) : Int)] := by
      have h1 : r + ((n + 1 : Nat) : Int) = (r + (n : Int)) + 1 := by push_cast; ring
      rw [h1]
      exact intRange_snoc r (r + n) (by omega)
    rw [hidx, hrange]
    unfold GameBoard.firstEmptyFromBottomTraced
    rw [if_pos hge, isEmptyAt_flat b hsize _ c ⟨by show (0:Int) ≤ r + (n + 1 : Nat); omega, hR, hc0, hcC⟩]
    have hfalse : (b.slotAt (r + (n + 1 : Nat)) c).isEmpty = false := by
      cases hs : b.slotAt (r + (n + 1 : Nat)) c
      · exact absurd hs hne
      · rfl
      · rfl
    rw [hfalse]
    simp only [List.reverse_append, List.reverse_cons, List.reverse_nil, List.nil_append,
      List.singleton_append, List.map_cons]
    rw [hprev, ih fuel (by omega) (fun r' h1 h2 => hbelow r' h1 (by omega)) (by omega)]

/-- A play that isValidPlay accepts is in a column of the board whose top slot is Empty. -/
theorem isValidPlay_top_empty (g : ConnectFourGame) (c : Int)
    (hvalid : g.isValidPlay c = Except.ok true) :
    (c.toNat < g.gameBoard.gameBoard.length) ∧ g.gameBoard.slotAt 0 c = GameSlot.empty := by
  obtain ⟨hc0, hcC⟩ := isValidPlay_column g c hvalid
  unfold isValidPlay GameBoard.isValidColumn at hvalid
  have hcol : c ≥ 0 ∧ c < g.gameBoard.numberOfColumns := ⟨hc0, hcC⟩
  rw [if_pos hcol] at hvalid
  simp only [if_true] at hvalid
  unfold GameBoard.isEmptyAt GameBoard.vectorAt at hvalid
  have hslot : g.gameBoard.slotAt 0 c = g.gameBoard.gameBoard.getD c.toNat GameSlot.empty := by
    unfold GameBoard.slotAt
    rw [Int.zero_mul, Int.zero_add]
  by_cases hin : 0 ≤ c ∧ c < g.gameBoard.gameBoard.length
  · rw [if_pos hin, ← hslot] at hvalid
    refine ⟨by omega, ?_⟩
    cases hs : g.gameBoard.slotAt 0 c
    · rfl
    · rw [hs] at hvalid; cases hvalid
    · rw [hs] at hvalid; cases hvalid
  · rw [if_neg hin] at hvalid
    cases hvalid

/-! ## The claims -/

/-- Claim C1, on the code: counterUserMove returns no column. On the engine that
`ConnectFourGame()` builds (empty 6 x 7 board, depth 2) the evaluation of column 0 throws
the logic_error of getBoardIndex, the blocked range `[0, columnCount + 1)` also holds
column 7, whose evaluation fails the assertion of getAvailableSlot, and the call ends in a
fault; and for no engine state at all does counterUserMove return a column, since the write
`moveScores.at(columnCount)` is outside the vector. -/
theorem counterUserMove_returns_no_column :
    ConnectFourGame.default.counterUserMove = Except.error Fault.geometry ∧
    ConnectFourGame.default.getMoveHueristicScore 2 0 true GameBoard.default
      = Except.error Fault.geometry ∧
    ConnectFourGame.default.getMoveHueristicScore 2 7 true GameBoard.default
      = Except.error Fault.assertion ∧
    ∀ (g : ConnectFourGame) (c : Int), g.counterUserMove ≠ Except.ok c :=
  ⟨rfl, rfl, rfl, counterUserMove_ne_ok⟩

/-- Claim C2, on the code: on the board singleWinningColumn, with the computer to move,
column 3 is the one column where a drop completes four in a line, for the computer (columns
3 to 6 of row 5) and for the user (columns 0 to 3) alike, and it is playable.
counterUserMove at depth 2 does not return 3: it ends in a fault, the evaluation of column
3 throws, and the horizontal total of column 3 is 9 for either side, not the sentinel,
since the scorers count the slot of the drop as Empty. -/
theorem counterUserMove_misses_single_winning_column :
    (intRange 0 6).filter (fun column => specCompletesFour singleWinningColumn column false)
      = [3] ∧
    (intRange 0 6).filter (fun column => specCompletesFour singleWinningColumn column true)
      = [3] ∧
    (engineOn singleWinningColumn).isValidPlay 3 = Except.ok true ∧
    (engineOn singleWinningColumn).counterUserMove = Except.error Fault.geometry ∧
    (engineOn singleWinningColumn).getMoveHueristicScore 2 3 true singleWinningColumn
      = Except.error Fault.geometry ∧
    (engineOn singleWinningColumn).getHorizontalHueristicScore 3 singleWinningColumn true
      = Except.ok 9 ∧
    (engineOn singleWinningColumn).getHorizontalHueristicScore 3 singleWinningColumn false
      = Except.ok 9 :=
  ⟨by decide, by decide, rfl, rfl, rfl, rfl, rfl⟩

/-- Claim C3, on the code: on the 6 x 7 board whose only coins are user coins in row 5 at
columns 0, 1 and 2, a user drop in column 3 completes four in a line, and wasWinningPlay
for that drop reports no win: the horizontal total is 9 + 3 + 1 + 0 = 13, not INT_MAX, the
positive slope scorer throws the logic_error of getBoardIndex, and so does the check. On
the board after the drop (four user coins in row 5) the scorers look at row 4, the
horizontal total is 0 and the check throws as well. -/
theorem wasWinningPlay_misses_four_in_bottom_row :
    specCompletesFour threeInBottomRow 3 true = true ∧
    (engineOn threeInBottomRow).isValidPlay 3 = Except.ok true ∧
    (engineOn threeInBottomRow).wasWinningPlay 3 true = Except.error Fault.geometry ∧
    (engineOn threeInBottomRow).getHorizontalHueristicScore 3 threeInBottomRow true
      = Except.ok 13 ∧
    (engineOn threeInBottomRow).getVerticalHueristicScore 3 threeInBottomRow true
      = Except.ok 0 ∧
    (engineOn threeInBottomRow).getPositiveSlopeHueristicScore 3 threeInBottomRow true
      = Except.error Fault.geometry ∧
    (engineOn fourInBottomRow).wasWinningPlay 3 true = Except.error Fault.geometry ∧
    (engineOn fourInBottomRow).getHorizontalHueristicScore 3 fourInBottomRow true
      = Except.ok 0 :=
  ⟨by decide, rfl, rfl, rfl, rfl, rfl, rfl, rfl⟩

/-- Claim C4, on the code: on the 6 x 7 board with one user coin at row 5, column 3, for
depth 1, the user and the playable column 6 the four direction totals are 1, 0, 0 and 1,
none the sentinel, and every value at depth 0 is 0, so that the claimed value is 2 - 0;
getMoveHueristicScore throws the logic_error of forceDropCoin instead. -/
theorem getMoveHueristicScore_fails_instead_of_difference :
    (engineOn oneCoinInColumnThree).isValidPlay 6 = Except.ok true ∧
    (engineOn oneCoinInColumnThree).getHorizontalHueristicScore 6 oneCoinInColumnThree true
      = Except.ok 1 ∧
    (engineOn oneCoinInColumnThree).getVerticalHueristicScore 6 oneCoinInColumnThree true
      = Except.ok 0 ∧
    (engineOn oneCoinInColumnThree).getPositiveSlopeHueristicScore 6 oneCoinInColumnThree true
      = Except.ok 0 ∧
    (engineOn oneCoinInColumnThree).getNegativeSlopeHueristicScore 6 oneCoinInColumnThree true
      = Except.ok 1 ∧
    (∀ (column : Int) (board : GameBoard),
      (engineOn oneCoinInColumnThree).getMoveHueristicScore 0 column false board
        = Except.ok 0) ∧
    (engineOn oneCoinInColumnThree).getMoveHueristicScore 1 6 true oneCoinInColumnThree
      = Except.error Fault.policy :=
  ⟨rfl, rfl, rfl, rfl, rfl, fun _ _ => rfl, rfl⟩

/-- Claim C5, on the code: on the engine that `ConnectFourGame()` builds, with its own
empty board as the hypothetical board and depth 0, every per-column value is 0, so the
claimed maximum is 0; bestHeuristicScoreForOpponentMove throws the out_of_range of
`moveScores.at(7)` instead, and at depth 1 it ends in a fault as well. -/
theorem bestHeuristicScoreForOpponentMove_returns_no_maximum :
    (∀ column : Int,
      ConnectFourGame.default.getMoveHueristicScore 0 column true GameBoard.default
        = Except.ok 0) ∧
    ConnectFourGame.default.bestHeuristicScoreForOpponentMove 0 true GameBoard.default
      = Except.error Fault.outOfRange ∧
    ConnectFourGame.default.bestHeuristicScoreForOpponentMove 1 true GameBoard.default
      = Except.error Fault.geometry :=
  ⟨fun _ => rfl, rfl, rfl⟩

/-- Claim C6, on the code: the columns for which an evaluation is issued are not all legal.
On the engine that `ConnectFourGame()` builds column 7 = columnCount is among them: it is
no valid play, getAvailableSlot fails its assertion on it, and the write into the 7-cell
result vector is out of bounds even when every evaluation returns. On a board whose column
0 is full, column 0 is among them too and its evaluation fails the same assertion. -/
theorem evaluatedColumns_hold_illegal_columns :
    (7 : Int) ∈ ConnectFourGame.default.evaluatedColumns ∧
    ConnectFourGame.default.isValidPlay 7 = Except.ok false ∧
    ConnectFourGame.default.getAvailableSlot 7 = Except.error Fault.assertion ∧
    fillMoveScores (fun _ => Except.ok 0) ConnectFourGame.default.evaluatedColumns
      (List.replicate 7 0) = Except.error Fault.outOfRange ∧
    (0 : Int) ∈ (engineOn firstColumnFull).evaluatedColumns ∧
    (engineOn firstColumnFull).isValidPlay 0 = Except.ok false ∧
    (engineOn firstColumnFull).getMoveHueristicScore 2 0 true firstColumnFull
      = Except.error Fault.assertion :=
  ⟨by decide, rfl, rfl, rfl, by decide, rfl, rfl⟩

/-- Claim C7, on the code: on the engine that `ConnectFourGame()` builds (empty board,
forced drops not allowed), at depth 2 and the playable column 6, whose four direction
totals are 0, the copy that getMoveHueristicScore makes keeps the flag of the board it
copies, forceDropCoin on it throws the logic_error "Force drop is not allowed" and the
search fails with it. The constructor that sets the flag, the one taking the slot vector,
is not the one called. -/
theorem getMoveHueristicScore_copy_lacks_permission :
    GameBoard.default.forceDropAllowed = false ∧
    (GameBoard.copy GameBoard.default).forceDropAllowed = false ∧
    (GameBoard.ofSlots GameBoard.default.gameBoard 6 7).forceDropAllowed = true ∧
    ConnectFourGame.default.isValidPlay 6 = Except.ok true ∧
    ConnectFourGame.default.getHorizontalHueristicScore 6 GameBoard.default true = Except.ok 0 ∧
    ConnectFourGame.default.getVerticalHueristicScore 6 GameBoard.default true = Except.ok 0 ∧
    ConnectFourGame.default.getPositiveSlopeHueristicScore 6 GameBoard.default true
      = Except.ok 0 ∧
    ConnectFourGame.default.getNegativeSlopeHueristicScore 6 GameBoard.default true
      = Except.ok 0 ∧
    (GameBoard.copy GameBoard.default).forceDropCoin 6 false = Except.error Fault.policy ∧
    ConnectFourGame.default.getMoveHueristicScore 2 6 true GameBoard.default
      = Except.error Fault.policy :=
  ⟨rfl, rfl, rfl, rfl, rfl, rfl, rfl, rfl, rfl, rfl⟩

/-- Claim C8, on the code: getMoveHueristicScore reads the board of the engine. With the
same four arguments (depth 1, column 6, the user, the board fourOnTheRight) the engine
whose own board is threeOnTheRight returns INT_MAX and the engine whose own board is
fourOnTheRight throws; the horizontal totals are INT_MAX and 0, because the row of the drop
comes from getAvailableSlot on the board of the engine (row 5 and row 4); and the negative
slope scorer never reads the board handed in. -/
theorem getMoveHueristicScore_depends_on_engine_board :
    (engineOn threeOnTheRight).getMoveHueristicScore 1 6 true fourOnTheRight
      = Except.ok INT_MAX ∧
    (engineOn fourOnTheRight).getMoveHueristicScore 1 6 true fourOnTheRight
      = Except.error Fault.policy ∧
    (engineOn threeOnTheRight).getHorizontalHueristicScore 6 fourOnTheRight true
      = Except.ok INT_MAX ∧
    (engineOn fourOnTheRight).getHorizontalHueristicScore 6 fourOnTheRight true
      = Except.ok 0 ∧
    (engineOn threeOnTheRight).getAvailableSlot 6 = Except.ok 41 ∧
    (engineOn fourOnTheRight).getAvailableSlot 6 = Except.ok 34 ∧
    ∀ (g : ConnectFourGame) (column : Int) (board other : GameBoard) (isUserCoin : Bool),
      g.getNegativeSlopeHueristicScore column board isUserCoin
        = g.getNegativeSlopeHueristicScore column other isUserCoin :=
  ⟨rfl, rfl, rfl, rfl, rfl, rfl, fun _ _ _ _ _ => rfl⟩

/-- Claim C9: on a board with one slot per cell whose number of cells is an int (at most
INT_MAX), for either scoring side and a length-4
window of any of the four directions that lies inside the grid, isEmptyOrRequiredType
called with the flat indices of the first and the last cell returns, and its outcome is the
one of the specification: false (`none`, nothing is added: contribution 0) when one of the
four cells is owned by the opponent, however many the scoring side owns, and otherwise true
with the score table(k), k the number of the four cells the scoring side owns and table =
[0, 1, 3, 9, INT_MAX]; what the caller adds to a total of 0 is the window score of the
specification; and the table is strictly increasing. -/
theorem isEmptyOrRequiredType_window_contribution (b : GameBoard) (userCoinPlayed : Bool)
    (d : Direction) (r c : Int) (hsize : b.fullSize)
    (hfit : b.numberOfRows * b.numberOfColumns ≤ INT_MAX)
    (hgrid : ∀ cell ∈ specWindowCells d r c, b.inGrid cell) :
    isEmptyOrRequiredType (b.flatIndex (r, c)) (b.flatIndex (specWindowLast d r c))
        userCoinPlayed b
        = Except.ok (specWindowResult b userCoinPlayed (specWindowCells d r c)) ∧
      addWindowScore 0 (specWindowResult b userCoinPlayed (specWindowCells d r c))
        = specWindowScore b userCoinPlayed (specWindowCells d r c) ∧
      specScoreTable = [0, 1, 3, 9, INT_MAX] ∧
      List.Pairwise (fun x y => x < y) specScoreTable := by
  refine ⟨?_, ?_, rfl, by decide⟩
  · cases d <;>
      simp only [specWindowCells, List.mem_cons, List.mem_singleton, List.not_mem_nil, or_false,
        forall_eq_or_imp, forall_eq, GameBoard.inGrid] at hgrid <;>
      obtain ⟨⟨h1, h2, h3, h4⟩, -, -, ⟨h5, h6, h7, h8⟩⟩ := hgrid <;>
      simp only [GameBoard.flatIndex, specWindowLast, specWindowResult, specWindowSlots,
        specWindowCells, List.map_cons, List.map_nil]
    · rw [isEmptyOrRequiredType_horizontal b userCoinPlayed r c hsize hfit h1 h2 h3 (by omega),
        countSlots_result]
    · rw [isEmptyOrRequiredType_vertical b userCoinPlayed r c hsize hfit h1 (by omega) h3 h4,
        countSlots_result]
    · rw [isEmptyOrRequiredType_diagonalUpRight b userCoinPlayed r c hsize hfit h5 h2 h3 (by omega),
        countSlots_result]
    · rw [isEmptyOrRequiredType_diagonalDownRight b userCoinPlayed r c hsize hfit h1 (by omega) h3
        (by omega), countSlots_result]
  · cases d <;> exact addWindowScore_zero_result _ _ _ _ _

/-- Witness of C9: the horizontal window of row 5 from column 0 on the board
threeInBottomRow, scored for the user (three user coins and an Empty slot: score 9) and
for the computer (discarded), and the diagonal window up and to the right from row 5,
column 0. -/
theorem isEmptyOrRequiredType_window_contribution_witness :
    isEmptyOrRequiredType 35 38 true threeInBottomRow = Except.ok (some 9) ∧
    isEmptyOrRequiredType 35 38 false threeInBottomRow = Except.ok none ∧
    isEmptyOrRequiredType 35 17 true threeInBottomRow = Except.ok (some 1) := by
  have hsize : threeInBottomRow.fullSize := by unfold GameBoard.fullSize; decide
  have hfit : threeInBottomRow.numberOfRows * threeInBottomRow.numberOfColumns ≤ INT_MAX := by
    decide
  have hrow : ∀ cell ∈ specWindowCells Direction.horizontal 5 0,
      threeInBottomRow.inGrid cell := by
    intro cell hcell
    simp only [specWindowCells, List.mem_cons, List.mem_singleton, List.not_mem_nil,
      or_false] at hcell
    rcases hcell with rfl | rfl | rfl | rfl <;> (unfold GameBoard.inGrid; decide)
  have hdiag : ∀ cell ∈ specWindowCells Direction.diagonalUpRight 5 0,
      threeInBottomRow.inGrid cell := by
    intro cell hcell
    simp only [specWindowCells, List.mem_cons, List.mem_singleton, List.not_mem_nil,
      or_false] at hcell
    rcases hcell with rfl | rfl | rfl | rfl <;> (unfold GameBoard.inGrid; decide)
  exact ⟨(isEmptyOrRequiredType_window_contribution threeInBottomRow true
      Direction.horizontal 5 0 hsize hfit hrow).1,
    (isEmptyOrRequiredType_window_contribution threeInBottomRow false
      Direction.horizontal 5 0 hsize hfit hrow).1,
    (isEmptyOrRequiredType_window_contribution threeInBottomRow true
      Direction.diagonalUpRight 5 0 hsize hfit hdiag).1⟩

/-- When the board handed to the two scorers is the board of the engine (one slot per
cell, at most INT_MAX cells): for a playable column c (isValidPlay holds) and r the row of
the lowest Empty slot of column c, getHorizontalHueristicScore returns the sum of the window
scores over the horizontal windows of row r that start at the columns s with
max(0, c - 3) <= s <= min(c, C - 4), and getVerticalHueristicScore returns the sum over the
vertical windows of column c that start at the rows t with
max(0, r - 3) <= t <= min(r, R - 4); these starts are exactly the ones of the windows of
the family that lie inside the grid and contain the cell (r, c), each listed once. -/
theorem scores_on_engine_board_sum_windows (g : ConnectFourGame) (c r : Int)
    (isUserCoin : Bool) (hsize : g.gameBoard.fullSize)
    (hfit : g.gameBoard.numberOfRows * g.gameBoard.numberOfColumns ≤ INT_MAX)
    (hvalid : g.isValidPlay c = Except.ok true)
    (hr0 : 0 ≤ r) (hrR : r < g.gameBoard.numberOfRows)
    (hempty : g.gameBoard.slotAt r c = GameSlot.empty)
    (hbelow : ∀ r', r < r' → r' < g.gameBoard.numberOfRows →
      g.gameBoard.slotAt r' c ≠ GameSlot.empty) :
    g.getHorizontalHueristicScore c g.gameBoard isUserCoin
        = Except.ok (((intRange (max 0 (c - 3)) (min c (g.gameBoard.numberOfColumns - 4))).map
            (fun s => specWindowScore g.gameBoard isUserCoin
              (specWindowCells Direction.horizontal r s))).sum) ∧
      g.getVerticalHueristicScore c g.gameBoard isUserCoin
        = Except.ok (((intRange (max 0 (r - 3)) (min r (g.gameBoard.numberOfRows - 4))).map
            (fun t => specWindowScore g.gameBoard isUserCoin
              (specWindowCells Direction.vertical t c))).sum) ∧
      (∀ s, s ∈ intRange (max 0 (c - 3)) (min c (g.gameBoard.numberOfColumns - 4)) ↔
        (∀ cell ∈ specWindowCells Direction.horizontal r s, g.gameBoard.inGrid cell) ∧
          (r, c) ∈ specWindowCells Direction.horizontal r s) ∧
      (∀ t, t ∈ intRange (max 0 (r - 3)) (min r (g.gameBoard.numberOfRows - 4)) ↔
        (∀ cell ∈ specWindowCells Direction.vertical t c, g.gameBoard.inGrid cell) ∧
          (r, c) ∈ specWindowCells Direction.vertical t c) ∧
      (intRange (max 0 (c - 3)) (min c (g.gameBoard.numberOfColumns - 4))).Nodup ∧
      (intRange (max 0 (r - 3)) (min r (g.gameBoard.numberOfRows - 4))).Nodup :=
  ⟨getHorizontalHueristicScore_sum g c r isUserCoin hsize hfit hvalid hr0 hrR hempty hbelow,
    getVerticalHueristicScore_sum g c r isUserCoin hsize hfit hvalid hr0 hrR hempty hbelow,
    fun s => horizontal_window_starts g.gameBoard r c s hr0 hrR,
    fun t => vertical_window_starts g.gameBoard r c t (isValidPlay_column g c hvalid).1
      (isValidPlay_column g c hvalid).2,
    intRange_nodup _ _, intRange_nodup _ _⟩

/-- An instance: column 3 of the board threeInBottomRow, scored on an engine that holds this
board; the lowest Empty slot is in row 5. The horizontal windows start at columns 0 to 3 and
score 9 + 3 + 1 + 0 for the user; the one vertical window starts at row 2 and scores 0. -/
theorem scores_on_engine_board_sum_windows_instance :
    (engineOn threeInBottomRow).isValidPlay 3 = Except.ok true ∧
    (engineOn threeInBottomRow).gameBoard.slotAt 5 3 = GameSlot.empty ∧
    (engineOn threeInBottomRow).getHorizontalHueristicScore 3 threeInBottomRow true
      = Except.ok (9 + 3 + 1 + 0) ∧
    (engineOn threeInBottomRow).getVerticalHueristicScore 3 threeInBottomRow true
      = Except.ok 0 := by
  have h := scores_on_engine_board_sum_windows (engineOn threeInBottomRow) 3 5 true
    (by unfold GameBoard.fullSize; decide) (by decide) rfl (by decide) (by decide) (by decide)
    (by
      intro r' h1 h2
      have h3 : (engineOn threeInBottomRow).gameBoard.numberOfRows = 6 := rfl
      omega)
  exact ⟨rfl, by decide, h.1.trans rfl, h.2.1.trans rfl⟩

/-- Claim C10, on the code: the two scorers do not take the row of the drop from the board
they are handed. Both call getAvailableSlot, which reads the board of the engine. On the
board fourOnTheRight column 6 is playable and its lowest Empty slot is in row 4; the one
horizontal window of row 4 through column 6 starts at column 3 and scores 0 for the user.
An engine that holds the board threeOnTheRight, whose column 6 is empty, scans row 5 of the
board handed in instead and returns INT_MAX; an engine that holds fourOnTheRight itself
returns 0. On the board twoInColumnTwo the lowest Empty slot of column 2 is in row 3 and the
vertical windows from rows 0, 1 and 2 score 0 + 1 + 0 for the computer; the engine
`ConnectFourGame()` builds, with an empty board, scans the window from row 2 only and returns
0, while an engine that holds twoInColumnTwo returns 1. -/
theorem horizontal_vertical_scores_read_engine_board :
    fourOnTheRight.isValidColumn 6 = true ∧
    fourOnTheRight.isEmptyAt 6 = Except.ok true ∧
    specLowestEmptyRow fourOnTheRight 6 = some 4 ∧
    intRange (max 0 (6 - 3)) (min 6 (fourOnTheRight.numberOfColumns - 4)) = [3] ∧
    ((intRange (max 0 (6 - 3)) (min 6 (fourOnTheRight.numberOfColumns - 4))).map
      (fun s => specWindowScore fourOnTheRight true
        (specWindowCells Direction.horizontal 4 s))).sum = 0 ∧
    (engineOn threeOnTheRight).getAvailableSlot 6 = Except.ok 41 ∧
    (engineOn threeOnTheRight).getHorizontalHueristicScore 6 fourOnTheRight true
      = Except.ok INT_MAX ∧
    (engineOn fourOnTheRight).getHorizontalHueristicScore 6 fourOnTheRight true
      = Except.ok 0 ∧
    twoInColumnTwo.isValidColumn 2 = true ∧
    twoInColumnTwo.isEmptyAt 2 = Except.ok true ∧
    specLowestEmptyRow twoInColumnTwo 2 = some 3 ∧
    intRange (max 0 (3 - 3)) (min 3 (twoInColumnTwo.numberOfRows - 4)) = [0, 1, 2] ∧
    ((intRange (max 0 (3 - 3)) (min 3 (twoInColumnTwo.numberOfRows - 4))).map
      (fun t => specWindowScore twoInColumnTwo false
        (specWindowCells Direction.vertical t 2))).sum = 1 ∧
    ConnectFourGame.default.getAvailableSlot 2 = Except.ok 37 ∧
    ConnectFourGame.default.getVerticalHueristicScore 2 twoInColumnTwo false = Except.ok 0 ∧
    (engineOn twoInColumnTwo).getVerticalHueristicScore 2 twoInColumnTwo false
      = Except.ok 1 :=
  ⟨rfl, rfl, rfl, rfl, rfl, rfl, rfl, rfl, rfl, rfl, rfl, rfl, rfl, rfl, rfl, rfl⟩

/-- Claim C11, on the code: the two diagonal scorers do not sum the diagonal windows. On
the empty 6 x 7 board the one up-right window through the played cell (5, 0) scores 0 and
the one down-right window through (5, 4) scores 0, and both scorers throw the logic_error
of getBoardIndex there; on the board with one user coin at (5, 3) the down-right window
through the played cell (5, 6) scores 0 for the user and getNegativeSlopeHueristicScore
returns 1, the score of the vertical window of column 3 from row 2. Both scorers hand
isEmptyOrRequiredType the indices (startRow, startColumn) and (endRow, startColumn). The
total of the specification is the one the horizontal scorer returns (13 on the board
threeInBottomRow, column 3). -/
theorem diagonal_scorers_miss_diagonal_windows :
    ConnectFourGame.default.isValidPlay 0 = Except.ok true ∧
    specDirectionTotal GameBoard.default true Direction.diagonalUpRight 5 0 = 0 ∧
    ConnectFourGame.default.getPositiveSlopeHueristicScore 0 GameBoard.default true
      = Except.error Fault.geometry ∧
    ConnectFourGame.default.isValidPlay 4 = Except.ok true ∧
    specDirectionTotal GameBoard.default true Direction.diagonalDownRight 5 4 = 0 ∧
    ConnectFourGame.default.getNegativeSlopeHueristicScore 4 GameBoard.default true
      = Except.error Fault.geometry ∧
    (engineOn oneCoinInColumnThree).isValidPlay 6 = Except.ok true ∧
    specDirectionTotal oneCoinInColumnThree true Direction.diagonalDownRight 5 6 = 0 ∧
    (engineOn oneCoinInColumnThree).getNegativeSlopeHueristicScore 6 oneCoinInColumnThree true
      = Except.ok 1 ∧
    specWindowScore oneCoinInColumnThree true (specWindowCells Direction.vertical 2 3) = 1 ∧
    specDirectionTotal threeInBottomRow true Direction.horizontal 5 3 = 13 ∧
    (engineOn threeInBottomRow).getHorizontalHueristicScore 3 threeInBottomRow true
      = Except.ok 13 :=
  ⟨rfl, by decide, rfl, rfl, by decide, rfl, rfl, by decide, rfl, by decide, by decide, rfl⟩

/-- Claim C12, on the code: on the engine that `ConnectFourGame()` builds, column 6 is in
range and not full and its lowest Empty slot is at row 5 (flat index 41); after
dropCoin(6, true) that slot is still Empty, and the call does not return (counterUserMove
throws). The statement `getGameSlot(41).putCoin(true)` leaves the engine as it was, no
call of dropCoin changes the engine, while forceDropCoin, which writes through
`gameBoard.at(...)`, does put the coin on a board that allows it. -/
theorem dropCoin_leaves_slot_empty :
    ConnectFourGame.default.isValidPlay 6 = Except.ok true ∧
    specLowestEmptyRow GameBoard.default 6 = some 5 ∧
    ConnectFourGame.default.getAvailableSlot 6 = Except.ok 41 ∧
    ConnectFourGame.default.putCoinInGameSlot 41 true = Except.ok ConnectFourGame.default ∧
    (ConnectFourGame.default.dropCoin 6 true).1.gameBoard.slotAt 5 6 = GameSlot.empty ∧
    (ConnectFourGame.default.dropCoin 6 true).2 = Except.error Fault.geometry ∧
    (∀ (g : ConnectFourGame) (c : Int) (isUserCoin : Bool), (g.dropCoin c isUserCoin).1 = g) ∧
    (emptyWithPermission.forceDropCoin 6 true).map (fun after => after.slotAt 5 6)
      = Except.ok GameSlot.userCoin :=
  ⟨rfl, by decide, rfl, rfl, by decide, rfl, dropCoin_engine, rfl⟩

/-- Claim C13: a drop into a column that is out of range (c < 0 or c >= columnCount) or
whose top slot (row 0) is occupied is rejected: dropCoin returns without a fault and leaves
the engine, with every slot of its board, as it was; the same drop on the resulting engine
again returns and leaves it as it was. -/
theorem dropCoin_rejected_unchanged (g : ConnectFourGame) (c : Int) (isUserCoin : Bool)
    (hrej : c < 0 ∨ g.gameBoard.numberOfColumns ≤ c ∨
      g.gameBoard.slotAt 0 c ≠ GameSlot.empty) :
    g.dropCoin c isUserCoin = (g, Except.ok ()) ∧
    (g.dropCoin c isUserCoin).1.gameBoard.gameBoard = g.gameBoard.gameBoard ∧
    (g.dropCoin c isUserCoin).1.dropCoin c isUserCoin = (g, Except.ok ()) := by
  have h := dropCoin_rejected g c isUserCoin hrej
  refine ⟨h, ?_, ?_⟩
  · rw [h]
  · rw [h]
    exact h

/-- Witness of C13: the full column 0 of the board firstColumnFull, and the columns 7 and
-1 of the empty 6 x 7 board. -/
theorem dropCoin_rejected_unchanged_witness :
    (engineOn firstColumnFull).dropCoin 0 true = (engineOn firstColumnFull, Except.ok ()) ∧
    ConnectFourGame.default.dropCoin 7 false = (ConnectFourGame.default, Except.ok ()) ∧
    (ConnectFourGame.default.dropCoin (-1) true).1.dropCoin (-1) true
      = (ConnectFourGame.default, Except.ok ()) :=
  ⟨(dropCoin_rejected_unchanged (engineOn firstColumnFull) 0 true
      (Or.inr (Or.inr (by decide)))).1,
    (dropCoin_rejected_unchanged ConnectFourGame.default 7 false
      (Or.inr (Or.inl (by decide)))).1,
    (dropCoin_rejected_unchanged ConnectFourGame.default (-1) true
      (Or.inl (by decide))).2.2⟩

/-- Claim C14: on every board reachable from an empty board by drops, with at least one
row, and for every column c of the board, the top-slot check isEmptyAt(c) returns, is false
if and only if column c has no Empty slot and is true otherwise; in particular this holds
immediately after a forced drop into column c and after a dropCoin into column c. -/
theorem isEmptyAt_top_tells_full (before : GameBoard) (hreach : ReachableByDrops before)
    (hrows : 0 < before.numberOfRows) (c : Int) (hc0 : 0 ≤ c)
    (hcC : c < before.numberOfColumns) (isUserCoin : Bool) :
    ((before.isEmptyAt c = Except.ok false ↔ specColumnFull before c) ∧
      (before.isEmptyAt c = Except.ok true ↔ ¬ specColumnFull before c)) ∧
    (∀ after, before.forceDropCoin c isUserCoin = Except.ok after →
      (after.isEmptyAt c = Except.ok false ↔ specColumnFull after c) ∧
        (after.isEmptyAt c = Except.ok true ↔ ¬ specColumnFull after c)) ∧
    (∀ g : ConnectFourGame, g.gameBoard = before →
      ((g.dropCoin c isUserCoin).1.gameBoard.isEmptyAt c = Except.ok false ↔
          specColumnFull (g.dropCoin c isUserCoin).1.gameBoard c) ∧
        ((g.dropCoin c isUserCoin).1.gameBoard.isEmptyAt c = Except.ok true ↔
          ¬ specColumnFull (g.dropCoin c isUserCoin).1.gameBoard c)) := by
  have key : ∀ b : GameBoard, ReachableByDrops b → 0 < b.numberOfRows →
      c < b.numberOfColumns →
      (b.isEmptyAt c = Except.ok false ↔ specColumnFull b c) ∧
        (b.isEmptyAt c = Except.ok true ↔ ¬ specColumnFull b c) := by
    intro b hb hR hC
    obtain ⟨hsize, hgrav⟩ := reachable_invariant b hb
    rw [isEmptyAt_top b hsize hR c hc0 hC]
    have hfull : specColumnFull b c ↔ b.slotAt 0 c ≠ GameSlot.empty := by
      constructor
      · intro h
        exact h 0 (le_refl _) hR
      · intro h r hr0 hrR
        by_cases hr : r = 0
        · rw [hr]; exact h
        · exact hgrav c 0 r hc0 hC (le_refl _) (by omega) hrR h
    rw [hfull]
    cases hs : b.slotAt 0 c <;> simp [GameSlot.isEmpty]
  refine ⟨key before hreach hrows hcC, ?_, ?_⟩
  · intro after hdrop
    have hflag : before.forceDropAllowed = true := by
      cases hb : before.forceDropAllowed
      · rw [(forceDropCoin_policy_iff before c isUserCoin).mpr hb] at hdrop
        cases hdrop
      · rfl
    obtain ⟨hsize, hgrav⟩ := reachable_invariant before hreach
    obtain ⟨after', hafter, -, hR, hC, -, -, -⟩ :=
      forceDropCoin_keeps_gravity before hsize c isUserCoin hflag hc0 hcC hgrav
    rw [hafter] at hdrop
    have heq : after' = after := Except.ok.inj hdrop
    subst heq
    exact key after' (ReachableByDrops.forceDrop before after' c isUserCoin hreach hc0 hcC hafter)
      (by omega) (by omega)
  · intro g hg
    rw [dropCoin_engine, hg]
    exact key before hreach hrows hcC

/-- Witness of C14: column 2 of the empty 6 x 7 board that allows forced drops, whose top
slot is Empty and which is not full; and the one column of the one-cell board after a
forced drop of the user into it, whose top slot is Owned and which is full. -/
theorem isEmptyAt_top_tells_full_witness :
    emptyWithPermission.isEmptyAt 2 = Except.ok true ∧
    ¬ specColumnFull emptyWithPermission 2 ∧
    oneCellWithPermission.forceDropCoin 0 true
      = Except.ok (GameBoard.ofSlots [GameSlot.userCoin] 1 1) ∧
    (GameBoard.ofSlots [GameSlot.userCoin] 1 1).isEmptyAt 0 = Except.ok false ∧
    specColumnFull (GameBoard.ofSlots [GameSlot.userCoin] 1 1) 0 := by
  have hreach : ReachableByDrops emptyWithPermission :=
    ReachableByDrops.emptyBoard emptyWithPermission (by unfold GameBoard.fullSize; decide)
      (fun slot hslot => List.eq_of_mem_replicate hslot)
  have hreachOne : ReachableByDrops oneCellWithPermission :=
    ReachableByDrops.emptyBoard oneCellWithPermission (by unfold GameBoard.fullSize; decide)
      (by decide)
  have h := isEmptyAt_top_tells_full emptyWithPermission hreach (by decide) 2 (by decide)
    (by decide) true
  have hone := (isEmptyAt_top_tells_full oneCellWithPermission hreachOne (by decide) 0
    (by decide) (by decide) true).2.1 (GameBoard.ofSlots [GameSlot.userCoin] 1 1) rfl
  exact ⟨rfl, h.1.2.mp rfl, rfl, rfl, hone.1.mp rfl⟩

/-- Claim C15: forceDropCoin fails with the logic_error "Force drop is not allowed" if and
only if the board does not allow forced drops (a call that fails writes nothing). On a
board that allows them, with one slot per cell, and for a column of the board: when the
column has an Empty slot and r is the row of its lowest one, the call returns the board
with the slot at (r, column) owned by the given owner and every other slot, the size, the
dimensions and the flag as before; when the column is full it returns the board as it
was. -/
theorem forceDropCoin_contract (b : GameBoard) (columnNumber : Int) (isUserCoin : Bool) :
    (b.forceDropCoin columnNumber isUserCoin = Except.error Fault.policy ↔
      b.forceDropAllowed = false) ∧
    (b.forceDropAllowed = true → b.fullSize → 0 ≤ columnNumber →
      columnNumber < b.numberOfColumns →
      (∀ r, 0 ≤ r → r < b.numberOfRows → b.slotAt r columnNumber = GameSlot.empty →
        (∀ r', r < r' → r' < b.numberOfRows → b.slotAt r' columnNumber ≠ GameSlot.empty) →
        ∃ after, b.forceDropCoin columnNumber isUserCoin = Except.ok after ∧
          after.numberOfRows = b.numberOfRows ∧
          after.numberOfColumns = b.numberOfColumns ∧
          after.forceDropAllowed = true ∧
          after.gameBoard.length = b.gameBoard.length ∧
          after.slotAt r columnNumber = specCoinOf isUserCoin ∧
          ∀ r' c', b.inGrid (r', c') → ¬ (r' = r ∧ c' = columnNumber) →
            after.slotAt r' c' = b.slotAt r' c') ∧
      (specColumnFull b columnNumber →
        b.forceDropCoin columnNumber isUserCoin = Except.ok b)) := by
  refine ⟨forceDropCoin_policy_iff b columnNumber isUserCoin, ?_⟩
  intro hflag hsize hc0 hcC
  refine ⟨?_, fun hfull => forceDropCoin_full b hsize columnNumber isUserCoin hflag hc0 hcC hfull⟩
  intro r hr0 hrR hempty hbelow
  refine ⟨_, forceDropCoin_lowest b hsize columnNumber r isUserCoin hflag hc0 hcC hr0 hrR
    hempty hbelow, rfl, rfl, hflag, by simp, ?_, ?_⟩
  · rw [slotAt_set b hsize r columnNumber _ ⟨hr0, hrR, hc0, hcC⟩ r columnNumber
      ⟨hr0, hrR, hc0, hcC⟩, if_pos ⟨rfl, rfl⟩]
    rfl
  · intro r' c' hgrid hne
    rw [slotAt_set b hsize r columnNumber _ ⟨hr0, hrR, hc0, hcC⟩ r' c' hgrid, if_neg hne]

/-- Witness of C15: a forced drop of the user into column 2 of the board twoInColumnTwo,
whose lowest Empty slot in that column is at row 3, and a forced drop on the empty board
built without permission. -/
theorem forceDropCoin_contract_witness :
    GameBoard.default.forceDropCoin 2 true = Except.error Fault.policy ∧
    ∃ after, twoInColumnTwo.forceDropCoin 2 true = Except.ok after ∧
      after.numberOfRows = twoInColumnTwo.numberOfRows ∧
      after.numberOfColumns = twoInColumnTwo.numberOfColumns ∧
      after.forceDropAllowed = true ∧
      after.gameBoard.length = twoInColumnTwo.gameBoard.length ∧
      after.slotAt 3 2 = specCoinOf true ∧
      ∀ r' c', twoInColumnTwo.inGrid (r', c') → ¬ (r' = 3 ∧ c' = 2) →
        after.slotAt r' c' = twoInColumnTwo.slotAt r' c' :=
  ⟨(forceDropCoin_contract GameBoard.default 2 true).1.mpr rfl,
    ((forceDropCoin_contract twoInColumnTwo 2 true).2 rfl
      (by unfold GameBoard.fullSize; decide) (by decide) (by decide)).1 3 (by decide)
      (by decide) (by decide)
      (by
        intro r' h1 h2
        have h3 : twoInColumnTwo.numberOfRows = 6 := rfl
        have h4 : r' = 4 ∨ r' = 5 := by omega
        rcases h4 with rfl | rfl <;> decide)⟩

/-- Claim C16: the gravity invariant holds on the board `GameBoard()` builds and on every
board `GameBoard(rows, columns)` builds; on a board with one slot per cell that satisfies
it, a forced drop into a column of the board returns a board that satisfies it when forced
drops are allowed, and throws, writing nothing, when they are not; dropCoin, into any
column, leaves the board of the engine as it was; and no drop changes a slot that is
Owned. -/
theorem gravity_invariant_kept (b : GameBoard) (columnNumber : Int) (isUserCoin : Bool)
    (hsize : b.fullSize) (hc0 : 0 ≤ columnNumber) (hcC : columnNumber < b.numberOfColumns)
    (hgrav : specGravity b) :
    specGravity GameBoard.default ∧
    (∀ rows columns fresh, GameBoard.ofDimensions rows columns = Except.ok fresh →
      specGravity fresh) ∧
    (b.forceDropAllowed = true →
      ∃ after, b.forceDropCoin columnNumber isUserCoin = Except.ok after ∧
        specGravity after ∧
        ∀ r c, b.inGrid (r, c) → b.slotAt r c ≠ GameSlot.empty →
          after.slotAt r c = b.slotAt r c) ∧
    (b.forceDropAllowed = false →
      b.forceDropCoin columnNumber isUserCoin = Except.error Fault.policy) ∧
    (∀ (g : ConnectFourGame) (dropInColumn : Int), g.gameBoard = b →
      specGravity (g.dropCoin dropInColumn isUserCoin).1.gameBoard ∧
        ∀ r c, (g.dropCoin dropInColumn isUserCoin).1.gameBoard.slotAt r c = b.slotAt r c) := by
  refine ⟨?_, ?_, ?_, ?_, ?_⟩
  · exact specGravity_of_empty _ (fun slot hslot => List.eq_of_mem_replicate hslot)
  · intro rows columns fresh hfresh
    unfold GameBoard.ofDimensions at hfresh
    by_cases hneg : rows * columns < 0
    · rw [if_pos hneg] at hfresh
      cases hfresh
    · rw [if_neg hneg] at hfresh
      have heq := Except.ok.inj hfresh
      subst heq
      exact specGravity_of_empty _ (fun slot hslot => List.eq_of_mem_replicate hslot)
  · intro hflag
    obtain ⟨after, hafter, -, -, -, -, hg, hkeep⟩ :=
      forceDropCoin_keeps_gravity b hsize columnNumber isUserCoin hflag hc0 hcC hgrav
    exact ⟨after, hafter, hg, hkeep⟩
  · intro hflag
    exact (forceDropCoin_policy_iff b columnNumber isUserCoin).mpr hflag
  · intro g dropInColumn hg
    rw [dropCoin_engine, hg]
    exact ⟨hgrav, fun _ _ => rfl⟩

/-- Witness of C16: a forced drop of the user into column 2 of the empty 6 x 7 board that
allows forced drops. -/
theorem gravity_invariant_kept_witness :
    ∃ after, emptyWithPermission.forceDropCoin 2 true = Except.ok after ∧
      specGravity after ∧
      ∀ r c, emptyWithPermission.inGrid (r, c) →
        emptyWithPermission.slotAt r c ≠ GameSlot.empty →
        after.slotAt r c = emptyWithPermission.slotAt r c :=
  (gravity_invariant_kept emptyWithPermission 2 true (by unfold GameBoard.fullSize; decide)
    (by decide) (by decide)
    (specGravity_of_empty emptyWithPermission
      (fun slot hslot => List.eq_of_mem_replicate hslot))).2.2.1 rfl

/-- Claim C17, amended: getBoardIndex(row, column) throws its logic_error if and only if
row >= rowCount or column >= columnCount; only these upper bounds are tested, so negative
arguments pass; in every other case it returns the 32-bit value of
row * columnCount + column, which is row * columnCount + column itself whenever that number
lies in [-INT_MAX - 1, INT_MAX]; for 0 <= row < rowCount and 0 <= column < columnCount the
number lies in [0, rowCount * columnCount), and it is what the call returns when the number
of cells is at most INT_MAX. -/
theorem getBoardIndex_upper_bounds_only (b : GameBoard) (rowNumber columnNumber : Int) :
    (b.getBoardIndex rowNumber columnNumber = Except.error Fault.geometry ↔
      rowNumber ≥ b.numberOfRows ∨ columnNumber ≥ b.numberOfColumns) ∧
    (b.getBoardIndex rowNumber columnNumber
        = Except.ok (wrap32 (rowNumber * b.numberOfColumns + columnNumber)) ↔
      ¬ (rowNumber ≥ b.numberOfRows ∨ columnNumber ≥ b.numberOfColumns)) ∧
    (-INT_MAX - 1 ≤ rowNumber * b.numberOfColumns + columnNumber →
      rowNumber * b.numberOfColumns + columnNumber ≤ INT_MAX →
      (b.getBoardIndex rowNumber columnNumber
          = Except.ok (rowNumber * b.numberOfColumns + columnNumber) ↔
        ¬ (rowNumber ≥ b.numberOfRows ∨ columnNumber ≥ b.numberOfColumns))) ∧
    (0 ≤ rowNumber → rowNumber < b.numberOfRows →
      0 ≤ columnNumber → columnNumber < b.numberOfColumns →
      0 ≤ rowNumber * b.numberOfColumns + columnNumber ∧
        rowNumber * b.numberOfColumns + columnNumber < b.numberOfRows * b.numberOfColumns ∧
        (b.numberOfRows * b.numberOfColumns ≤ INT_MAX →
          b.getBoardIndex rowNumber columnNumber
            = Except.ok (rowNumber * b.numberOfColumns + columnNumber))) := by
  rw [getBoardIndex_wrap]
  refine ⟨?_, ?_, ?_, ?_⟩
  · by_cases h : rowNumber ≥ b.numberOfRows ∨ columnNumber ≥ b.numberOfColumns
    · simp [h]
    · simp [h]
  · by_cases h : rowNumber ≥ b.numberOfRows ∨ columnNumber ≥ b.numberOfColumns
    · simp [h]
    · simp [h]
  · intro hlo hhi
    have hw : wrap32 (rowNumber * b.numberOfColumns + columnNumber)
        = rowNumber * b.numberOfColumns + columnNumber :=
      wrap32_of_int _ (by unfold INT_MAX at hlo; omega) hhi
    rw [hw]
    by_cases h : rowNumber ≥ b.numberOfRows ∨ columnNumber ≥ b.numberOfColumns
    · simp [h]
    · simp [h]
  · intro h1 h2 h3 h4
    have hnn := flat_nonneg _ _ _ h1 h3 h4
    have hlt := flat_lt _ _ _ _ h2 h3 h4
    refine ⟨hnn, hlt, ?_⟩
    intro hfit
    rw [if_neg (by omega), wrap32_of_int _ (by omega) (by omega)]

/-- Witness of C17: on the 6 x 7 board, row 6 and column 7 are refused, row -1 is
accepted, and the cell (5, 6) has the index 41 of [0, 42). -/
theorem getBoardIndex_upper_bounds_only_witness :
    GameBoard.default.getBoardIndex 6 0 = Except.error Fault.geometry ∧
    GameBoard.default.getBoardIndex 0 7 = Except.error Fault.geometry ∧
    GameBoard.default.getBoardIndex (-1) 3 = Except.ok (-4) ∧
    GameBoard.default.getBoardIndex 5 6 = Except.ok 41 ∧
    (0 : Int) ≤ 41 ∧ (41 : Int) < 42 :=
  ⟨(getBoardIndex_upper_bounds_only GameBoard.default 6 0).1.mpr (by decide),
    (getBoardIndex_upper_bounds_only GameBoard.default 0 7).1.mpr (by decide),
    ((getBoardIndex_upper_bounds_only GameBoard.default (-1) 3).2.2.1 (by decide)
      (by decide)).mpr (by decide),
    ((getBoardIndex_upper_bounds_only GameBoard.default 5 6).2.2.2 (by decide) (by decide)
      (by decide) (by decide)).2.2 (by decide),
    ((getBoardIndex_upper_bounds_only GameBoard.default 5 6).2.2.2 (by decide) (by decide)
      (by decide) (by decide)).1,
    ((getBoardIndex_upper_bounds_only GameBoard.default 5 6).2.2.2 (by decide) (by decide)
      (by decide) (by decide)).2.1⟩

/-- Counterexample to C17 as stated: on the 6 x 7 board the arguments (-400000000, 0) pass
the test, and the call returns 1494967296, the 32-bit value of -2800000000, not
row * columnCount + column; so it is not the case that the call returns
row * columnCount + column whenever neither upper bound is reached. -/
theorem getBoardIndex_wraps_below_the_grid :
    ¬ ((-400000000 : Int) ≥ GameBoard.default.numberOfRows ∨
        (0 : Int) ≥ GameBoard.default.numberOfColumns) ∧
    (-400000000 : Int) * GameBoard.default.numberOfColumns + 0 = -2800000000 ∧
    GameBoard.default.getBoardIndex (-400000000) 0 = Except.ok 1494967296 ∧
    GameBoard.default.getBoardIndex (-400000000) 0
      ≠ Except.ok ((-400000000 : Int) * GameBoard.default.numberOfColumns + 0) ∧
    ¬ ∀ (b : GameBoard) (rowNumber columnNumber : Int),
        ¬ (rowNumber ≥ b.numberOfRows ∨ columnNumber ≥ b.numberOfColumns) →
        b.getBoardIndex rowNumber columnNumber
          = Except.ok (rowNumber * b.numberOfColumns + columnNumber) := by
  have hval : GameBoard.default.getBoardIndex (-400000000) 0 = Except.ok 1494967296 := rfl
  have hne : GameBoard.default.getBoardIndex (-400000000) 0
      ≠ Except.ok ((-400000000 : Int) * GameBoard.default.numberOfColumns + 0) := by
    rw [hval]
    intro h
    have h2 : (1494967296 : Int)
        = (-400000000 : Int) * GameBoard.default.numberOfColumns + 0 := Except.ok.inj h
    revert h2
    decide
  refine ⟨by decide, by decide, hval, hne, ?_⟩
  intro hall
  exact hne (hall GameBoard.default (-400000000) 0 (by decide))

/-- Claim C18: on a board with at least one column (and so at least one row), for every
flat index i with 0 <= i < rowCount * columnCount that is an int (at most INT_MAX),
getRowNumber and getColumnNumber return i / columnCount and i % columnCount, and
getBoardIndex of the two returns i. -/
theorem getBoardIndex_round_trip (b : GameBoard) (i : Int) (hC : 1 ≤ b.numberOfColumns)
    (h0 : 0 ≤ i) (hi : i < b.numberOfRows * b.numberOfColumns) (hint : i ≤ INT_MAX) :
    (do
      let rowNumber ← b.getRowNumber i
      let columnNumber ← b.getColumnNumber i
      b.getBoardIndex rowNumber columnNumber) = Except.ok i ∧
    b.getRowNumber i = Except.ok (Int.tdiv i b.numberOfColumns) ∧
    b.getColumnNumber i = Except.ok (Int.tmod i b.numberOfColumns) ∧
    b.getBoardIndex (Int.tdiv i b.numberOfColumns) (Int.tmod i b.numberOfColumns)
      = Except.ok i := by
  obtain ⟨h1, h2, h3, h4, h5⟩ := index_row_col i b.numberOfRows b.numberOfColumns (by omega) h0 hi
  have hrow : b.getRowNumber i = Except.ok (Int.tdiv i b.numberOfColumns) := by
    unfold GameBoard.getRowNumber
    rw [if_neg (by omega)]
  have hcol : b.getColumnNumber i = Except.ok (Int.tmod i b.numberOfColumns) := by
    unfold GameBoard.getColumnNumber
    rw [if_neg (by omega)]
  have hidx : b.getBoardIndex (Int.tdiv i b.numberOfColumns) (Int.tmod i b.numberOfColumns)
      = Except.ok i := by
    rw [getBoardIndex_wrap, if_neg (by omega), h5, wrap32_of_int i (by omega) hint]
  refine ⟨?_, hrow, hcol, hidx⟩
  rw [hrow, hcol]
  exact hidx

/-- Witness of C18: the flat index 38 of the 6 x 7 board, row 5 and column 3. -/
theorem getBoardIndex_round_trip_witness :
    (do
      let rowNumber ← GameBoard.default.getRowNumber 38
      let columnNumber ← GameBoard.default.getColumnNumber 38
      GameBoard.default.getBoardIndex rowNumber columnNumber) = Except.ok 38 ∧
    GameBoard.default.getRowNumber 38 = Except.ok 5 ∧
    GameBoard.default.getColumnNumber 38 = Except.ok 3 ∧
    GameBoard.default.getBoardIndex 5 3 = Except.ok 38 :=
  getBoardIndex_round_trip GameBoard.default 38 (by decide) (by decide) (by decide)
    (by decide)

/-- Claim C19: on a board with at least one column and at most INT_MAX cells, for every
flat index i with 0 <= i < rowCount * columnCount, row(i) = i / columnCount and column(i) = i % columnCount:
getDiagonalCellToRightGoingUp(i) throws if and only if row(i) = 0 or column(i) is the last
column, and otherwise returns the flat index of (row(i) - 1, column(i) + 1);
getDiagonalCellToRightGoingDown(i) throws if and only if row(i) is the last row or
column(i) is the last column, and otherwise returns the flat index of
(row(i) + 1, column(i) + 1); when they return, the inner getBoardIndex call returns too
and the result lies in [0, rowCount * columnCount). -/
theorem diagonal_neighbours_contract (b : GameBoard) (i : Int)
    (hfit : b.numberOfRows * b.numberOfColumns ≤ INT_MAX)
    (hC : 0 < b.numberOfColumns) (h0 : 0 ≤ i)
    (hi : i < b.numberOfRows * b.numberOfColumns) :
    (b.getDiagonalCellToRightGoingUp i = Except.error Fault.geometry ↔
      Int.tdiv i b.numberOfColumns = 0 ∨
        Int.tmod i b.numberOfColumns = b.numberOfColumns - 1) ∧
    (¬ (Int.tdiv i b.numberOfColumns = 0 ∨
        Int.tmod i b.numberOfColumns = b.numberOfColumns - 1) →
      b.getDiagonalCellToRightGoingUp i
          = Except.ok (b.flatIndex (Int.tdiv i b.numberOfColumns - 1,
              Int.tmod i b.numberOfColumns + 1)) ∧
        b.getBoardIndex (Int.tdiv i b.numberOfColumns - 1) (Int.tmod i b.numberOfColumns + 1)
          = Except.ok (b.flatIndex (Int.tdiv i b.numberOfColumns - 1,
              Int.tmod i b.numberOfColumns + 1)) ∧
        0 ≤ b.flatIndex (Int.tdiv i b.numberOfColumns - 1, Int.tmod i b.numberOfColumns + 1) ∧
        b.flatIndex (Int.tdiv i b.numberOfColumns - 1, Int.tmod i b.numberOfColumns + 1)
          < b.numberOfRows * b.numberOfColumns) ∧
    (b.getDiagonalCellToRightGoingDown i = Except.error Fault.geometry ↔
      Int.tdiv i b.numberOfColumns = b.numberOfRows - 1 ∨
        Int.tmod i b.numberOfColumns = b.numberOfColumns - 1) ∧
    (¬ (Int.tdiv i b.numberOfColumns = b.numberOfRows - 1 ∨
        Int.tmod i b.numberOfColumns = b.numberOfColumns - 1) →
      b.getDiagonalCellToRightGoingDown i
          = Except.ok (b.flatIndex (Int.tdiv i b.numberOfColumns + 1,
              Int.tmod i b.numberOfColumns + 1)) ∧
        b.getBoardIndex (Int.tdiv i b.numberOfColumns + 1) (Int.tmod i b.numberOfColumns + 1)
          = Except.ok (b.flatIndex (Int.tdiv i b.numberOfColumns + 1,
              Int.tmod i b.numberOfColumns + 1)) ∧
        0 ≤ b.flatIndex (Int.tdiv i b.numberOfColumns + 1, Int.tmod i b.numberOfColumns + 1) ∧
        b.flatIndex (Int.tdiv i b.numberOfColumns + 1, Int.tmod i b.numberOfColumns + 1)
          < b.numberOfRows * b.numberOfColumns) := by
  obtain ⟨h1, h2, h3, h4, -⟩ := index_row_col i b.numberOfRows b.numberOfColumns hC h0 hi
  rw [getDiagonalCellToRightGoingUp_eq b i hfit hC h0 hi,
    getDiagonalCellToRightGoingDown_eq b i hfit hC h0 hi]
  simp only [GameBoard.flatIndex]
  refine ⟨?_, ?_, ?_, ?_⟩
  · by_cases h : Int.tdiv i b.numberOfColumns = 0 ∨
        Int.tmod i b.numberOfColumns = b.numberOfColumns - 1
    · simp [h]
    · simp [h]
  · intro h
    rw [if_neg h]
    exact ⟨rfl, getBoardIndex_inRange b _ _ hfit (by omega) (by omega) (by omega) (by omega),
      flat_nonneg _ _ _ (by omega) (by omega) (by omega),
      flat_lt _ _ _ _ (by omega) (by omega) (by omega)⟩
  · by_cases h : Int.tdiv i b.numberOfColumns = b.numberOfRows - 1 ∨
        Int.tmod i b.numberOfColumns = b.numberOfColumns - 1
    · simp [h]
    · simp [h]
  · intro h
    rw [if_neg h]
    exact ⟨rfl, getBoardIndex_inRange b _ _ hfit (by omega) (by omega) (by omega) (by omega),
      flat_nonneg _ _ _ (by omega) (by omega) (by omega),
      flat_lt _ _ _ _ (by omega) (by omega) (by omega)⟩

/-- Witness of C19: on the 6 x 7 board, the indices 3 (row 0), 13 (last column) and 38
(last row, column 3). -/
theorem diagonal_neighbours_contract_witness :
    GameBoard.default.getDiagonalCellToRightGoingUp 3 = Except.error Fault.geometry ∧
    GameBoard.default.getDiagonalCellToRightGoingUp 13 = Except.error Fault.geometry ∧
    GameBoard.default.getDiagonalCellToRightGoingUp 38 = Except.ok 32 ∧
    GameBoard.default.getDiagonalCellToRightGoingDown 38 = Except.error Fault.geometry ∧
    GameBoard.default.getDiagonalCellToRightGoingDown 13 = Except.error Fault.geometry ∧
    GameBoard.default.getDiagonalCellToRightGoingDown 3 = Except.ok 11 :=
  ⟨(diagonal_neighbours_contract GameBoard.default 3 (by decide) (by decide) (by decide)
      (by decide)).1.mpr (by decide),
    (diagonal_neighbours_contract GameBoard.default 13 (by decide) (by decide) (by decide)
      (by decide)).1.mpr (by decide),
    ((diagonal_neighbours_contract GameBoard.default 38 (by decide) (by decide) (by decide)
      (by decide)).2.1 (by decide)).1,
    (diagonal_neighbours_contract GameBoard.default 38 (by decide) (by decide) (by decide)
      (by decide)).2.2.1.mpr (by decide),
    (diagonal_neighbours_contract GameBoard.default 13 (by decide) (by decide) (by decide)
      (by decide)).2.2.1.mpr (by decide),
    ((diagonal_neighbours_contract GameBoard.default 3 (by decide) (by decide) (by decide)
      (by decide)).2.2.2 (by decide)).1⟩

/-- Claim C20: for a non-empty vector of scores that are all at least -INT_MAX, the
selection loop of counterUserMove, run over the indices 0 to length - 1 from the state
(bestMove, bestScore) = (0, -INT_MAX), returns an index of the vector whose score is the
maximum and before which every score is strictly smaller: the lowest index of the maximum,
with that maximum as bestScore. The loop reads the scores only, so the order in which they
were written into the vector has no part in the result. -/
theorem selectBestMove_lowest_maximum (moveScores : List Int) (hne : moveScores ≠ [])
    (hmin : ∀ score ∈ moveScores, -INT_MAX ≤ score) :
    ∃ best : Nat, best < moveScores.length ∧
      selectBestMove moveScores (intRange 0 ((moveScores.length : Int) - 1))
          (0, wrap32 (-1 * INT_MAX))
        = Except.ok ((best : Int), moveScores.getD best 0) ∧
      (∀ j, j < moveScores.length → moveScores.getD j 0 ≤ moveScores.getD best 0) ∧
      (∀ j, j < best → moveScores.getD j 0 < moveScores.getD best 0) := by
  have hlen : 0 < moveScores.length := List.length_pos.mpr hne
  have h0 : -INT_MAX ≤ moveScores.getD 0 0 := by
    apply hmin
    rw [List.getD_eq_getElem _ _ hlen]
    exact List.getElem_mem _
  obtain ⟨best, hb, hsel, hmax, hlow⟩ := selectBestMove_from moveScores
    (moveScores.length - 1) 1 0 (by omega) hlen
    (fun j hj => by
      have : j = 0 := by omega
      rw [this])
    (fun j hj => by omega)
  refine ⟨best, hb, ?_, hmax, hlow⟩
  rw [intRange_cons _ _ (by omega), initialBestScore]
  unfold selectBestMove
  rw [if_pos ⟨by omega, by omega⟩]
  simp only [Int.toNat_zero]
  by_cases hgt : moveScores.getD 0 0 > (0, -INT_MAX).2
  · rw [if_pos hgt]
    simpa using hsel
  · rw [if_neg hgt]
    have heq : -INT_MAX = moveScores.getD 0 0 := by
      simp only [gt_iff_lt, not_lt] at hgt
      omega
    rw [heq]
    simpa using hsel

/-- Witness of C20: the scores 3, 7, 7, 1. -/
theorem selectBestMove_lowest_maximum_witness :
    selectBestMove [3, 7, 7, 1] (intRange 0 3) (0, wrap32 (-1 * INT_MAX))
      = Except.ok (1, 7) ∧
    ∃ best : Nat, best < [(3 : Int), 7, 7, 1].length ∧
      selectBestMove [3, 7, 7, 1] (intRange 0 ((([(3 : Int), 7, 7, 1].length : Nat) : Int) - 1))
          (0, wrap32 (-1 * INT_MAX))
        = Except.ok ((best : Int), [(3 : Int), 7, 7, 1].getD best 0) ∧
      (∀ j, j < [(3 : Int), 7, 7, 1].length →
        [(3 : Int), 7, 7, 1].getD j 0 ≤ [(3 : Int), 7, 7, 1].getD best 0) ∧
      (∀ j, j < best → [(3 : Int), 7, 7, 1].getD j 0 < [(3 : Int), 7, 7, 1].getD best 0) :=
  ⟨rfl, selectBestMove_lowest_maximum [3, 7, 7, 1] (by decide) (by decide)⟩

/-- Claim C21: on an engine whose board has one slot per cell, for every column c that
isValidPlay accepts, the board has at least one row, c is a column of it and its top slot is
Empty; the bottom-to-top scan of getAvailableSlot ends within its bound and returns the flat
index `r * columnCount + c` of the Empty slot of column c with the largest row r; the
indices it hands to isEmptyAt are those of rows `rowCount - 1` down to r of column c, each
inside the slot vector and in column c; and the scan never runs out, so the trailing
`assert(false)` is not reached. -/
theorem getAvailableSlot_scan_finds_lowest_empty (g : ConnectFourGame) (c : Int)
    (hsize : g.gameBoard.fullSize) (hvalid : g.isValidPlay c = Except.ok true) :
    1 ≤ g.gameBoard.numberOfRows ∧ 0 ≤ c ∧ c < g.gameBoard.numberOfColumns ∧
    g.gameBoard.slotAt 0 c = GameSlot.empty ∧
    ∃ r : Int, 0 ≤ r ∧ r < g.gameBoard.numberOfRows ∧
      g.gameBoard.slotAt r c = GameSlot.empty ∧
      (∀ r', r < r' → r' < g.gameBoard.numberOfRows →
        g.gameBoard.slotAt r' c ≠ GameSlot.empty) ∧
      g.getAvailableSlot c = Except.ok (r * g.gameBoard.numberOfColumns + c) ∧
      g.gameBoard.firstEmptyFromBottom c (g.gameBoard.gameBoard.length + 1)
          (c + g.gameBoard.numberOfColumns * (g.gameBoard.numberOfRows - 1))
        = Except.ok (some (r * g.gameBoard.numberOfColumns + c)) ∧
      g.getAvailableSlot c ≠ Except.error Fault.assertion ∧
      g.getAvailableSlotInspected c
        = (intRange r (g.gameBoard.numberOfRows - 1)).reverse.map
            (fun r' => r' * g.gameBoard.numberOfColumns + c) ∧
      ∀ i ∈ g.getAvailableSlotInspected c,
        0 ≤ i ∧ i < g.gameBoard.gameBoard.length ∧
          g.gameBoard.getColumnNumber i = Except.ok c ∧
          ∃ r', r ≤ r' ∧ r' < g.gameBoard.numberOfRows ∧
            g.gameBoard.getRowNumber i = Except.ok r' := by
  obtain ⟨hc0, hcC⟩ := isValidPlay_column g c hvalid
  obtain ⟨hin, htop⟩ := isValidPlay_top_empty g c hvalid
  have hlen : (g.gameBoard.gameBoard.length : Int)
      = g.gameBoard.numberOfRows * g.gameBoard.numberOfColumns := hsize
  have hR : 1 ≤ g.gameBoard.numberOfRows := by
    by_contra hneg
    have h1 : g.gameBoard.numberOfRows * g.gameBoard.numberOfColumns ≤ 0 :=
      Int.mul_nonpos_of_nonpos_of_nonneg (by omega) (by omega)
    omega
  refine ⟨hR, hc0, hcC, htop, ?_⟩
  rcases column_lowest_empty_or_full g.gameBoard c with ⟨r, hr0, hrR, hempty, hbelow⟩ | hfull
  · have havail := getAvailableSlot_lowest g c r hsize hvalid hr0 hrR hempty hbelow
    have hn : g.gameBoard.numberOfRows - 1
        = r + ((g.gameBoard.numberOfRows - 1 - r).toNat : Int) := by omega
    have hfuel : (g.gameBoard.numberOfRows - 1 - r).toNat + 1
        ≤ g.gameBoard.gameBoard.length + 1 := by
      have := fullSize_rows_le_length g.gameBoard hsize (by omega)
      omega
    have hscan : g.gameBoard.firstEmptyFromBottom c (g.gameBoard.gameBoard.length + 1)
          (c + g.gameBoard.numberOfColumns * (g.gameBoard.numberOfRows - 1))
        = Except.ok (some (r * g.gameBoard.numberOfColumns + c)) := by
      rw [hn]
      exact firstEmptyFromBottom_found g.gameBoard hsize r c hr0 hc0 hcC hempty _ _ (by omega)
        (fun r' h1 h2 => hbelow r' h1 (by omega)) hfuel
    have htrace : g.getAvailableSlotInspected c
        = (intRange r (g.gameBoard.numberOfRows - 1)).reverse.map
            (fun r' => r' * g.gameBoard.numberOfColumns + c) := by
      unfold getAvailableSlotInspected
      rw [hvalid]
      simp only [GameBoard.getNumberOfColumns, GameBoard.getNumberOfRows]
      rw [hn]
      exact firstEmptyFromBottomTraced_found g.gameBoard hsize r c hr0 hc0 hcC hempty _ _
        (by omega) (fun r' h1 h2 => hbelow r' h1 (by omega)) hfuel
    refine ⟨r, hr0, hrR, hempty, hbelow, havail, hscan, ?_, htrace, ?_⟩
    · rw [havail]
      intro h
      cases h
    · intro i hi
      rw [htrace] at hi
      simp only [List.mem_map, List.mem_reverse, mem_intRange] at hi
      obtain ⟨r', ⟨h1, h2⟩, rfl⟩ := hi
      have hr'0 : 0 ≤ r' := by omega
      refine ⟨flat_nonneg r' c _ hr'0 hc0 hcC, ?_,
        getColumnNumber_flat g.gameBoard r' c hr'0 hc0 hcC, r', h1, by omega,
        getRowNumber_flat g.gameBoard r' c hr'0 hc0 hcC⟩
      rw [hlen]
      exact flat_lt r' c _ _ (by omega) hc0 hcC
  · exact absurd htop (hfull 0 (le_refl _) (by omega))

/-- Witness of C21: column 3 of the 6 x 7 board with one user coin at row 5 of that column.
The scan looks at index 38, which holds the coin, then at index 31, and returns 31. -/
theorem getAvailableSlot_scan_finds_lowest_empty_witness :
    (engineOn oneCoinInColumnThree).gameBoard.fullSize ∧
    (engineOn oneCoinInColumnThree).isValidPlay 3 = Except.ok true ∧
    (engineOn oneCoinInColumnThree).getAvailableSlot 3 = Except.ok 31 ∧
    (engineOn oneCoinInColumnThree).getAvailableSlotInspected 3 = [38, 31] ∧
    1 ≤ (engineOn oneCoinInColumnThree).gameBoard.numberOfRows ∧ (0 : Int) ≤ 3 ∧
    3 < (engineOn oneCoinInColumnThree).gameBoard.numberOfColumns ∧
    (engineOn oneCoinInColumnThree).gameBoard.slotAt 0 3 = GameSlot.empty ∧
    ∃ r : Int, 0 ≤ r ∧ r < (engineOn oneCoinInColumnThree).gameBoard.numberOfRows ∧
      (engineOn oneCoinInColumnThree).gameBoard.slotAt r 3 = GameSlot.empty ∧
      (∀ r', r < r' → r' < (engineOn oneCoinInColumnThree).gameBoard.numberOfRows →
        (engineOn oneCoinInColumnThree).gameBoard.slotAt r' 3 ≠ GameSlot.empty) ∧
      (engineOn oneCoinInColumnThree).getAvailableSlot 3
        = Except.ok (r * (engineOn oneCoinInColumnThree).gameBoard.numberOfColumns + 3) ∧
      (engineOn oneCoinInColumnThree).gameBoard.firstEmptyFromBottom 3
          ((engineOn oneCoinInColumnThree).gameBoard.gameBoard.length + 1)
          (3 + (engineOn oneCoinInColumnThree).gameBoard.numberOfColumns
            * ((engineOn oneCoinInColumnThree).gameBoard.numberOfRows - 1))
        = Except.ok (some (r * (engineOn oneCoinInColumnThree).gameBoard.numberOfColumns + 3)) ∧
      (engineOn oneCoinInColumnThree).getAvailableSlot 3 ≠ Except.error Fault.assertion ∧
      (engineOn oneCoinInColumnThree).getAvailableSlotInspected 3
        = (intRange r ((engineOn oneCoinInColumnThree).gameBoard.numberOfRows - 1)).reverse.map
            (fun r' => r' * (engineOn oneCoinInColumnThree).gameBoard.numberOfColumns + 3) ∧
      ∀ i ∈ (engineOn oneCoinInColumnThree).getAvailableSlotInspected 3,
        0 ≤ i ∧ i < (engineOn oneCoinInColumnThree).gameBoard.gameBoard.length ∧
          (engineOn oneCoinInColumnThree).gameBoard.getColumnNumber i = Except.ok 3 ∧
          ∃ r', r ≤ r' ∧ r' < (engineOn oneCoinInColumnThree).gameBoard.numberOfRows ∧
            (engineOn oneCoinInColumnThree).gameBoard.getRowNumber i = Except.ok r' :=
  ⟨by unfold GameBoard.fullSize; decide, rfl, rfl, rfl,
    getAvailableSlot_scan_finds_lowest_empty (engineOn oneCoinInColumnThree) 3
      (by unfold GameBoard.fullSize; decide) rfl⟩

/-- Claim C22, on the code: the reply of dropCoin does not hand getGameSlot the index
getAvailableSlot returned. It passes that flat index to getBoardIndex as a row. On the
engine `ConnectFourGame()` builds, after the legal, non-winning drop of the user into
column 6, getAvailableSlot gives 35 to 41 for columns 0 to 6 and the index of the reply is a
GeometryError for every one of them (for column 3: `getBoardIndex(38, 3)`), so dropCoin ends
in that fault when counterUserMove is given the result 3. On the board
secondColumnNearlyFull, after the same drop and with the reply in column 1, getAvailableSlot
gives 1 and the reply computes `1 * 7 + 1 = 8`, the slot at row 1 of column 1, which holds
a user coin; dropCoin returns. And counterUserMove itself returns no column for any engine,
so the reply is not reached at all. -/
theorem computerReplyIndex_is_not_available_slot :
    ConnectFourGame.default.isValidPlay 6 = Except.ok true ∧
    ConnectFourGame.default.wasWinningPlay 6 true = Except.ok false ∧
    (intRange 0 6).map ConnectFourGame.default.getAvailableSlot
      = [Except.ok 35, Except.ok 36, Except.ok 37, Except.ok 38, Except.ok 39, Except.ok 40,
          Except.ok 41] ∧
    (intRange 0 6).map ConnectFourGame.default.computerReplyIndex
      = List.replicate 7 (Except.error Fault.geometry) ∧
    GameBoard.default.getBoardIndex 38 3 = Except.error Fault.geometry ∧
    (dropCoinWith (fun _ => Except.ok 3) ConnectFourGame.default 6 true).2
      = Except.error Fault.geometry ∧
    (engineOn secondColumnNearlyFull).isValidPlay 6 = Except.ok true ∧
    (engineOn secondColumnNearlyFull).wasWinningPlay 6 true = Except.ok false ∧
    (engineOn secondColumnNearlyFull).getAvailableSlot 1 = Except.ok 1 ∧
    (engineOn secondColumnNearlyFull).computerReplyIndex 1 = Except.ok 8 ∧
    secondColumnNearlyFull.slotAt 0 1 = GameSlot.empty ∧
    secondColumnNearlyFull.slotAt 1 1 = GameSlot.userCoin ∧
    dropCoinWith (fun _ => Except.ok 1) (engineOn secondColumnNearlyFull) 6 true
      = (engineOn secondColumnNearlyFull, Except.ok ()) ∧
    ∀ (g : ConnectFourGame) (c : Int), g.counterUserMove ≠ Except.ok c :=
  ⟨rfl, rfl, rfl, rfl, rfl, rfl, rfl, rfl, rfl, rfl, rfl, rfl, rfl, counterUserMove_ne_ok⟩

end ConnectFour
